import Mathlib

/-!
# Worker pools of `cs-mastery` (week 01, microservices)

A shallow embedding of the worker-pool code:

* `courses/03-microservices/week-01/examples/worker-patterns.go`
  (`SimpleWorkerPool`, `AdvancedWorkerPool`, `PriorityWorkerPool`, `DynamicWorkerPool`),
* `courses/03-microservices/week-01/examples/advanced-patterns.go` (`ContextWorkerPool`),
* `projects/mini-projects/03-microservices/week-01-worker-pool/internal/pool/pool.go` (`Pool`).

Conventions of the embedding.

* A buffered channel is its queue of pending elements, its capacity and its closed flag.
* A `context.Context` is one bit: whether `Done()` is closed.
* A Go `select` picks any one of the cases that can proceed, so a function whose body is a
  `select` returns the list of all outcomes the runtime may choose.  When no case can proceed
  the goroutine blocks; if the `select` has a `time.After` case, that case is the one which
  fires in an otherwise unchanged state.
* `int` is 64 bit and `int32` is 32 bit two's complement; results of arithmetic are wrapped.
* A channel of capacity 0 is its empty queue: the hand-over of an element from a sender to a
  receiver that is already waiting is not represented, so on such a channel no send proceeds.
  The pools and limiters of the scenarios have a capacity of at least 1.
* The `Data` of a job, an `interface{}`, is the text `%v` prints for it; the nil `Data` of
  the zero `Job` is the empty text.
* A `float64` is the rational number it stands for; each conversion, division,
  multiplication and addition rounds on its own to the nearest `float64`, ties to even.
-/

namespace CsMastery

/-! ## Go runtime primitives -/

/-- Buffered Go channel: pending elements (the head is received next), capacity, closed flag. -/
structure Chan (α : Type) where
  buf : List α
  cap : Nat
  closed : Bool
deriving DecidableEq, Repr

/-- The channel made by `make(chan T, cap)`. -/
def Chan.make {α : Type} (cap : Nat) : Chan α := ⟨[], cap, false⟩

/-- The value of `len(ch)`. -/
def Chan.len {α : Type} (c : Chan α) : Nat := c.buf.length

/-- The channel after a send that found room. -/
def Chan.push {α : Type} (c : Chan α) (x : α) : Chan α := { c with buf := c.buf ++ [x] }

/-- The statement `close(ch)`: closing a closed channel panics (`none`). -/
def Chan.close {α : Type} (c : Chan α) : Option (Chan α) :=
  if c.closed then none else some { c with closed := true }

/-- Two's complement wrap of an integer into `int32`. -/
def wrapInt32 (x : Int) : Int := (x + 2147483648) % 4294967296 - 2147483648

/-- Two's complement wrap of an integer into the 64 bit `int`. -/
def wrapInt64 (x : Int) : Int :=
  (x + 9223372036854775808) % 18446744073709551616 - 9223372036854775808

/-- Non-nil errors returned by the pools. -/
inductive GoError where
  /-- The value of `ctx.Err()` once `ctx.Done()` is closed. -/
  | ctxErr
  /-- The `fmt.Errorf("... submission timeout")` of the `time.After` case. -/
  | submissionTimeout
deriving DecidableEq, Repr

/-- What a call of a `Submit` method can do. -/
inductive SubmitOutcome (σ : Type) where
  /-- The send case was chosen: the job is in the queue and `nil` is returned. -/
  | accepted (p : σ)
  /-- A non-nil error is returned and the pool is unchanged. -/
  | failed (e : GoError)
  /-- The send case was chosen on a closed channel: `panic: send on closed channel`. -/
  | panicked
  /-- No case can proceed and there is no timer case. -/
  | blocked
deriving DecidableEq, Repr

/-- Outcomes of a `select`: any ready case; `idle` when none is ready. -/
def goSelect {α : Type} (ready : List α) (idle : α) : List α :=
  match ready with
  | [] => [idle]
  | r :: rs => r :: rs

/-! ## Jobs and results (`go-basics.go`, `worker-patterns.go`) -/

/-- The `Job` the example pools work on: `ID`, `Data` and the `Timeout` read by
`processJobWithContext` (nanoseconds). -/
structure Job where
  ID : String
  Data : String
  Timeout : Int
deriving DecidableEq, Repr

/-- The zero value of `Job`, received from a closed and drained channel. -/
def Job.zero : Job := ⟨"", "", 0⟩

/-- The `Result` of the example pools; `Error` is `none` for a nil error. -/
structure Result where
  JobID : String
  Data : Option String
  Error : Option String
  Worker : Int
deriving DecidableEq, Repr

/-- Go `PriorityJob`: a `Job` with a priority, higher number = higher priority. -/
structure PriorityJob extends Job where
  Priority : Int
deriving DecidableEq, Repr

/-- The zero value of `PriorityJob`. -/
def PriorityJob.zero : PriorityJob := { toJob := Job.zero, Priority := 0 }

/-! ## 3. Priority queue worker pool -/

/-- The three job queues of `PriorityWorkerPool`. -/
inductive Band where
  | high
  | med
  | low
deriving DecidableEq, Repr

/-- Go `PriorityWorkerPool`; `done` is `ctx.Done()` being closed, `wg` holds the ids of the
worker goroutines that were started and have not returned. -/
structure PriorityWorkerPool where
  workers : Int
  highPriority : Chan PriorityJob
  medPriority : Chan PriorityJob
  lowPriority : Chan PriorityJob
  resultQueue : Chan Result
  done : Bool
  wg : List Int
deriving DecidableEq, Repr

/-- Go `NewPriorityWorkerPool(ctx, workers)`; the child context is done iff the parent is. -/
def NewPriorityWorkerPool (parentDone : Bool) (workers : Int) : PriorityWorkerPool :=
  { workers := workers
    highPriority := Chan.make 100
    medPriority := Chan.make 200
    lowPriority := Chan.make 500
    resultQueue := Chan.make 100
    done := parentDone
    wg := [] }

/-- The channel of a band. -/
def PriorityWorkerPool.queue (pwp : PriorityWorkerPool) : Band → Chan PriorityJob
  | .high => pwp.highPriority
  | .med => pwp.medPriority
  | .low => pwp.lowPriority

/-- Replace the channel of a band. -/
def PriorityWorkerPool.setQueue (pwp : PriorityWorkerPool) (b : Band)
    (c : Chan PriorityJob) : PriorityWorkerPool :=
  match b with
  | .high => { pwp with highPriority := c }
  | .med => { pwp with medPriority := c }
  | .low => { pwp with lowPriority := c }

/-- The `switch` of `PriorityWorkerPool.Submit` that picks `targetQueue`. -/
def PriorityWorkerPool.targetQueue (job : PriorityJob) : Band :=
  if job.Priority ≥ 8 then .high
  else if job.Priority ≥ 5 then .med
  else .low

/-- Go `PriorityWorkerPool.Submit`: the `select` over the send to `targetQueue`, `ctx.Done()`
and the two second timer. -/
def PriorityWorkerPool.Submit (pwp : PriorityWorkerPool) (job : PriorityJob) :
    List (SubmitOutcome PriorityWorkerPool) :=
  let b := PriorityWorkerPool.targetQueue job
  let q := pwp.queue b
  let sendCase : List (SubmitOutcome PriorityWorkerPool) :=
    if q.closed then [.panicked]
    else if q.buf.length < q.cap then [.accepted (pwp.setQueue b (q.push job))]
    else []
  let doneCase : List (SubmitOutcome PriorityWorkerPool) :=
    if pwp.done then [.failed .ctxErr] else []
  goSelect (sendCase ++ doneCase) (.failed .submissionTimeout)

/-- What one iteration of the `priorityWorker` loop can do at its `select`. -/
inductive WorkerOutcome where
  /-- A job was received from the channel of band `b`, leaving pool `p`. -/
  | took (b : Band) (job : PriorityJob) (p : PriorityWorkerPool)
  /-- The `ctx.Done()` case was chosen: the worker returns. -/
  | stopped
  /-- No case can proceed. -/
  | blocked
deriving DecidableEq, Repr

/-- The receive case of one band: ready when a job is buffered, or when the channel is closed
(the zero value is received). -/
def PriorityWorkerPool.recvCase (pwp : PriorityWorkerPool) (b : Band) : List WorkerOutcome :=
  match (pwp.queue b).buf with
  | j :: rest => [.took b j (pwp.setQueue b { pwp.queue b with buf := rest })]
  | [] => if (pwp.queue b).closed then [.took b PriorityJob.zero pwp] else []

/-- The `select` of `priorityWorker`: the three receive cases and `ctx.Done()`. -/
def PriorityWorkerPool.priorityWorker (pwp : PriorityWorkerPool) : List WorkerOutcome :=
  goSelect
    (pwp.recvCase .high ++ pwp.recvCase .med ++ pwp.recvCase .low ++
      (if pwp.done then [.stopped] else []))
    .blocked

/-- Go `PriorityWorkerPool.Start`: one `wg.Add(1); go pwp.priorityWorker(i)` per `i < workers`. -/
def PriorityWorkerPool.Start (pwp : PriorityWorkerPool) : PriorityWorkerPool :=
  { pwp with wg := pwp.wg ++ (List.range pwp.workers.toNat).map Int.ofNat }

/-- Go `PriorityWorkerPool.Stop`: `cancel()`, `wg.Wait()` (every worker has returned), then
`close` of the three job channels and of the result channel; `none` is a panic. -/
def PriorityWorkerPool.Stop (pwp : PriorityWorkerPool) : Option PriorityWorkerPool :=
  match pwp.highPriority.close, pwp.medPriority.close, pwp.lowPriority.close,
      pwp.resultQueue.close with
  | some h, some m, some l, some r =>
    some { pwp with done := true, wg := [], highPriority := h, medPriority := m,
                    lowPriority := l, resultQueue := r }
  | _, _, _, _ => none

/-! ### Runs of the priority pool

A run interleaves `Submit` calls, `priorityWorker` iterations and cancellation.  Each event
carries the index of the outcome the runtime chose.  The log of accepted and dequeued jobs
is ghost state. -/

/-- One event of a run of the priority pool. -/
inductive PoolEvent where
  /-- A call `Submit(job)`; `choice` indexes the outcome. -/
  | submit (job : PriorityJob) (choice : Nat)
  /-- One iteration of some `priorityWorker`; `choice` indexes the outcome. -/
  | receive (choice : Nat)
  /-- The pool context is cancelled. -/
  | cancel
deriving DecidableEq, Repr

/-- A pool together with the log of its run. -/
structure PoolRun where
  pool : PriorityWorkerPool
  /-- Jobs for which `Submit` returned `nil`, oldest first. -/
  accepted : List PriorityJob
  /-- Jobs received by workers with the band they came from, oldest first. -/
  dequeued : List (Band × PriorityJob)
deriving DecidableEq, Repr

/-- The run that starts at a pool. -/
def PoolRun.init (pwp : PriorityWorkerPool) : PoolRun :=
  { pool := pwp, accepted := [], dequeued := [] }

/-- One event. An event whose chosen outcome does not exist, or that blocks or fails,
leaves the run as it is. -/
def PoolRun.step (t : PoolRun) : PoolEvent → PoolRun
  | .submit job choice =>
    match (t.pool.Submit job)[choice]? with
    | some (.accepted p) => { t with pool := p, accepted := t.accepted ++ [job] }
    | _ => t
  | .receive choice =>
    match (t.pool.priorityWorker)[choice]? with
    | some (.took b j p) => { t with pool := p, dequeued := t.dequeued ++ [(b, j)] }
    | _ => t
  | .cancel => { t with pool := { t.pool with done := true } }

/-- A sequence of events. -/
def PoolRun.run (t : PoolRun) (es : List PoolEvent) : PoolRun := es.foldl PoolRun.step t

/-- The jobs accepted into band `b`, in submission order. -/
def PoolRun.acceptedInto (t : PoolRun) (b : Band) : List PriorityJob :=
  t.accepted.filter (fun j => PriorityWorkerPool.targetQueue j = b)

/-- The jobs workers received from band `b`, in the order they were received. -/
def PoolRun.dequeuedFrom (t : PoolRun) (b : Band) : List PriorityJob :=
  (t.dequeued.filter (fun e => e.1 = b)).map (fun e => e.2)

/-- Job `A` of the priority-ordering scenario. -/
def scenarioA : PriorityJob := { ID := "A", Data := "a", Timeout := 0, Priority := 9 }

/-- Job `B` of the priority-ordering scenario. -/
def scenarioB : PriorityJob := { ID := "B", Data := "b", Timeout := 0, Priority := 9 }

/-- Job `C` of the priority-ordering scenario. -/
def scenarioC : PriorityJob := { ID := "C", Data := "c", Timeout := 0, Priority := 2 }

/-- The scenario: a pool with one worker, after `Submit` accepted `C`, `A`, `B` in that
order. -/
def scenarioRun : PoolRun :=
  (PoolRun.init (NewPriorityWorkerPool false 1)).run
    [.submit scenarioC 0, .submit scenarioA 0, .submit scenarioB 0]

/-- The invariant of a run: no job channel is closed, and per band the jobs dequeued so far
followed by the jobs still queued are the jobs accepted into the band. -/
def PoolRun.Fifo (t : PoolRun) : Prop :=
  (∀ b, (t.pool.queue b).closed = false) ∧
  ∀ b, t.dequeuedFrom b ++ (t.pool.queue b).buf = t.acceptedInto b

/-! ## 4. Dynamic scaling worker pool -/

/-- Go `DynamicWorkerPool`; `currentWorkers` is the `int32` counter, `done` is `ctx.Done()`
being closed, `wg` holds the ids passed to the `go dwp.dynamicWorker(i)` statements. -/
structure DynamicWorkerPool where
  minWorkers : Int
  maxWorkers : Int
  currentWorkers : Int
  jobQueue : Chan Job
  resultQueue : Chan Result
  scaleSignal : Chan Int
  done : Bool
  wg : List Int
deriving DecidableEq, Repr

/-- Go `NewDynamicWorkerPool(ctx, minWorkers, maxWorkers)`; the counter starts at
`int32(minWorkers)`. -/
def NewDynamicWorkerPool (parentDone : Bool) (minWorkers maxWorkers : Int) :
    DynamicWorkerPool :=
  { minWorkers := minWorkers
    maxWorkers := maxWorkers
    currentWorkers := wrapInt32 minWorkers
    jobQueue := Chan.make 1000
    resultQueue := Chan.make 1000
    scaleSignal := Chan.make 10
    done := parentDone
    wg := [] }

/-- Go `DynamicWorkerPool.Start`: one `wg.Add(1); go dwp.dynamicWorker(i)` per `i < minWorkers`
(the scaling manager goroutine is not in the wait group). -/
def DynamicWorkerPool.Start (dwp : DynamicWorkerPool) : DynamicWorkerPool :=
  { dwp with wg := dwp.wg ++ (List.range dwp.minWorkers.toNat).map Int.ofNat }

/-- Go `DynamicWorkerPool.GetCurrentWorkerCount`: `int(atomic.LoadInt32(&dwp.currentWorkers))`. -/
def DynamicWorkerPool.GetCurrentWorkerCount (dwp : DynamicWorkerPool) : Int :=
  dwp.currentWorkers

/-- The loop of `scaleUp`, `n` iterations from index `i`: `wg.Add(1)`,
`go dwp.dynamicWorker(i)`, `atomic.AddInt32(&dwp.currentWorkers, 1)`.  Inside the loop
`i < newCount`, so `i++` does not overflow. -/
def DynamicWorkerPool.scaleUpLoop (dwp : DynamicWorkerPool) (i : Int) :
    Nat → DynamicWorkerPool
  | 0 => dwp
  | n + 1 =>
    DynamicWorkerPool.scaleUpLoop
      { dwp with wg := dwp.wg ++ [i], currentWorkers := wrapInt32 (dwp.currentWorkers + 1) }
      (i + 1) n

/-- Go `DynamicWorkerPool.scaleUp(count)`: `newCount := min(current+count, maxWorkers)` and the
loop `for i := current; i < newCount; i++`. -/
def DynamicWorkerPool.scaleUp (dwp : DynamicWorkerPool) (count : Int) : DynamicWorkerPool :=
  let current := dwp.currentWorkers
  let newCount := min (wrapInt64 (current + count)) dwp.maxWorkers
  dwp.scaleUpLoop current (newCount - current).toNat

/-- Go `DynamicWorkerPool.scaleDown(count)`: `newCount := max(current-count, minWorkers)`, stored
as `int32(newCount)` when it is below `current`. -/
def DynamicWorkerPool.scaleDown (dwp : DynamicWorkerPool) (count : Int) : DynamicWorkerPool :=
  let current := dwp.currentWorkers
  let newCount := max (wrapInt64 (current - count)) dwp.minWorkers
  if newCount < current then { dwp with currentWorkers := wrapInt32 newCount } else dwp

/-- Go `DynamicWorkerPool.adjustWorkers(adjustment)`. -/
def DynamicWorkerPool.adjustWorkers (dwp : DynamicWorkerPool) (adjustment : Int) :
    DynamicWorkerPool :=
  if adjustment > 0 then dwp.scaleUp adjustment
  else if adjustment < 0 then dwp.scaleDown (wrapInt64 (-adjustment))
  else dwp

/-- Go `DynamicWorkerPool.checkAndScale`: both tests use the `queueLen` and `currentWorkers` read
at the top of the function. -/
def DynamicWorkerPool.checkAndScale (dwp : DynamicWorkerPool) : DynamicWorkerPool :=
  let queueLen : Int := dwp.jobQueue.len
  let currentWorkers := dwp.currentWorkers
  let dwp1 :=
    if queueLen > wrapInt64 (currentWorkers * 2) ∧ currentWorkers < dwp.maxWorkers then
      dwp.scaleUp 1
    else dwp
  if queueLen = 0 ∧ currentWorkers > dwp.minWorkers then dwp1.scaleDown 1 else dwp1

/-- Go `DynamicWorkerPool.Submit`: the `select` over the send to `jobQueue` and `ctx.Done()`;
there is no timer case. -/
def DynamicWorkerPool.Submit (dwp : DynamicWorkerPool) (job : Job) :
    List (SubmitOutcome DynamicWorkerPool) :=
  let sendCase : List (SubmitOutcome DynamicWorkerPool) :=
    if dwp.jobQueue.closed then [.panicked]
    else if dwp.jobQueue.buf.length < dwp.jobQueue.cap then
      [.accepted { dwp with jobQueue := dwp.jobQueue.push job }]
    else []
  let doneCase : List (SubmitOutcome DynamicWorkerPool) :=
    if dwp.done then [.failed .ctxErr] else []
  goSelect (sendCase ++ doneCase) .blocked

/-- Go `DynamicWorkerPool.Stop`: `cancel()`, `wg.Wait()` (every worker has returned), then
`close` of `jobQueue`, `resultQueue` and `scaleSignal`; `none` is a panic. -/
def DynamicWorkerPool.Stop (dwp : DynamicWorkerPool) : Option DynamicWorkerPool :=
  match dwp.jobQueue.close, dwp.resultQueue.close, dwp.scaleSignal.close with
  | some j, some r, some s =>
    some { dwp with done := true, wg := [], jobQueue := j, resultQueue := r, scaleSignal := s }
  | _, _, _ => none

/-- What the scaling manager and its environment do to a dynamic pool. -/
inductive ScaleEvent where
  /-- The ticker fires: `checkAndScale()`. -/
  | tick
  /-- The channel `scaleSignal` delivers `k`: `adjustWorkers(k)`. -/
  | adjust (k : Int)
  /-- Submissions and workers leave `jobs` in the job queue. -/
  | queue (jobs : List Job)
deriving DecidableEq, Repr

/-- One event on a dynamic pool. -/
def DynamicWorkerPool.step (dwp : DynamicWorkerPool) : ScaleEvent → DynamicWorkerPool
  | .tick => dwp.checkAndScale
  | .adjust k => dwp.adjustWorkers k
  | .queue jobs => { dwp with jobQueue := { dwp.jobQueue with buf := jobs } }

/-- A sequence of events on a dynamic pool. -/
def DynamicWorkerPool.run (dwp : DynamicWorkerPool) (es : List ScaleEvent) :
    DynamicWorkerPool :=
  es.foldl DynamicWorkerPool.step dwp

/-- A dynamic pool with bounds 1 and 4, one worker counted and three jobs queued. -/
def scenarioDynamic : DynamicWorkerPool :=
  (NewDynamicWorkerPool false 1 4).step
    (.queue [⟨"j0", "d0", 0⟩, ⟨"j1", "d1", 0⟩, ⟨"j2", "d2", 0⟩])

/-- The bounds invariant of a dynamic pool built with bounds `lo` and `hi`. -/
def DynamicWorkerPool.InBounds (dwp : DynamicWorkerPool) (lo hi : Int) : Prop :=
  dwp.minWorkers = lo ∧ dwp.maxWorkers = hi ∧
  lo ≤ dwp.currentWorkers ∧ dwp.currentWorkers ≤ hi

/-! ## 1. Basic worker pool -/

/-- Go `WorkerJob`, the job type of `SimpleWorkerPool`. -/
structure WorkerJob where
  ID : String
  Data : String
  Priority : Int
  Timeout : Int
deriving DecidableEq, Repr

/-- Go `WorkerResult` without its time stamps; `Error` is `none` for a nil error. -/
structure WorkerResult where
  JobID : String
  Data : Option String
  Error : Option String
  Worker : Int
deriving DecidableEq, Repr

/-- Go `SimpleWorkerPool`; `quit` is only ever closed, `wg` holds the ids of the worker
goroutines that were started and have not returned. -/
structure SimpleWorkerPool where
  workerCount : Int
  jobQueue : Chan WorkerJob
  resultQueue : Chan WorkerResult
  quit : Chan Bool
  wg : List Int
deriving DecidableEq, Repr

/-- Go `NewSimpleWorkerPool(workerCount, queueSize)`. -/
def NewSimpleWorkerPool (workerCount : Int) (queueSize : Nat) : SimpleWorkerPool :=
  { workerCount := workerCount
    jobQueue := Chan.make queueSize
    resultQueue := Chan.make queueSize
    quit := Chan.make 0
    wg := [] }

/-- Go `SimpleWorkerPool.Start`: one `wg.Add(1); go wp.worker(i)` per `i < workerCount`. -/
def SimpleWorkerPool.Start (wp : SimpleWorkerPool) : SimpleWorkerPool :=
  { wp with wg := wp.wg ++ (List.range wp.workerCount.toNat).map Int.ofNat }

/-- Go `SimpleWorkerPool.Stop`: `close(wp.quit)`, `wg.Wait()` (every worker has returned),
`close(wp.jobQueue)`, `close(wp.resultQueue)`; `none` is a panic. -/
def SimpleWorkerPool.Stop (wp : SimpleWorkerPool) : Option SimpleWorkerPool :=
  match wp.quit.close, wp.jobQueue.close, wp.resultQueue.close with
  | some q, some j, some r => some { wp with quit := q, wg := [], jobQueue := j, resultQueue := r }
  | _, _, _ => none

/-! ## 2. Advanced worker pool with context -/

/-- Go `PoolMetrics` of the example pools. -/
structure PoolMetrics where
  jobsProcessed : Int
  jobsSucceeded : Int
  jobsFailed : Int
  totalLatency : Int
  activeWorkers : Int
deriving DecidableEq, Repr

/-- Go `AdvancedWorkerPool`; `done` is `ctx.Done()` being closed, `wg` holds the ids of the
worker goroutines that were started and have not returned. -/
structure AdvancedWorkerPool where
  workers : Int
  jobQueue : Chan Job
  resultQueue : Chan Result
  done : Bool
  wg : List Int
  metrics : PoolMetrics
deriving DecidableEq, Repr

/-- Go `NewAdvancedWorkerPool(ctx, workers, queueSize)`; the child context is done iff the
parent is. -/
def NewAdvancedWorkerPool (parentDone : Bool) (workers : Int) (queueSize : Nat) :
    AdvancedWorkerPool :=
  { workers := workers
    jobQueue := Chan.make queueSize
    resultQueue := Chan.make queueSize
    done := parentDone
    wg := []
    metrics := ⟨0, 0, 0, 0, 0⟩ }

/-- Go `AdvancedWorkerPool.Start`: one `wg.Add(1); go awp.worker(i)` per `i < workers`; the
method has no result and tests nothing. -/
def AdvancedWorkerPool.Start (awp : AdvancedWorkerPool) : AdvancedWorkerPool :=
  { awp with wg := awp.wg ++ (List.range awp.workers.toNat).map Int.ofNat }

/-- The call `awp.cancel()`: closes `ctx.Done()`; calling it again changes nothing. -/
def AdvancedWorkerPool.cancel (awp : AdvancedWorkerPool) : AdvancedWorkerPool :=
  { awp with done := true }

/-- Go `AdvancedWorkerPool.Submit`: the `select` over the send to `jobQueue`, `ctx.Done()` and
the five second timer. -/
def AdvancedWorkerPool.Submit (awp : AdvancedWorkerPool) (job : Job) :
    List (SubmitOutcome AdvancedWorkerPool) :=
  let sendCase : List (SubmitOutcome AdvancedWorkerPool) :=
    if awp.jobQueue.closed then [.panicked]
    else if awp.jobQueue.buf.length < awp.jobQueue.cap then
      [.accepted { awp with jobQueue := awp.jobQueue.push job }]
    else []
  let doneCase : List (SubmitOutcome AdvancedWorkerPool) :=
    if awp.done then [.failed .ctxErr] else []
  goSelect (sendCase ++ doneCase) (.failed .submissionTimeout)

/-- Go `AdvancedWorkerPool.Stop`: `awp.cancel()`, `awp.wg.Wait()` (every worker has returned),
`close(awp.jobQueue)`, `close(awp.resultQueue)`; `none` is a panic. -/
def AdvancedWorkerPool.Stop (awp : AdvancedWorkerPool) : Option AdvancedWorkerPool :=
  match awp.jobQueue.close, awp.resultQueue.close with
  | some j, some r => some { awp.cancel with wg := [], jobQueue := j, resultQueue := r }
  | _, _ => none

/-! ## Context-aware worker pool (`advanced-patterns.go`) -/

/-- Go `Task`, the job type of `ContextWorkerPool`. -/
structure Task where
  ID : String
  Data : String
  Timeout : Int
deriving DecidableEq, Repr

/-- Go `TaskResult` without its time stamps; `Error` is `none` for a nil error. -/
structure TaskResult where
  TaskID : String
  Data : Option String
  Error : Option String
  Worker : Int
deriving DecidableEq, Repr

/-- Go `TaskPoolMetrics`. -/
structure TaskPoolMetrics where
  tasksProcessed : Int
  tasksSucceeded : Int
  tasksFailed : Int
  totalLatency : Int
  activeWorkers : Int
deriving DecidableEq, Repr

/-- Go `ContextWorkerPool`. -/
structure ContextWorkerPool where
  workers : Int
  taskQueue : Chan Task
  resultQueue : Chan TaskResult
  done : Bool
  wg : List Int
  metrics : TaskPoolMetrics
deriving DecidableEq, Repr

/-- Go `NewContextWorkerPool(ctx, workers, queueSize)`. -/
def NewContextWorkerPool (parentDone : Bool) (workers : Int) (queueSize : Nat) :
    ContextWorkerPool :=
  { workers := workers
    taskQueue := Chan.make queueSize
    resultQueue := Chan.make queueSize
    done := parentDone
    wg := []
    metrics := ⟨0, 0, 0, 0, 0⟩ }

/-- Go `ContextWorkerPool.Start`: one `wg.Add(1); go cwp.worker(i)` per `i < workers`. -/
def ContextWorkerPool.Start (cwp : ContextWorkerPool) : ContextWorkerPool :=
  { cwp with wg := cwp.wg ++ (List.range cwp.workers.toNat).map Int.ofNat }

/-- Go `ContextWorkerPool.Stop`: `cwp.cancel()`, `cwp.wg.Wait()` (every worker has returned),
`close(cwp.taskQueue)`, `close(cwp.resultQueue)`; `none` is a panic. -/
def ContextWorkerPool.Stop (cwp : ContextWorkerPool) : Option ContextWorkerPool :=
  match cwp.taskQueue.close, cwp.resultQueue.close with
  | some t, some r => some { cwp with done := true, wg := [], taskQueue := t, resultQueue := r }
  | _, _ => none

/-! ## The mini-project pool (`internal/pool/pool.go`, `pkg/types/job.go`) -/

/-- Go `types.Job`: the struct is declared with no fields (they are listed in a comment). -/
structure types.Job where
deriving DecidableEq, Repr

/-- Go `types.PoolConfig`: the struct is declared with no fields. -/
structure types.PoolConfig where
deriving DecidableEq, Repr

/-- Modelled from the spec: the fields of `Pool`.  `pool.go` declares the struct with no
fields, while its methods read `p.running`, `p.workers` and `p.jobQueue` (and lock `p.mu`);
the running flag, the worker set (here the worker ids) and the job queue are what the spec
and the comment in the struct give it. -/
structure Pool where
  running : Bool
  workers : List Int
  jobQueue : Chan types.Job
deriving DecidableEq, Repr

/-- Go `NewPool(config)`: returns `&Pool{}`, every field at its zero value (a nil channel has
length and capacity 0). -/
def NewPool (_config : types.PoolConfig) : Pool :=
  { running := false, workers := [], jobQueue := ⟨[], 0, false⟩ }

/-- Go `Pool.Start`: takes the lock and executes `return nil`; the start-up code is a comment. -/
def Pool.Start (p : Pool) : Pool × Option GoError := (p, none)

/-- Go `Pool.Stop`: takes the lock and executes `return nil`; the shutdown code is a comment. -/
def Pool.Stop (p : Pool) : Pool × Option GoError := (p, none)

/-- Go `Pool.SubmitWithContext`: takes the read lock and executes `return nil`; the submission
code is a comment. -/
def Pool.SubmitWithContext (p : Pool) (_ctxDone : Bool) (_job : types.Job) :
    Pool × Option GoError := (p, none)

/-- Go `Pool.Submit`: `return p.SubmitWithContext(context.Background(), job)`. -/
def Pool.Submit (p : Pool) (job : types.Job) : Pool × Option GoError :=
  p.SubmitWithContext false job

/-- Go `Pool.SetWorkerCount`: takes the lock and executes `return nil`; the scaling code is a
comment. -/
def Pool.SetWorkerCount (p : Pool) (_count : Int) : Pool × Option GoError := (p, none)

/-- Go `Pool.IsRunning`. -/
def Pool.IsRunning (p : Pool) : Bool := p.running

/-- Go `Pool.GetQueueLength`: `len(p.jobQueue)`. -/
def Pool.GetQueueLength (p : Pool) : Int := p.jobQueue.len

/-- Go `Pool.GetWorkerCount`: `len(p.workers)`. -/
def Pool.GetWorkerCount (p : Pool) : Int := p.workers.length

/-- A job with an empty `ID` and a negative `Timeout`. -/
def invalidJob : Job := { ID := "", Data := "payload", Timeout := -1 }

/-- A well-formed job. -/
def scenarioJob : Job := { ID := "job-1", Data := "data-1", Timeout := 0 }

/-! ## Worker loops of the example pools -/

/-- What one iteration of the `worker` loop of `AdvancedWorkerPool` can do at its `select`. -/
inductive AdvancedWorkerOutcome where
  /-- The receive from `jobQueue` was chosen; `processJobWithContext(job, id)` follows. -/
  | took (job : Job) (p : AdvancedWorkerPool)
  /-- The `ctx.Done()` case was chosen: the worker returns, running its deferred
  `activeWorkers` decrement and `wg.Done()`. -/
  | stopped (p : AdvancedWorkerPool)
  /-- No case can proceed. -/
  | blocked
deriving DecidableEq, Repr

/-- The prologue of `AdvancedWorkerPool.worker`, run once when the goroutine starts:
`atomic.AddInt32(&awp.metrics.activeWorkers, 1)`. -/
def AdvancedWorkerPool.workerEnter (awp : AdvancedWorkerPool) : AdvancedWorkerPool :=
  { awp with
    metrics := { awp.metrics with
      activeWorkers := wrapInt32 (awp.metrics.activeWorkers + 1) } }

/-- Go `AdvancedWorkerPool.worker`, the `select` of one loop iteration: receive from
`jobQueue` (ready when a job is buffered, or when the channel is closed) or `ctx.Done()`. -/
def AdvancedWorkerPool.worker (awp : AdvancedWorkerPool) (id : Int) :
    List AdvancedWorkerOutcome :=
  let recvCase : List AdvancedWorkerOutcome :=
    match awp.jobQueue.buf with
    | j :: rest => [.took j { awp with jobQueue := { awp.jobQueue with buf := rest } }]
    | [] => if awp.jobQueue.closed then [.took Job.zero awp] else []
  let doneCase : List AdvancedWorkerOutcome :=
    if awp.done then
      [.stopped { awp with
        wg := awp.wg.erase id
        metrics := { awp.metrics with
          activeWorkers := wrapInt32 (awp.metrics.activeWorkers - 1) } }]
    else []
  goSelect (recvCase ++ doneCase) .blocked

/-- The zero value of `Task`. -/
def Task.zero : Task := ⟨"", "", 0⟩

/-- What one iteration of the `worker` loop of `ContextWorkerPool` can do at its `select`. -/
inductive ContextWorkerOutcome where
  /-- The receive from `taskQueue` was chosen; `processTaskWithContext(task, id)` follows. -/
  | took (task : Task) (p : ContextWorkerPool)
  /-- The `ctx.Done()` case was chosen: the worker returns. -/
  | stopped (p : ContextWorkerPool)
  /-- No case can proceed. -/
  | blocked
deriving DecidableEq, Repr

/-- The prologue of `ContextWorkerPool.worker`, run once when the goroutine starts:
`atomic.AddInt32(&cwp.metrics.activeWorkers, 1)`. -/
def ContextWorkerPool.workerEnter (cwp : ContextWorkerPool) : ContextWorkerPool :=
  { cwp with
    metrics := { cwp.metrics with
      activeWorkers := wrapInt32 (cwp.metrics.activeWorkers + 1) } }

/-- Go `ContextWorkerPool.worker`, the `select` of one loop iteration: receive from
`taskQueue` or `ctx.Done()`. -/
def ContextWorkerPool.worker (cwp : ContextWorkerPool) (id : Int) :
    List ContextWorkerOutcome :=
  let recvCase : List ContextWorkerOutcome :=
    match cwp.taskQueue.buf with
    | t :: rest => [.took t { cwp with taskQueue := { cwp.taskQueue with buf := rest } }]
    | [] => if cwp.taskQueue.closed then [.took Task.zero cwp] else []
  let doneCase : List ContextWorkerOutcome :=
    if cwp.done then
      [.stopped { cwp with
        wg := cwp.wg.erase id
        metrics := { cwp.metrics with
          activeWorkers := wrapInt32 (cwp.metrics.activeWorkers - 1) } }]
    else []
  goSelect (recvCase ++ doneCase) .blocked

/-- The call `cwp.cancel()`: closes `ctx.Done()`; calling it again changes nothing. -/
def ContextWorkerPool.cancel (cwp : ContextWorkerPool) : ContextWorkerPool :=
  { cwp with done := true }

/-- Go `ContextWorkerPool.Submit`: the `select` over the send to `taskQueue`, `ctx.Done()` and
the five second timer. -/
def ContextWorkerPool.Submit (cwp : ContextWorkerPool) (task : Task) :
    List (SubmitOutcome ContextWorkerPool) :=
  let sendCase : List (SubmitOutcome ContextWorkerPool) :=
    if cwp.taskQueue.closed then [.panicked]
    else if cwp.taskQueue.buf.length < cwp.taskQueue.cap then
      [.accepted { cwp with taskQueue := cwp.taskQueue.push task }]
    else []
  let doneCase : List (SubmitOutcome ContextWorkerPool) :=
    if cwp.done then [.failed .ctxErr] else []
  goSelect (sendCase ++ doneCase) (.failed .submissionTimeout)

/-- A task waiting in a context pool. -/
def scenarioTask : Task := { ID := "task-1", Data := "data-1", Timeout := 0 }

/-- An advanced pool with one started worker, one accepted job and the context cancelled
afterwards. -/
def scenarioCancelledAdvanced : AdvancedWorkerPool :=
  { (NewAdvancedWorkerPool false 1 20).Start.workerEnter with
    jobQueue := (Chan.make 20).push scenarioJob, done := true }

/-- A context pool with one started worker, one accepted task and the context cancelled
afterwards. -/
def scenarioCancelledContext : ContextWorkerPool :=
  { (NewContextWorkerPool false 1 20).Start.workerEnter with
    taskQueue := (Chan.make 20).push scenarioTask, done := true }

/-! ## Job processing of the context pools

`processJobWithContext` runs two goroutines that share the local variable `result`: the
caller (the worker) and the job body started by `go func()`.  The embedding is a step
machine: a state holds the pool, the job context, `result`, the `done` channel of the body
and the position of each goroutine; a schedule is a list of actions, each letting one
goroutine take its next step or letting the job deadline or the pool cancellation fire. -/

/-- The context a job body runs under: `err` is the value of `jobCtx.Err()` (`none` while
`jobCtx.Done()` is open), `timeout` is the duration handed to `context.WithTimeout`
(`none` when `jobCtx` is the pool context itself). -/
structure JobContext where
  err : Option String
  timeout : Option Int
deriving DecidableEq, Repr

/-- The lines `jobCtx := awp.ctx; if job.Timeout > 0 (jobCtx, cancel = context.WithTimeout(awp.ctx, job.Timeout))`
of `processJobWithContext`. -/
def AdvancedWorkerPool.jobCtx (awp : AdvancedWorkerPool) (job : Job) : JobContext :=
  { err := if awp.done then some "context canceled" else none
    timeout := if job.Timeout > 0 then some job.Timeout else none }

/-- The deferred `cancel()` of a job context made by `context.WithTimeout`. -/
def JobContext.cancel (c : JobContext) : JobContext :=
  match c.timeout, c.err with
  | some _, none => { c with err := some "context canceled" }
  | _, _ => c

/-- Position of the job body goroutine. -/
inductive BodyPc where
  /-- Before iteration `i` of the `for i := 0; i < 10; i++` loop (after it when `i >= 10`). -/
  | loop (i : Nat)
  /-- The body has written its field of `result`; the deferred `close(done)` is next. -/
  | closing
  /-- The goroutine has returned. -/
  | exited
deriving DecidableEq, Repr

/-- Position of the caller inside `processJobWithContext`. -/
inductive MainPc where
  /-- At `select (<-done | <-jobCtx.Done())`. -/
  | waiting
  /-- Before the metrics update. -/
  | metrics
  /-- Before the final `select`, whose send operand `result` is not yet evaluated. -/
  | sending
  /-- Inside the final `select`, holding the evaluated send operand. -/
  | delivering (r : Result)
  /-- The function has returned. -/
  | finished
  /-- The send was chosen on a closed result queue. -/
  | panicked
deriving DecidableEq, Repr

/-- The inputs of one call: the job, the worker id, whether `rand.Float32() < 0.05` holds in
the body, the measured `time.Since(start)`, and the texts of the body's `fmt.Errorf` and
`fmt.Sprintf`. -/
structure ProcCall where
  job : Job
  workerID : Int
  bodyFails : Bool
  duration : Int
  failure : String
  output : String
deriving DecidableEq, Repr

/-- State of one call of `processJobWithContext`; `made` lists the values the final `select`
evaluated as its send operand. -/
structure ProcState where
  awp : AdvancedWorkerPool
  jobCtx : JobContext
  result : Result
  doneClosed : Bool
  body : BodyPc
  main : MainPc
  made : List Result
deriving DecidableEq, Repr

/-- One scheduling decision. -/
inductive ProcAction where
  /-- The job body takes its next step. -/
  | body
  /-- The caller takes its next step; at a `select` with two ready cases `pickCtx` tells
  whether the `Done()` case is the one chosen. -/
  | main (pickCtx : Bool)
  /-- The timer of `context.WithTimeout` fires. -/
  | deadline
  /-- The pool context is cancelled. -/
  | cancel
deriving DecidableEq, Repr

/-- The state after `start := time.Now()`, `atomic.AddInt64(&awp.metrics.jobsProcessed, 1)`,
the creation of `jobCtx` and of `result`, and the `go func()` statement. -/
def ProcState.init (awp : AdvancedWorkerPool) (c : ProcCall) : ProcState :=
  { awp := { awp with
      metrics := { awp.metrics with
        jobsProcessed := wrapInt64 (awp.metrics.jobsProcessed + 1) } }
    jobCtx := awp.jobCtx c.job
    result := { JobID := c.job.ID, Data := none, Error := none, Worker := c.workerID }
    doneClosed := false
    body := .loop 0
    main := .waiting
    made := [] }

/-- One step of the job body: an iteration of the loop (the `select` with `default`, then the
sleep), the write of `result.Error` or `result.Data` after the loop, or the deferred
`close(done)`. -/
def ProcState.bodyStep (c : ProcCall) (s : ProcState) : ProcState :=
  match s.body with
  | .loop i =>
    if i < 10 then
      match s.jobCtx.err with
      | some e => { s with result := { s.result with Error := some e }, body := .closing }
      | none => { s with body := .loop (i + 1) }
    else if c.bodyFails then
      { s with result := { s.result with Error := some c.failure }, body := .closing }
    else
      { s with result := { s.result with Data := some c.output }, body := .closing }
  | .closing => { s with doneClosed := true, body := .exited }
  | .exited => s

/-- The return of `processJobWithContext`, which runs the deferred `cancel()`. -/
def ProcState.ret (s : ProcState) : ProcState :=
  { s with main := .finished, jobCtx := s.jobCtx.cancel }

/-- The metrics update: `totalLatency` and one of `jobsFailed`, `jobsSucceeded`. -/
def ProcState.updateMetrics (c : ProcCall) (s : ProcState) : PoolMetrics :=
  match s.result.Error with
  | some _ =>
    { s.awp.metrics with
      totalLatency := wrapInt64 (s.awp.metrics.totalLatency + c.duration)
      jobsFailed := wrapInt64 (s.awp.metrics.jobsFailed + 1) }
  | none =>
    { s.awp.metrics with
      totalLatency := wrapInt64 (s.awp.metrics.totalLatency + c.duration)
      jobsSucceeded := wrapInt64 (s.awp.metrics.jobsSucceeded + 1) }

/-- The send case of the final `select`. -/
def ProcState.deliver (s : ProcState) (r : Result) : ProcState :=
  if s.awp.resultQueue.closed then { s with main := .panicked }
  else { s with awp := { s.awp with resultQueue := s.awp.resultQueue.push r } }.ret

/-- One step of the caller. -/
def ProcState.mainStep (c : ProcCall) (pickCtx : Bool) (s : ProcState) : ProcState :=
  match s.main with
  | .waiting =>
    match s.doneClosed, s.jobCtx.err with
    | false, none => s
    | true, none => { s with main := .metrics }
    | false, some e => { s with result := { s.result with Error := some e }, main := .metrics }
    | true, some e =>
      if pickCtx then { s with result := { s.result with Error := some e }, main := .metrics }
      else { s with main := .metrics }
  | .metrics => { s with awp := { s.awp with metrics := s.updateMetrics c }, main := .sending }
  | .sending => { s with made := s.made ++ [s.result], main := .delivering s.result }
  | .delivering r =>
    match (s.awp.resultQueue.closed || decide (s.awp.resultQueue.buf.length
        < s.awp.resultQueue.cap)), s.awp.done with
    | false, false => s
    | true, false => s.deliver r
    | false, true => s.ret
    | true, true => if pickCtx then s.ret else s.deliver r
  | .finished => s
  | .panicked => s

/-- One action of a schedule. -/
def ProcState.step (c : ProcCall) (s : ProcState) : ProcAction → ProcState
  | .body => s.bodyStep c
  | .main pickCtx => s.mainStep c pickCtx
  | .deadline =>
    match s.jobCtx.timeout, s.jobCtx.err with
    | some _, none => { s with jobCtx := { s.jobCtx with err := some "context deadline exceeded" } }
    | _, _ => s
  | .cancel =>
    { s with
      awp := s.awp.cancel
      jobCtx := { s.jobCtx with err := some (s.jobCtx.err.getD "context canceled") } }

/-- A call of `processJobWithContext` under a schedule. -/
def ProcState.run (awp : AdvancedWorkerPool) (c : ProcCall) (sched : List ProcAction) :
    ProcState :=
  sched.foldl (ProcState.step c) (ProcState.init awp c)

/-- The inputs of a call `awp.processJobWithContext(job, workerID)`. -/
def AdvancedWorkerPool.call (job : Job) (workerID : Int) (bodyFails : Bool)
    (duration : Int) : ProcCall :=
  { job := job, workerID := workerID, bodyFails := bodyFails, duration := duration
    failure := "job " ++ job.ID ++ " processing failed"
    output := "Advanced processing: " ++ job.Data }

/-- Go `AdvancedWorkerPool.processJobWithContext(job, workerID)` under a schedule. -/
def AdvancedWorkerPool.processJobWithContext (awp : AdvancedWorkerPool) (job : Job)
    (workerID : Int) (bodyFails : Bool) (duration : Int) (sched : List ProcAction) :
    ProcState :=
  ProcState.run awp (AdvancedWorkerPool.call job workerID bodyFails duration) sched

/-- The schedule in which the body runs to its end and the caller then runs to its end,
taking the first case of each `select`. -/
def fairSchedule : List ProcAction :=
  List.replicate 12 .body ++ List.replicate 5 (.main false)

/-! ### The same code in `ContextWorkerPool`

`ContextWorkerPool.processTaskWithContext` is `processJobWithContext` with `Job`, `Result`,
`jobQueue` and the `jobs*` counters renamed to `Task`, `TaskResult`, `taskQueue` and
`tasks*`, and with other message texts.  It is embedded through that renaming. -/

/-- The image of a channel under a renaming of its elements. -/
def Chan.map {α β : Type} (f : α → β) (c : Chan α) : Chan β :=
  { buf := c.buf.map f, cap := c.cap, closed := c.closed }

/-- Renaming of `Task` to `Job`. -/
def Task.toJob (t : Task) : Job := { ID := t.ID, Data := t.Data, Timeout := t.Timeout }

/-- Renaming of `Result` to `TaskResult`. -/
def TaskResult.ofResult (r : Result) : TaskResult :=
  { TaskID := r.JobID, Data := r.Data, Error := r.Error, Worker := r.Worker }

/-- Renaming of `TaskResult` to `Result`. -/
def TaskResult.toResult (r : TaskResult) : Result :=
  { JobID := r.TaskID, Data := r.Data, Error := r.Error, Worker := r.Worker }

/-- Renaming of `PoolMetrics` to `TaskPoolMetrics`. -/
def TaskPoolMetrics.ofPoolMetrics (m : PoolMetrics) : TaskPoolMetrics :=
  { tasksProcessed := m.jobsProcessed, tasksSucceeded := m.jobsSucceeded
    tasksFailed := m.jobsFailed, totalLatency := m.totalLatency
    activeWorkers := m.activeWorkers }

/-- Renaming of `TaskPoolMetrics` to `PoolMetrics`. -/
def TaskPoolMetrics.toPoolMetrics (m : TaskPoolMetrics) : PoolMetrics :=
  { jobsProcessed := m.tasksProcessed, jobsSucceeded := m.tasksSucceeded
    jobsFailed := m.tasksFailed, totalLatency := m.totalLatency
    activeWorkers := m.activeWorkers }

/-- A context pool seen as an advanced pool. -/
def ContextWorkerPool.toAdvanced (cwp : ContextWorkerPool) : AdvancedWorkerPool :=
  { workers := cwp.workers
    jobQueue := cwp.taskQueue.map Task.toJob
    resultQueue := cwp.resultQueue.map TaskResult.toResult
    done := cwp.done
    wg := cwp.wg
    metrics := cwp.metrics.toPoolMetrics }

/-- The inputs of a call `cwp.processTaskWithContext(task, workerID)`. -/
def ContextWorkerPool.call (task : Task) (workerID : Int) (bodyFails : Bool)
    (duration : Int) : ProcCall :=
  { job := task.toJob, workerID := workerID, bodyFails := bodyFails, duration := duration
    failure := "task " ++ task.ID ++ " processing failed"
    output := "Context processing: " ++ task.Data }

/-- Go `ContextWorkerPool.processTaskWithContext(task, workerID)` under a schedule. -/
def ContextWorkerPool.processTaskWithContext (cwp : ContextWorkerPool) (task : Task)
    (workerID : Int) (bodyFails : Bool) (duration : Int) (sched : List ProcAction) :
    ProcState :=
  ProcState.run cwp.toAdvanced (ContextWorkerPool.call task workerID bodyFails duration) sched

/-- The task results a call of `processTaskWithContext` made. -/
def ProcState.madeTasks (s : ProcState) : List TaskResult := s.made.map TaskResult.ofResult

/-- The task counters after a call of `processTaskWithContext`. -/
def ProcState.taskMetrics (s : ProcState) : TaskPoolMetrics :=
  TaskPoolMetrics.ofPoolMetrics s.awp.metrics

/-! ### Job processing of the basic and the priority pool -/

/-- Go `SimpleWorkerPool.processJob`; `fails` is `rand.Float32() < 0.1`. -/
def SimpleWorkerPool.processJob (job : WorkerJob) (fails : Bool) : WorkerResult :=
  if fails then
    { JobID := job.ID, Data := none
      Error := some ("job " ++ job.ID ++ " failed during processing"), Worker := 0 }
  else
    { JobID := job.ID, Data := some ("Processed: " ++ job.Data), Error := none, Worker := 0 }

/-- What one iteration of the `worker` loop of `SimpleWorkerPool` can do. -/
inductive SimpleWorkerOutcome where
  /-- A job was received and processed and its result was sent to `resultQueue`. -/
  | processed (job : WorkerJob) (result : WorkerResult) (p : SimpleWorkerPool)
  /-- A job was received and processed; the send of its result blocks on a full queue. -/
  | sendBlocked (job : WorkerJob) (result : WorkerResult) (p : SimpleWorkerPool)
  /-- A job was received and processed; the send of its result panics on a closed queue. -/
  | sendPanicked (job : WorkerJob) (result : WorkerResult)
  /-- The `quit` case was chosen: the worker returns. -/
  | stopped (p : SimpleWorkerPool)
  /-- No case can proceed. -/
  | blocked
deriving DecidableEq, Repr

/-- The zero value of `WorkerJob`. -/
def WorkerJob.zero : WorkerJob := ⟨"", "", 0, 0⟩

/-- The first case of the `select` of `SimpleWorkerPool.worker` once `job` is received and
the pool is `wp`: `result := wp.processJob(job)`, `result.Worker = id`, and the send
`wp.resultQueue <- result`. -/
def SimpleWorkerPool.handle (wp : SimpleWorkerPool) (id : Int) (fails : Bool)
    (job : WorkerJob) : SimpleWorkerOutcome :=
  let result : WorkerResult := { SimpleWorkerPool.processJob job fails with Worker := id }
  if wp.resultQueue.closed then .sendPanicked job result
  else if wp.resultQueue.buf.length < wp.resultQueue.cap then
    .processed job result { wp with resultQueue := wp.resultQueue.push result }
  else .sendBlocked job result wp

/-- Go `SimpleWorkerPool.worker`, one loop iteration: the `select` over the receive from
`jobQueue` and `quit`. -/
def SimpleWorkerPool.worker (wp : SimpleWorkerPool) (id : Int) (fails : Bool) :
    List SimpleWorkerOutcome :=
  let recvCase : List SimpleWorkerOutcome :=
    match wp.jobQueue.buf with
    | j :: rest =>
      [SimpleWorkerPool.handle { wp with jobQueue := { wp.jobQueue with buf := rest } } id fails j]
    | [] => if wp.jobQueue.closed then [wp.handle id fails WorkerJob.zero] else []
  let quitCase : List SimpleWorkerOutcome :=
    if wp.quit.closed then [.stopped { wp with wg := wp.wg.erase id }] else []
  goSelect (recvCase ++ quitCase) .blocked

/-- The label `priorityWorker` passes to `processJob` for a band. -/
def Band.label : Band → String
  | .high => "HIGH"
  | .med => "MEDIUM"
  | .low => "LOW"

/-- What the final `select` of a `processJob` can do with the result it made. -/
inductive DeliverOutcome (σ : Type) where
  /-- The send case was chosen: the result is in `resultQueue`. -/
  | delivered (p : σ)
  /-- The `ctx.Done()` case was chosen: the result is dropped. -/
  | dropped
  /-- The send case was chosen on a closed channel. -/
  | panicked
  /-- No case can proceed. -/
  | blocked
deriving DecidableEq, Repr

/-- The `Result` literal of `PriorityWorkerPool.processJob`. -/
def PriorityWorkerPool.makeResult (priorityJob : PriorityJob) (workerID : Int)
    (priority : String) : Result :=
  { JobID := priorityJob.ID
    Data := some (priority ++ " priority result: " ++ priorityJob.Data)
    Error := none
    Worker := workerID }

/-- Go `PriorityWorkerPool.processJob(priorityJob, workerID, priority)`: the result it makes
and the outcomes of its `select` over the send to `resultQueue` and `ctx.Done()`. -/
def PriorityWorkerPool.processJob (pwp : PriorityWorkerPool) (priorityJob : PriorityJob)
    (workerID : Int) (priority : String) :
    Result × List (DeliverOutcome PriorityWorkerPool) :=
  let result := PriorityWorkerPool.makeResult priorityJob workerID priority
  let sendCase : List (DeliverOutcome PriorityWorkerPool) :=
    if pwp.resultQueue.closed then [.panicked]
    else if pwp.resultQueue.buf.length < pwp.resultQueue.cap then
      [.delivered { pwp with resultQueue := pwp.resultQueue.push result }]
    else []
  let doneCase : List (DeliverOutcome PriorityWorkerPool) :=
    if pwp.done then [.dropped] else []
  (result, goSelect (sendCase ++ doneCase) .blocked)

/-- A job whose deadline of 500 ms coincides with the end of the job body. -/
def scenarioTimedJob : Job := { ID := "job-7", Data := "data-7", Timeout := 500000000 }

/-- A schedule of the race in `processJobWithContext`: the body passes its ten `Done()`
checks, the deadline fires, the caller takes the `jobCtx.Done()` case and sets
`result.Error`, the body sets `result.Data`, and the caller then updates the metrics and
sends `result`. -/
def scenarioRace : List ProcAction :=
  List.replicate 10 .body ++ [.deadline, .main true, .body, .main false, .main false,
    .body, .main false]

/-- The job body can no longer turn a nil `result.Error` into a non-nil one: it has returned,
or `result.Error` is already non-nil. -/
def ProcState.Settled (s : ProcState) : Prop :=
  s.body = .exited ∨ s.result.Error.isSome = true

/-- The outcome counters `m` are the counters `m0` with `jobsFailed` raised by one when
`failed` holds and `jobsSucceeded` raised by one otherwise. -/
def PoolMetrics.Bumped (m0 m : PoolMetrics) (failed : Bool) : Prop :=
  (failed = true → m.jobsFailed = wrapInt64 (m0.jobsFailed + 1) ∧
    m.jobsSucceeded = m0.jobsSucceeded) ∧
  (failed = false → m.jobsSucceeded = wrapInt64 (m0.jobsSucceeded + 1) ∧
    m.jobsFailed = m0.jobsFailed)

/-- What holds of a result `r` made by a call `c` that found the counters `m0` and left the
counters `m`. -/
def ProcCall.Good (c : ProcCall) (m0 m : PoolMetrics) (r : Result) : Prop :=
  r.JobID = c.job.ID ∧ r.Worker = c.workerID ∧ m0.Bumped m r.Error.isSome

/-- The invariant of the states of a call `c` that found the counters `m0`. -/
structure ProcState.Inv (m0 : PoolMetrics) (c : ProcCall) (s : ProcState) : Prop where
  jobID : s.result.JobID = c.job.ID
  worker : s.result.Worker = c.workerID
  processed : s.awp.metrics.jobsProcessed = wrapInt64 (m0.jobsProcessed + 1)
  closed : s.doneClosed = true → s.body = .exited
  early : s.main = .waiting ∨ s.main = .metrics →
    s.made = [] ∧ s.awp.metrics.jobsSucceeded = m0.jobsSucceeded ∧
      s.awp.metrics.jobsFailed = m0.jobsFailed
  settled : s.main = .metrics ∨ s.main = .sending → s.Settled
  bumped : s.main = .sending →
    s.made = [] ∧ m0.Bumped s.awp.metrics s.result.Error.isSome
  late : ∀ r, s.main = .delivering r → s.made = [r] ∧ c.Good m0 s.awp.metrics r
  final : s.main = .finished ∨ s.main = .panicked →
    ∃ r, s.made = [r] ∧ c.Good m0 s.awp.metrics r

/-- The context a task body runs under in `processTaskWithContext`. -/
def ContextWorkerPool.taskCtx (cwp : ContextWorkerPool) (task : Task) : JobContext :=
  cwp.toAdvanced.jobCtx task.toJob

/-- A sequence of completed calls, each with its schedule, one after the other on the same
pool; `none` when one of the calls does not return under its schedule. -/
def AdvancedWorkerPool.runCalls (awp : AdvancedWorkerPool) :
    List (ProcCall × List ProcAction) → Option AdvancedWorkerPool
  | [] => some awp
  | (c, sched) :: rest =>
    if (ProcState.run awp c sched).main = .finished then
      AdvancedWorkerPool.runCalls (ProcState.run awp c sched).awp rest
    else none

/-- Go `AdvancedWorkerPool.GetMetrics`: a copy of the counters. -/
def AdvancedWorkerPool.GetMetrics (awp : AdvancedWorkerPool) : PoolMetrics :=
  { jobsProcessed := awp.metrics.jobsProcessed
    jobsSucceeded := awp.metrics.jobsSucceeded
    jobsFailed := awp.metrics.jobsFailed
    totalLatency := awp.metrics.totalLatency
    activeWorkers := awp.metrics.activeWorkers }

/-- Go `AdvancedWorkerPool.GetAverageLatency`; `/` on `int64` truncates towards zero and
wraps. -/
def AdvancedWorkerPool.GetAverageLatency (awp : AdvancedWorkerPool) : Int :=
  let metrics := awp.GetMetrics
  if metrics.jobsProcessed = 0 then 0
  else wrapInt64 (Int.tdiv metrics.totalLatency metrics.jobsProcessed)

/-- Two calls on a fresh advanced pool: a job that succeeds and a job that fails. -/
def scenarioCalls : List (ProcCall × List ProcAction) :=
  [(AdvancedWorkerPool.call scenarioJob 0 false 500, fairSchedule),
   (AdvancedWorkerPool.call scenarioTimedJob 1 true 700, fairSchedule)]

/-! ## The metrics recorder (`internal/pool/metrics.go`) -/

/-- Go `types.PoolMetrics`: the struct is declared with no fields. -/
structure types.PoolMetrics where
deriving DecidableEq, Repr

/-- Modelled from the spec: the fields of `Metrics`.  `metrics.go` declares the struct with
no fields, while its methods read `m.enabled`, `m.jobsProcessed`, `m.jobsSucceeded`,
`m.jobsFailed`, `m.totalLatency` and `m.updateInterval`; the counters and gauges are the
ones the spec and the comment in the struct give it (the start time is left out). -/
structure Metrics where
  jobsSubmitted : Int
  jobsProcessed : Int
  jobsSucceeded : Int
  jobsFailed : Int
  totalLatency : Int
  activeWorkers : Int
  queueLength : Int
  totalWorkers : Int
  enabled : Bool
  updateInterval : Int
deriving DecidableEq, Repr

/-- Go `NewMetrics(enabled, updateInterval)`: returns `&Metrics{}`, every field at its zero
value; the initialisation is a comment. -/
def NewMetrics (_enabled : Bool) (_updateInterval : Int) : Metrics :=
  { jobsSubmitted := 0, jobsProcessed := 0, jobsSucceeded := 0, jobsFailed := 0
    totalLatency := 0, activeWorkers := 0, queueLength := 0, totalWorkers := 0
    enabled := false, updateInterval := 0 }

/-- Go `Metrics.Stop`: `m.enabled = false`. -/
def Metrics.Stop (m : Metrics) : Metrics := { m with enabled := false }

/-- Go `Metrics.IsEnabled`. -/
def Metrics.IsEnabled (m : Metrics) : Bool := m.enabled

/-- Go `Metrics.IncrementJobsSubmitted`: returns when disabled; the increment is a comment. -/
def Metrics.IncrementJobsSubmitted (m : Metrics) : Metrics :=
  if !m.enabled then m else m

/-- Go `Metrics.IncrementJobsProcessed`: returns when disabled; the increment is a comment. -/
def Metrics.IncrementJobsProcessed (m : Metrics) : Metrics :=
  if !m.enabled then m else m

/-- Go `Metrics.IncrementJobsSucceeded`: returns when disabled; the increments are a
comment. -/
def Metrics.IncrementJobsSucceeded (m : Metrics) : Metrics :=
  if !m.enabled then m else m

/-- Go `Metrics.IncrementJobsFailed`: returns when disabled; the increments are a comment. -/
def Metrics.IncrementJobsFailed (m : Metrics) : Metrics :=
  if !m.enabled then m else m

/-- Go `Metrics.AddLatency(duration)`: returns when disabled; the addition is a comment. -/
def Metrics.AddLatency (m : Metrics) (_duration : Int) : Metrics :=
  if !m.enabled then m else m

/-- Go `Metrics.SetActiveWorkers(count)`: returns when disabled; the store is a comment. -/
def Metrics.SetActiveWorkers (m : Metrics) (_count : Int) : Metrics :=
  if !m.enabled then m else m

/-- Go `Metrics.SetQueueLength(length)`: returns when disabled; the store is a comment. -/
def Metrics.SetQueueLength (m : Metrics) (_length : Int) : Metrics :=
  if !m.enabled then m else m

/-- Go `Metrics.SetTotalWorkers(count)`: returns when disabled; the store is a comment. -/
def Metrics.SetTotalWorkers (m : Metrics) (_count : Int) : Metrics :=
  if !m.enabled then m else m

/-- Go `Metrics.Reset`: returns when disabled; the stores are a comment. -/
def Metrics.Reset (m : Metrics) : Metrics :=
  if !m.enabled then m else m

/-- Go `Metrics.GetSnapshot`: `types.PoolMetrics{}` when disabled, and `types.PoolMetrics{}`
on the last line too. -/
def Metrics.GetSnapshot (m : Metrics) : types.PoolMetrics :=
  if !m.enabled then {} else {}

/-- Go `Metrics.calculateAverageLatency`; `/` on `int64` truncates towards zero and wraps. -/
def Metrics.calculateAverageLatency (m : Metrics) : Int :=
  let processed := m.jobsProcessed
  if processed = 0 then 0
  else
    let totalLatency := m.totalLatency
    wrapInt64 (Int.tdiv totalLatency processed)

/-- The `float64` operations used by `GetSuccessRate` and `GetFailureRate`: the conversion
`float64(x)` of an `int64`, division, multiplication, and the constants `0` and `100.0`.
The arithmetic is a parameter of the embedding. -/
structure Float64Ops (φ : Type) where
  ofInt64 : Int → φ
  div : φ → φ → φ
  mul : φ → φ → φ
  zero : φ
  hundred : φ

/-- Exact rational arithmetic, in which no operation rounds: the arithmetic over which the
rate invariants are stated.  The arithmetic of the code is `Float64Ops.binary64`. -/
def Float64Ops.exact : Float64Ops ℚ :=
  { ofInt64 := fun x => (x : ℚ)
    div := fun x y => x / y
    mul := fun x y => x * y
    zero := 0
    hundred := 100 }

/-- Go `Metrics.GetSuccessRate`, over the `float64` operations `ops`. -/
def Metrics.GetSuccessRate {φ : Type} (m : Metrics) (ops : Float64Ops φ) : φ :=
  let processed := m.jobsProcessed
  if processed = 0 then ops.zero
  else
    let succeeded := m.jobsSucceeded
    ops.mul (ops.div (ops.ofInt64 succeeded) (ops.ofInt64 processed)) ops.hundred

/-- Go `Metrics.GetFailureRate`, over the `float64` operations `ops`. -/
def Metrics.GetFailureRate {φ : Type} (m : Metrics) (ops : Float64Ops φ) : φ :=
  let processed := m.jobsProcessed
  if processed = 0 then ops.zero
  else
    let failed := m.jobsFailed
    ops.mul (ops.div (ops.ofInt64 failed) (ops.ofInt64 processed)) ops.hundred

/-- Rounding of a rational number to the nearest integer, a tie going to the even
neighbour. -/
def roundHalfEven (q : ℚ) : Int :=
  if q - ⌊q⌋ < 1 / 2 then ⌊q⌋
  else if 1 / 2 < q - ⌊q⌋ then ⌊q⌋ + 1
  else if ⌊q⌋ % 2 = 0 then ⌊q⌋
  else ⌊q⌋ + 1

/-- The exponent of the unit in the last place of the `float64` numbers around `x`: with
`2^e <= |x| < 2^(e+1)` it is `e - 52` (53 significant bits), and `-1074` below the smallest
normal number `2^-1022`. -/
def binary64.ulpExp (x : ℚ) : Int := max (Int.log 2 |x|) (-1022) - 52

/-- The `float64` nearest to the rational `x`, a finite `float64` being read as the rational
number it stands for: IEEE 754 binary64 rounding to nearest, ties to even.  Infinities, NaN
and the sign of zero are not represented; the results of the functions embedded here have a
magnitude below `2^70`. -/
def binary64.round (x : ℚ) : ℚ :=
  (roundHalfEven (x / 2 ^ binary64.ulpExp x) : ℚ) * 2 ^ binary64.ulpExp x

/-- Go `x + y` on `float64`: the sum, rounded. -/
def binary64.add (x y : ℚ) : ℚ := binary64.round (x + y)

/-- The `float64` arithmetic of Go: each conversion `float64(x)`, each division and each
multiplication returns the `float64` nearest to the exact result, every operation rounding
on its own (no fused operation). -/
def Float64Ops.binary64 : Float64Ops ℚ :=
  { ofInt64 := fun x => binary64.round (x : ℚ)
    div := fun x y => binary64.round (x / y)
    mul := fun x y => binary64.round (x * y)
    zero := 0
    hundred := 100 }

/-- The operations of the recorder that the spec calls mutating. -/
inductive MetricsOp where
  | incrementJobsSubmitted
  | incrementJobsProcessed
  | incrementJobsSucceeded
  | incrementJobsFailed
  | addLatency (duration : Int)
  | setActiveWorkers (count : Int)
  | setQueueLength (length : Int)
  | setTotalWorkers (count : Int)
  | reset
deriving DecidableEq, Repr

/-- The call of a mutating operation. -/
def Metrics.apply (m : Metrics) : MetricsOp → Metrics
  | .incrementJobsSubmitted => m.IncrementJobsSubmitted
  | .incrementJobsProcessed => m.IncrementJobsProcessed
  | .incrementJobsSucceeded => m.IncrementJobsSucceeded
  | .incrementJobsFailed => m.IncrementJobsFailed
  | .addLatency duration => m.AddLatency duration
  | .setActiveWorkers count => m.SetActiveWorkers count
  | .setQueueLength length => m.SetQueueLength length
  | .setTotalWorkers count => m.SetTotalWorkers count
  | .reset => m.Reset

/-- A recorder holding the counters of 8 processed jobs, 6 succeeded and 2 failed, with a
total latency of 4100. -/
def scenarioMetrics : Metrics :=
  { jobsSubmitted := 9, jobsProcessed := 8, jobsSucceeded := 6, jobsFailed := 2
    totalLatency := 4100, activeWorkers := 3, queueLength := 1, totalWorkers := 4
    enabled := false, updateInterval := 1000000000 }

/-- A recorder holding the counters of 3 processed jobs, 2 succeeded and 1 failed. -/
def scenarioThirds : Metrics :=
  { jobsSubmitted := 3, jobsProcessed := 3, jobsSucceeded := 2, jobsFailed := 1
    totalLatency := 0, activeWorkers := 0, queueLength := 0, totalWorkers := 0
    enabled := false, updateInterval := 0 }

/-- A recorder whose counters hold the one pair of `int64` values whose quotient does not
fit `int64`: a total latency of `-2^63` and a processed count of `-1`. -/
def scenarioOverflowMetrics : Metrics :=
  { jobsSubmitted := 0, jobsProcessed := -1, jobsSucceeded := 0, jobsFailed := 0
    totalLatency := -9223372036854775808, activeWorkers := 0, queueLength := 0
    totalWorkers := 0, enabled := false, updateInterval := 0 }

/-- An advanced pool whose counters hold the same pair. -/
def scenarioOverflowPool : AdvancedWorkerPool :=
  { NewAdvancedWorkerPool false 1 20 with
    metrics := { jobsProcessed := -1, jobsSucceeded := 0, jobsFailed := 0
                 totalLatency := -9223372036854775808, activeWorkers := 0 } }

/-- Counters that have counted `n` completed calls since they were all zero: `a` successes
and `b` failures with `a + b = n`, each stored as an `int64`. -/
def PoolMetrics.Counts (m : PoolMetrics) (n : Nat) : Prop :=
  ∃ a b : Nat, a + b = n ∧ m.jobsProcessed = wrapInt64 n ∧
    m.jobsSucceeded = wrapInt64 a ∧ m.jobsFailed = wrapInt64 b

/-! ## 3. Circuit breaker (`advanced-patterns.go`) -/

/-- Go `CircuitState`. -/
inductive CircuitState where
  | StateClosed
  | StateOpen
  | StateHalfOpen
deriving DecidableEq, Repr

/-- Go `CircuitBreaker`; `lastFailureTime` is a reading of the clock in nanoseconds, the zero
`time.Time` being 0. -/
structure CircuitBreaker where
  name : String
  maxFailures : Int
  resetTimeout : Int
  state : CircuitState
  failures : Int
  lastFailureTime : Int
deriving DecidableEq, Repr

/-- Go `NewCircuitBreaker(name, maxFailures, resetTimeout)`. -/
def NewCircuitBreaker (name : String) (maxFailures : Int) (resetTimeout : Int) :
    CircuitBreaker :=
  { name := name, maxFailures := maxFailures, resetTimeout := resetTimeout
    state := .StateClosed, failures := 0, lastFailureTime := 0 }

/-- Go `time.Since(t)` at clock reading `now`: the difference as a `time.Duration`, which
saturates at the bounds of `int64`. -/
def timeSince (now t : Int) : Int :=
  max (-9223372036854775808) (min (now - t) 9223372036854775807)

/-- The inputs of one call `cb.Execute(fn)`: the clock when `time.Since` is evaluated, what
`fn()` returns when it is invoked (`err = none` for a nil error), and the clock at the
`time.Now()` that stamps a failure. -/
structure ExecuteCall where
  now : Int
  result : Option String
  err : Option String
  failedAt : Int
deriving DecidableEq, Repr

/-- What a call `cb.Execute(fn)` returns and leaves: the breaker, the two results, and
whether `fn` was invoked. -/
structure ExecuteResult where
  cb : CircuitBreaker
  result : Option String
  err : Option String
  invoked : Bool
deriving DecidableEq, Repr

/-- Go `CircuitBreaker.Execute`. -/
def CircuitBreaker.Execute (cb : CircuitBreaker) (c : ExecuteCall) : ExecuteResult :=
  let cb1 : CircuitBreaker :=
    if cb.state = .StateOpen ∧ timeSince c.now cb.lastFailureTime > cb.resetTimeout then
      { cb with state := .StateHalfOpen, failures := 0 }
    else cb
  if cb1.state = .StateOpen then
    { cb := cb1, result := none
      err := some ("circuit breaker " ++ cb1.name ++ " is open"), invoked := false }
  else
    match c.err with
    | some e =>
      let cb2 : CircuitBreaker :=
        { cb1 with failures := wrapInt64 (cb1.failures + 1), lastFailureTime := c.failedAt }
      let cb3 : CircuitBreaker :=
        if cb2.failures ≥ cb2.maxFailures then { cb2 with state := .StateOpen } else cb2
      { cb := cb3, result := none, err := some e, invoked := true }
    | none =>
      let cb2 : CircuitBreaker :=
        if cb1.state = .StateHalfOpen then { cb1 with state := .StateClosed } else cb1
      { cb := { cb2 with failures := 0 }, result := c.result, err := none, invoked := true }

/-- Go `CircuitBreaker.GetState`. -/
def CircuitBreaker.GetState (cb : CircuitBreaker) : CircuitState := cb.state

/-- The breaker after a sequence of `Execute` calls. -/
def CircuitBreaker.runCalls (cb : CircuitBreaker) (calls : List ExecuteCall) :
    CircuitBreaker :=
  calls.foldl (fun b c => (b.Execute c).cb) cb

/-- What the calls of a sequence of `Execute` calls return, in order. -/
def CircuitBreaker.trace (cb : CircuitBreaker) : List ExecuteCall → List ExecuteResult
  | [] => []
  | c :: rest => cb.Execute c :: CircuitBreaker.trace (cb.Execute c).cb rest

/-- A call whose function fails, made at clock reading `t`. -/
def failingCall (t : Int) : ExecuteCall :=
  { now := t, result := none, err := some "service unavailable", failedAt := t }

/-- A call whose function succeeds, made at clock reading `t`. -/
def succeedingCall (t : Int) : ExecuteCall :=
  { now := t, result := some "success", err := none, failedAt := t }

/-- The breaker of the demonstration: threshold 3, reset timeout 5 s. -/
def scenarioBreaker : CircuitBreaker := NewCircuitBreaker "test-service" 3 5000000000

/-! ## 4. Rate limiter (`advanced-patterns.go`) -/

/-- Go `RateLimiter`; the ticker is the source of the refill ticks. -/
structure RateLimiter where
  tokens : Chan Unit
  stopCh : Chan Unit
  rate : Int
  bucketSize : Int
deriving DecidableEq, Repr

/-- Go `NewRateLimiter(rate, bucketSize)`: `make` panics on a negative size and
`time.NewTicker` on a non-positive period (`none`); otherwise the loop fills the bucket with
`bucketSize` tokens. -/
def NewRateLimiter (rate : Int) (bucketSize : Int) : Option RateLimiter :=
  if bucketSize < 0 then none
  else if rate ≤ 0 then none
  else
    some
      { tokens := { buf := List.replicate bucketSize.toNat (), cap := bucketSize.toNat
                    closed := false }
        stopCh := Chan.make 0
        rate := rate
        bucketSize := bucketSize }

/-- The ticker case of `refillTokens`: the `select` with `default` that sends a token when
the bucket has room and drops the tick when it is full (`none`: send on a closed channel). -/
def RateLimiter.refill (rl : RateLimiter) : Option RateLimiter :=
  if rl.tokens.closed then none
  else if rl.tokens.buf.length < rl.tokens.cap then
    some { rl with tokens := rl.tokens.push () }
  else some rl

/-- Go `RateLimiter.Allow`: the `select` with `default` that receives a token when one is
buffered (a closed channel delivers the zero value). -/
def RateLimiter.Allow (rl : RateLimiter) : Bool × RateLimiter :=
  match rl.tokens.buf with
  | _ :: rest => (true, { rl with tokens := { rl.tokens with buf := rest } })
  | [] => if rl.tokens.closed then (true, rl) else (false, rl)

/-- What a call of `Wait` can do. -/
inductive WaitOutcome where
  /-- A token was received: `nil` is returned. -/
  | got (rl : RateLimiter)
  /-- The `ctx.Done()` case was chosen: `ctx.Err()` is returned. -/
  | ctxErr
  /-- No case can proceed. -/
  | blocked
deriving DecidableEq, Repr

/-- Go `RateLimiter.Wait(ctx)`: the `select` over the receive of a token and `ctx.Done()`. -/
def RateLimiter.Wait (rl : RateLimiter) (ctxDone : Bool) : List WaitOutcome :=
  let recvCase : List WaitOutcome :=
    match rl.tokens.buf with
    | _ :: rest => [.got { rl with tokens := { rl.tokens with buf := rest } }]
    | [] => if rl.tokens.closed then [.got rl] else []
  let doneCase : List WaitOutcome := if ctxDone then [.ctxErr] else []
  goSelect (recvCase ++ doneCase) .blocked

/-- Go `RateLimiter.Stop`: `close(rl.stopCh)`; `none` is a panic. -/
def RateLimiter.Stop (rl : RateLimiter) : Option RateLimiter :=
  match rl.stopCh.close with
  | none => none
  | some s => some { rl with stopCh := s }

/-- Repeated calls of `Allow`: the answers in order and the limiter they leave. -/
def RateLimiter.allowN (rl : RateLimiter) : Nat → List Bool × RateLimiter
  | 0 => ([], rl)
  | n + 1 =>
    let r := RateLimiter.allowN (rl.Allow).2 n
    ((rl.Allow).1 :: r.1, r.2)

/-- One event on a limiter. -/
inductive LimiterEvent where
  /-- The ticker fires and `refillTokens` handles it. -/
  | tick
  /-- A call of `Allow`. -/
  | allow
  /-- A call of `Wait(ctx)`; `choice` indexes the outcome of its `select`. -/
  | wait (ctxDone : Bool) (choice : Nat)
deriving DecidableEq, Repr

/-- One event; a `Wait` that fails or blocks and a tick that panics leave the limiter as it
is. -/
def RateLimiter.step (rl : RateLimiter) : LimiterEvent → RateLimiter
  | .tick => (rl.refill).getD rl
  | .allow => (rl.Allow).2
  | .wait ctxDone choice =>
    match (rl.Wait ctxDone)[choice]? with
    | some (.got r) => r
    | _ => rl

/-- A sequence of events on a limiter. -/
def RateLimiter.run (rl : RateLimiter) (events : List LimiterEvent) : RateLimiter :=
  events.foldl RateLimiter.step rl

/-- The invariant of a limiter made by `NewRateLimiter`: the token channel is open, holds
at most its capacity, and its capacity is `bucketSize`. -/
def RateLimiter.Wf (rl : RateLimiter) : Prop :=
  rl.tokens.closed = false ∧ rl.tokens.buf.length ≤ rl.tokens.cap ∧
  (rl.tokens.cap : Int) = rl.bucketSize

/-! ## Workers of the dynamic pool and shutdown of the basic pool -/

/-- What one iteration of the `dynamicWorker` loop can do. -/
inductive DynamicWorkerOutcome where
  /-- A job was received and its result was sent to `resultQueue`; the loop goes on. -/
  | delivered (job : Job) (p : DynamicWorkerPool)
  /-- A job was received, and the inner `select` chose `ctx.Done()`: the worker returns. -/
  | droppedAndReturned (job : Job) (p : DynamicWorkerPool)
  /-- A job was received, and the inner `select` chose the send on a closed channel. -/
  | panicked (job : Job)
  /-- A job was received, and no case of the inner `select` can proceed. -/
  | sendBlocked (job : Job) (p : DynamicWorkerPool)
  /-- The outer `select` chose `ctx.Done()`: the worker returns. -/
  | returned (p : DynamicWorkerPool)
  /-- No case of the outer `select` can proceed. -/
  | blocked
deriving DecidableEq, Repr

/-- The first case of the outer `select` of `dynamicWorker` once `job` is received and the
pool is `dwp`: the result is built and the inner `select` sends it or returns on
`ctx.Done()`. -/
def DynamicWorkerPool.handle (dwp : DynamicWorkerPool) (id : Int) (job : Job) :
    List DynamicWorkerOutcome :=
  let result : Result :=
    { JobID := job.ID, Data := some ("Dynamic result: " ++ job.Data), Error := none
      Worker := id }
  let sendCase : List DynamicWorkerOutcome :=
    if dwp.resultQueue.closed then [.panicked job]
    else if dwp.resultQueue.buf.length < dwp.resultQueue.cap then
      [.delivered job { dwp with resultQueue := dwp.resultQueue.push result }]
    else []
  let doneCase : List DynamicWorkerOutcome :=
    if dwp.done then [.droppedAndReturned job { dwp with wg := dwp.wg.erase id }] else []
  goSelect (sendCase ++ doneCase) (.sendBlocked job dwp)

/-- Go `DynamicWorkerPool.dynamicWorker`, one loop iteration: the outer `select` over the
receive from `jobQueue` and `ctx.Done()`.  Nothing in it reads `currentWorkers`. -/
def DynamicWorkerPool.dynamicWorker (dwp : DynamicWorkerPool) (id : Int) :
    List DynamicWorkerOutcome :=
  let recvCase : List DynamicWorkerOutcome :=
    match dwp.jobQueue.buf with
    | j :: rest =>
      DynamicWorkerPool.handle { dwp with jobQueue := { dwp.jobQueue with buf := rest } } id j
    | [] => if dwp.jobQueue.closed then dwp.handle id Job.zero else []
  let doneCase : List DynamicWorkerOutcome :=
    if dwp.done then [.returned { dwp with wg := dwp.wg.erase id }] else []
  goSelect (recvCase ++ doneCase) .blocked

/-- Whether an outcome of a `dynamicWorker` iteration is a return of the goroutine. -/
def DynamicWorkerOutcome.exits : DynamicWorkerOutcome → Bool
  | .droppedAndReturned _ _ => true
  | .returned _ => true
  | _ => false

/-- A dynamic pool with bounds 1 and 3 after `Start`. -/
def scenarioScaling : DynamicWorkerPool := (NewDynamicWorkerPool false 1 3).Start

/-- Go `SimpleWorkerPool.Submit`: the send `wp.jobQueue <- job`, which blocks while the queue
is full. -/
def SimpleWorkerPool.Submit (wp : SimpleWorkerPool) (job : WorkerJob) :
    SubmitOutcome SimpleWorkerPool :=
  if wp.jobQueue.closed then .panicked
  else if wp.jobQueue.buf.length < wp.jobQueue.cap then
    .accepted { wp with jobQueue := wp.jobQueue.push job }
  else .blocked

/-- What a call of a `Stop` method can do. -/
inductive StopOutcome (σ : Type) where
  /-- The method has returned, leaving the pool `p`. -/
  | returned (p : σ)
  /-- A `close` of a closed channel. -/
  | panicked
  /-- The method waits in `wg.Wait()` for a worker that cannot return. -/
  | waitsForever
deriving DecidableEq, Repr

/-- The workers blocked in the statement `wp.resultQueue <- result` complete their sends,
in order, while the result queue has room; `none` when one of them cannot. -/
def SimpleWorkerPool.drain (wp : SimpleWorkerPool) :
    List (Int × WorkerResult) → Option SimpleWorkerPool
  | [] => some wp
  | (_, r) :: rest =>
    if wp.resultQueue.buf.length < wp.resultQueue.cap then
      SimpleWorkerPool.drain { wp with resultQueue := wp.resultQueue.push r } rest
    else none

/-- Go `SimpleWorkerPool.Stop` on a pool in which the workers `sending` are blocked in the
statement `wp.resultQueue <- result` and nobody reads results: `close(wp.quit)`, then
`wg.Wait()`, which returns once every worker has returned.  A worker at its `select` returns
through the `quit` case; a worker blocked in its send has to complete the send first.  The
method has no result and no timer. -/
def SimpleWorkerPool.StopWith (wp : SimpleWorkerPool) (sending : List (Int × WorkerResult)) :
    StopOutcome SimpleWorkerPool :=
  if wp.quit.closed then .panicked
  else
    match wp.drain sending with
    | none => .waitsForever
    | some wp1 =>
      match wp1.Stop with
      | some p => .returned p
      | none => .panicked

/-- A basic pool with one worker and a result queue of capacity 1, after the worker has
delivered the result of a first job. -/
def scenarioFullResults : SimpleWorkerPool :=
  { (NewSimpleWorkerPool 1 1).Start with
    resultQueue := (Chan.make 1).push
      { JobID := "job-1", Data := some "Processed: data-1", Error := none, Worker := 0 } }

/-- The second job of the scenario. -/
def scenarioSecondJob : WorkerJob := { ID := "job-2", Data := "data-2", Priority := 0, Timeout := 0 }

/-- The first job of the scenario. -/
def scenarioFirstJob : WorkerJob := { ID := "job-1", Data := "data-1", Priority := 0, Timeout := 0 }

/-! ## Theorems -/

/-! ### Priority pool -/

theorem targetQueue_cases (job : PriorityJob) :
    (PriorityWorkerPool.targetQueue job = .high ↔ 8 ≤ job.Priority) ∧
    (PriorityWorkerPool.targetQueue job = .med ↔ 5 ≤ job.Priority ∧ job.Priority ≤ 7) ∧
    (PriorityWorkerPool.targetQueue job = .low ↔ job.Priority < 5) := by
  unfold PriorityWorkerPool.targetQueue
  refine ⟨?_, ?_, ?_⟩
  · split_ifs <;> simp <;> omega
  · split_ifs <;> simp <;> omega
  · split_ifs <;> simp <;> omega

theorem queue_setQueue_same (pwp : PriorityWorkerPool) (b : Band) (c : Chan PriorityJob) :
    (pwp.setQueue b c).queue b = c := by
  cases b <;> rfl

theorem queue_setQueue_other (pwp : PriorityWorkerPool) (b b1 : Band) (c : Chan PriorityJob)
    (h : b1 ≠ b) : (pwp.setQueue b c).queue b1 = pwp.queue b1 := by
  cases b <;> cases b1 <;> first | rfl | exact absurd rfl h

/-- C1: `PriorityWorkerPool.Submit` routes a job into the high queue iff `Priority >= 8`, into
the medium queue iff `5 <= Priority <= 7`, and into the low queue iff `Priority < 5`; when
the pool context is not done and the chosen queue is open and has room, the only outcome is
that the job is appended to that queue, the other two queues are unchanged and `nil` is
returned. -/
theorem C1_submit_routes_by_priority (pwp : PriorityWorkerPool) (job : PriorityJob) :
    (PriorityWorkerPool.targetQueue job = .high ↔ 8 ≤ job.Priority) ∧
    (PriorityWorkerPool.targetQueue job = .med ↔ 5 ≤ job.Priority ∧ job.Priority ≤ 7) ∧
    (PriorityWorkerPool.targetQueue job = .low ↔ job.Priority < 5) ∧
    (pwp.done = false →
      (pwp.queue (PriorityWorkerPool.targetQueue job)).closed = false →
      (pwp.queue (PriorityWorkerPool.targetQueue job)).buf.length
        < (pwp.queue (PriorityWorkerPool.targetQueue job)).cap →
      ∃ p : PriorityWorkerPool,
        pwp.Submit job = [.accepted p] ∧
        (p.queue (PriorityWorkerPool.targetQueue job)).buf
          = (pwp.queue (PriorityWorkerPool.targetQueue job)).buf ++ [job] ∧
        (∀ b, b ≠ PriorityWorkerPool.targetQueue job → p.queue b = pwp.queue b) ∧
        p.resultQueue = pwp.resultQueue ∧ p.done = pwp.done) := by
  obtain ⟨h1, h2, h3⟩ := targetQueue_cases job
  refine ⟨h1, h2, h3, ?_⟩
  intro hd hc hroom
  refine ⟨pwp.setQueue (PriorityWorkerPool.targetQueue job)
    ((pwp.queue (PriorityWorkerPool.targetQueue job)).push job), ?_, ?_, ?_, ?_, ?_⟩
  · simp [PriorityWorkerPool.Submit, hd, hc, hroom, goSelect]
  · rw [queue_setQueue_same]; rfl
  · intro b hb
    exact queue_setQueue_other pwp _ b _ hb
  · cases PriorityWorkerPool.targetQueue job <;> rfl
  · cases PriorityWorkerPool.targetQueue job <;> rfl

/-- Witness of C1: a priority 9 job submitted to a fresh pool. -/
theorem C1_submit_routes_by_priority_witness :
    ∃ p : PriorityWorkerPool,
      (NewPriorityWorkerPool false 1).Submit ⟨⟨"A", "a", 0⟩, 9⟩ = [.accepted p] ∧
      p.highPriority.buf = [⟨⟨"A", "a", 0⟩, 9⟩] ∧ p.medPriority.buf = [] ∧
      p.lowPriority.buf = [] := by
  obtain ⟨p, hs, hq, ho, _, _⟩ :=
    (C1_submit_routes_by_priority (NewPriorityWorkerPool false 1) ⟨⟨"A", "a", 0⟩, 9⟩).2.2.2
      rfl rfl (by decide)
  refine ⟨p, hs, ?_, ?_, ?_⟩
  · simpa using hq
  · have := ho .med (by decide)
    simpa [PriorityWorkerPool.queue] using congrArg Chan.buf this
  · have := ho .low (by decide)
    simpa [PriorityWorkerPool.queue] using congrArg Chan.buf this

/-- C2: evaluation of `priorityWorker` on the scenario `C` (priority 2), `A` (9), `B` (9)
submitted in that order.  The high queue holds `A, B` and the low queue holds `C`, and the
`select` has the receive from the low queue among its outcomes: a worker can take `C` while
`A` and `B` are still waiting, and the run in which it does so dequeues `C` first. -/
theorem C2_priorityWorker_can_take_low_before_high :
    scenarioRun.pool.highPriority.buf = [scenarioA, scenarioB] ∧
    scenarioRun.pool.lowPriority.buf = [scenarioC] ∧
    (scenarioRun.pool.priorityWorker).length = 2 ∧
    (∃ p : PriorityWorkerPool,
      (scenarioRun.pool.priorityWorker)[1]? = some (.took .low scenarioC p) ∧
      p.highPriority.buf = [scenarioA, scenarioB] ∧ p.lowPriority.buf = []) ∧
    (scenarioRun.run [.receive 1, .receive 0, .receive 0]).dequeued
      = [(.low, scenarioC), (.high, scenarioA), (.high, scenarioB)] := by
  refine ⟨by decide, by decide, by decide, ⟨_, rfl, by decide, by decide⟩, by decide⟩

theorem submit_accepted_eq (pwp : PriorityWorkerPool) (job : PriorityJob) (c : Nat)
    (p : PriorityWorkerPool) (h : (pwp.Submit job)[c]? = some (.accepted p)) :
    p = pwp.setQueue (PriorityWorkerPool.targetQueue job)
      ((pwp.queue (PriorityWorkerPool.targetQueue job)).push job) := by
  have hm : SubmitOutcome.accepted p ∈ pwp.Submit job := List.getElem?_mem h
  unfold PriorityWorkerPool.Submit at hm
  simp only [goSelect] at hm
  split at hm
  · simp at hm
  · rename_i r rs heq
    rw [← heq] at hm
    simp only [List.mem_append] at hm
    rcases hm with hm | hm
    · split_ifs at hm <;> simp at hm
      exact hm
    · split_ifs at hm <;> simp at hm

theorem mem_recvCase (pwp : PriorityWorkerPool) (b b1 : Band) (j : PriorityJob)
    (p : PriorityWorkerPool) (hopen : (pwp.queue b).closed = false)
    (h : WorkerOutcome.took b1 j p ∈ pwp.recvCase b) :
    b1 = b ∧ ∃ rest, (pwp.queue b).buf = j :: rest ∧
      p = pwp.setQueue b { pwp.queue b with buf := rest } := by
  unfold PriorityWorkerPool.recvCase at h
  split at h
  · rename_i j1 rest heq
    simp at h
    obtain ⟨hb, hj, hp⟩ := h
    subst hb; subst hj
    exact ⟨rfl, rest, heq, hp⟩
  · simp [hopen] at h

theorem worker_took_eq (pwp : PriorityWorkerPool) (c : Nat) (b : Band) (j : PriorityJob)
    (p : PriorityWorkerPool) (hopen : ∀ b, (pwp.queue b).closed = false)
    (h : (pwp.priorityWorker)[c]? = some (.took b j p)) :
    ∃ rest, (pwp.queue b).buf = j :: rest ∧
      p = pwp.setQueue b { pwp.queue b with buf := rest } := by
  have hm : WorkerOutcome.took b j p ∈ pwp.priorityWorker := List.getElem?_mem h
  unfold PriorityWorkerPool.priorityWorker at hm
  simp only [goSelect] at hm
  split at hm
  · simp at hm
  · rename_i r rs heq
    rw [← heq] at hm
    simp only [List.mem_append] at hm
    rcases hm with ((hm | hm) | hm) | hm
    · obtain ⟨hb, hr⟩ := mem_recvCase pwp .high b j p (hopen _) hm
      subst hb; exact hr
    · obtain ⟨hb, hr⟩ := mem_recvCase pwp .med b j p (hopen _) hm
      subst hb; exact hr
    · obtain ⟨hb, hr⟩ := mem_recvCase pwp .low b j p (hopen _) hm
      subst hb; exact hr
    · split_ifs at hm <;> simp at hm

theorem fifo_step (t : PoolRun) (e : PoolEvent) (h : t.Fifo) : (t.step e).Fifo := by
  obtain ⟨hopen, hfifo⟩ := h
  cases e with
  | submit job choice =>
    simp only [PoolRun.step]
    split
    · rename_i p hp
      have hp1 := submit_accepted_eq t.pool job choice p hp
      subst hp1
      refine ⟨?_, ?_⟩
      · intro b
        by_cases hb : b = PriorityWorkerPool.targetQueue job
        · subst hb
          simpa [queue_setQueue_same, Chan.push] using hopen _
        · simpa [queue_setQueue_other _ _ _ _ hb] using hopen b
      · intro b
        by_cases hb : b = PriorityWorkerPool.targetQueue job
        · subst hb
          have := hfifo (PriorityWorkerPool.targetQueue job)
          simp only [PoolRun.dequeuedFrom, PoolRun.acceptedInto, queue_setQueue_same,
            Chan.push] at this ⊢
          simp [List.filter_append, ← this]
        · have := hfifo b
          have hb1 : ¬ PriorityWorkerPool.targetQueue job = b := fun h => hb h.symm
          simp only [PoolRun.dequeuedFrom, PoolRun.acceptedInto,
            queue_setQueue_other _ _ _ _ hb] at this ⊢
          simp [List.filter_append, hb1, this]
    · exact ⟨hopen, hfifo⟩
  | receive choice =>
    simp only [PoolRun.step]
    split
    · rename_i b j p hp
      obtain ⟨rest, hbuf, hp1⟩ := worker_took_eq t.pool choice b j p hopen hp
      subst hp1
      refine ⟨?_, ?_⟩
      · intro b1
        by_cases hb : b1 = b
        · subst hb
          simpa [queue_setQueue_same] using hopen _
        · simpa [queue_setQueue_other _ _ _ _ hb] using hopen b1
      · intro b1
        by_cases hb : b1 = b
        · subst hb
          have := hfifo b1
          simp only [PoolRun.dequeuedFrom, PoolRun.acceptedInto, queue_setQueue_same,
            hbuf] at this ⊢
          simp [List.filter_append, ← this]
        · have := hfifo b1
          have hb1 : ¬ b = b1 := fun h => hb h.symm
          simp only [PoolRun.dequeuedFrom, PoolRun.acceptedInto,
            queue_setQueue_other _ _ _ _ hb] at this ⊢
          simp [List.filter_append, hb1, this]
    · exact ⟨hopen, hfifo⟩
  | cancel =>
    refine ⟨?_, ?_⟩
    · intro b
      cases b
      · exact hopen .high
      · exact hopen .med
      · exact hopen .low
    · intro b
      cases b
      · exact hfifo .high
      · exact hfifo .med
      · exact hfifo .low

theorem fifo_run (es : List PoolEvent) (t : PoolRun) (h : t.Fifo) : (t.run es).Fifo := by
  induction es generalizing t with
  | nil => exact h
  | cons e es ih => exact ih (t.step e) (fifo_step t e h)

theorem fifo_init (parentDone : Bool) (workers : Int) :
    (PoolRun.init (NewPriorityWorkerPool parentDone workers)).Fifo := by
  refine ⟨?_, ?_⟩
  · intro b; cases b <;> rfl
  · intro b; cases b <;> rfl

/-- C3: FIFO within a band.  In every run of a priority pool (any interleaving of `Submit`
calls, `priorityWorker` receives with any choice of the `select`, and cancellation), for
each band the jobs workers have dequeued from it, followed by the jobs still queued in it,
are exactly the jobs `Submit` accepted into it, in submission order.  So the dequeue order
of a band is an initial segment of its submission order: of two accepted jobs of one band
the one submitted first is dequeued first. -/
theorem C3_fifo_within_band (parentDone : Bool) (workers : Int) (es : List PoolEvent)
    (b : Band) :
    ((PoolRun.init (NewPriorityWorkerPool parentDone workers)).run es).dequeuedFrom b
        ++ (((PoolRun.init (NewPriorityWorkerPool parentDone workers)).run es).pool.queue b).buf
      = ((PoolRun.init (NewPriorityWorkerPool parentDone workers)).run es).acceptedInto b ∧
    ((PoolRun.init (NewPriorityWorkerPool parentDone workers)).run es).dequeuedFrom b
      <+: ((PoolRun.init (NewPriorityWorkerPool parentDone workers)).run es).acceptedInto b := by
  have h := (fifo_run es _ (fifo_init parentDone workers)).2 b
  exact ⟨h, ⟨_, h⟩⟩

/-! ### Dynamic pool -/

theorem wrapInt32_eq (x : Int) (h1 : -2147483648 ≤ x) (h2 : x ≤ 2147483647) :
    wrapInt32 x = x := by
  unfold wrapInt32; omega

theorem wrapInt64_eq (x : Int) (h1 : -9223372036854775808 ≤ x)
    (h2 : x ≤ 9223372036854775807) : wrapInt64 x = x := by
  unfold wrapInt64; omega

theorem scaleUpLoop_fields (n : Nat) (dwp : DynamicWorkerPool) (i : Int) :
    (dwp.scaleUpLoop i n).minWorkers = dwp.minWorkers ∧
    (dwp.scaleUpLoop i n).maxWorkers = dwp.maxWorkers ∧
    (dwp.scaleUpLoop i n).jobQueue = dwp.jobQueue := by
  induction n generalizing dwp i with
  | zero => exact ⟨rfl, rfl, rfl⟩
  | succ n ih =>
    simp only [DynamicWorkerPool.scaleUpLoop]
    obtain ⟨h1, h2, h3⟩ := ih
      { dwp with wg := dwp.wg ++ [i], currentWorkers := wrapInt32 (dwp.currentWorkers + 1) }
      (i + 1)
    exact ⟨h1, h2, h3⟩

theorem scaleUpLoop_count (n : Nat) (dwp : DynamicWorkerPool) (i : Int)
    (h1 : -2147483648 ≤ dwp.currentWorkers) (h2 : dwp.currentWorkers + n ≤ 2147483647) :
    (dwp.scaleUpLoop i n).currentWorkers = dwp.currentWorkers + n := by
  induction n generalizing dwp i with
  | zero => simp [DynamicWorkerPool.scaleUpLoop]
  | succ n ih =>
    simp only [DynamicWorkerPool.scaleUpLoop]
    have hw : wrapInt32 (dwp.currentWorkers + 1) = dwp.currentWorkers + 1 :=
      wrapInt32_eq _ (by omega) (by push_cast at h2; omega)
    rw [ih _ _ (by simp only [hw]; omega) (by simp only [hw]; push_cast at h2; omega)]
    simp only [hw]
    push_cast; ring

theorem scaleUp_fields (dwp : DynamicWorkerPool) (count : Int) :
    (dwp.scaleUp count).minWorkers = dwp.minWorkers ∧
    (dwp.scaleUp count).maxWorkers = dwp.maxWorkers ∧
    (dwp.scaleUp count).jobQueue = dwp.jobQueue := by
  unfold DynamicWorkerPool.scaleUp
  exact scaleUpLoop_fields _ _ _

theorem scaleDown_fields (dwp : DynamicWorkerPool) (count : Int) :
    (dwp.scaleDown count).minWorkers = dwp.minWorkers ∧
    (dwp.scaleDown count).maxWorkers = dwp.maxWorkers ∧
    (dwp.scaleDown count).jobQueue = dwp.jobQueue := by
  unfold DynamicWorkerPool.scaleDown
  simp only
  split_ifs <;> exact ⟨rfl, rfl, rfl⟩

/-- The counter after `scaleUp(count)` when `maxWorkers` fits the `int32` counter. -/
theorem scaleUp_count (dwp : DynamicWorkerPool) (count : Int)
    (h1 : -2147483648 ≤ dwp.currentWorkers) (h2 : dwp.currentWorkers ≤ 2147483647)
    (h3 : dwp.maxWorkers ≤ 2147483647 ∨ wrapInt64 (dwp.currentWorkers + count) ≤ 2147483647) :
    (dwp.scaleUp count).currentWorkers
      = max dwp.currentWorkers (min (wrapInt64 (dwp.currentWorkers + count)) dwp.maxWorkers) := by
  unfold DynamicWorkerPool.scaleUp
  simp only
  rw [scaleUpLoop_count _ _ _ h1 (by omega)]
  omega

/-- The counter after `scaleDown(count)` when the pool bounds fit the `int32` counter. -/
theorem scaleDown_count (dwp : DynamicWorkerPool) (count : Int)
    (h1 : -2147483648 ≤ dwp.minWorkers) (h2 : dwp.currentWorkers ≤ 2147483647) :
    (dwp.scaleDown count).currentWorkers
      = min dwp.currentWorkers (max (wrapInt64 (dwp.currentWorkers - count)) dwp.minWorkers) := by
  unfold DynamicWorkerPool.scaleDown
  simp only
  split_ifs with h
  · simp only
    rw [wrapInt32_eq _ (by omega) (by omega)]
    omega
  · omega

/-- C4: for a dynamic pool with `0 <= minWorkers <= currentWorkers <= maxWorkers` (the
counter being an `int32` and the job queue holding at most its 1000 slots), one call of
`checkAndScale` with queue length `q` and worker count `w` sets the count to `w+1` exactly
when `q > 2*w` and `w < maxWorkers`, to `w-1` exactly when `q = 0` and `w > minWorkers`, and
leaves it unchanged otherwise; the two conditions exclude each other, and the count moves
by at most one. -/
theorem C4_checkAndScale_one_step (dwp : DynamicWorkerPool)
    (hmin : 0 ≤ dwp.minWorkers) (hlo : dwp.minWorkers ≤ dwp.currentWorkers)
    (_hhi : dwp.currentWorkers ≤ dwp.maxWorkers)
    (hint : dwp.currentWorkers ≤ 2147483647) (hcap : dwp.jobQueue.len ≤ 1000) :
    (dwp.checkAndScale.GetCurrentWorkerCount = dwp.currentWorkers + 1 ↔
      ((dwp.jobQueue.len : Int) > 2 * dwp.currentWorkers ∧
        dwp.currentWorkers < dwp.maxWorkers)) ∧
    (dwp.checkAndScale.GetCurrentWorkerCount = dwp.currentWorkers - 1 ↔
      ((dwp.jobQueue.len : Int) = 0 ∧ dwp.currentWorkers > dwp.minWorkers)) ∧
    (dwp.checkAndScale.GetCurrentWorkerCount = dwp.currentWorkers ↔
      (¬ ((dwp.jobQueue.len : Int) > 2 * dwp.currentWorkers ∧
          dwp.currentWorkers < dwp.maxWorkers) ∧
        ¬ ((dwp.jobQueue.len : Int) = 0 ∧ dwp.currentWorkers > dwp.minWorkers))) ∧
    ¬ (((dwp.jobQueue.len : Int) > 2 * dwp.currentWorkers ∧
          dwp.currentWorkers < dwp.maxWorkers) ∧
        ((dwp.jobQueue.len : Int) = 0 ∧ dwp.currentWorkers > dwp.minWorkers)) ∧
    (dwp.checkAndScale.GetCurrentWorkerCount - dwp.currentWorkers).natAbs ≤ 1 := by
  have hw2 : wrapInt64 (dwp.currentWorkers * 2) = 2 * dwp.currentWorkers := by
    rw [wrapInt64_eq _ (by omega) (by omega)]; ring
  have hq : (0 : Int) ≤ (dwp.jobQueue.len : Int) := Int.ofNat_nonneg _
  have hq2 : ((dwp.jobQueue.len : Nat) : Int) ≤ 1000 := by exact_mod_cast hcap
  have key : dwp.checkAndScale.GetCurrentWorkerCount =
      if (dwp.jobQueue.len : Int) > 2 * dwp.currentWorkers ∧
          dwp.currentWorkers < dwp.maxWorkers then dwp.currentWorkers + 1
      else if (dwp.jobQueue.len : Int) = 0 ∧ dwp.currentWorkers > dwp.minWorkers then
        dwp.currentWorkers - 1
      else dwp.currentWorkers := by
    unfold DynamicWorkerPool.checkAndScale DynamicWorkerPool.GetCurrentWorkerCount
    simp only [hw2]
    by_cases hup : (dwp.jobQueue.len : Int) > 2 * dwp.currentWorkers ∧
        dwp.currentWorkers < dwp.maxWorkers
    · have hdn : ¬ ((dwp.jobQueue.len : Int) = 0 ∧ dwp.currentWorkers > dwp.minWorkers) := by
        omega
      rw [if_pos hup, if_neg hdn, if_pos hup]
      rw [scaleUp_count _ _ (by omega) hint
        (Or.inr (by rw [wrapInt64_eq _ (by omega) (by omega)]; omega))]
      rw [wrapInt64_eq _ (by omega) (by omega)]
      omega
    · rw [if_neg hup, if_neg hup]
      by_cases hdn : (dwp.jobQueue.len : Int) = 0 ∧ dwp.currentWorkers > dwp.minWorkers
      · rw [if_pos hdn, if_pos hdn]
        rw [scaleDown_count _ _ (by omega) hint]
        rw [wrapInt64_eq _ (by omega) (by omega)]
        omega
      · rw [if_neg hdn, if_neg hdn]
  rw [key]
  refine ⟨?_, ?_, ?_, ?_, ?_⟩
  · split_ifs <;> omega
  · split_ifs <;> omega
  · split_ifs <;> omega
  · omega
  · split_ifs <;> omega

/-- Witness of C4: with bounds 1 and 4, one worker and three queued jobs the tick adds one
worker. -/
theorem C4_checkAndScale_one_step_witness :
    scenarioDynamic.checkAndScale.GetCurrentWorkerCount = scenarioDynamic.currentWorkers + 1 :=
  (C4_checkAndScale_one_step scenarioDynamic (by decide) (by decide) (by decide) (by decide)
    (by decide)).1.mpr ⟨by decide, by decide⟩

theorem inBounds_scaleUp (dwp : DynamicWorkerPool) (lo hi count : Int)
    (h0 : 0 ≤ lo) (h2 : hi ≤ 2147483647) (h : dwp.InBounds lo hi) :
    (dwp.scaleUp count).InBounds lo hi := by
  obtain ⟨hmin, hmax, hlo, hhi⟩ := h
  obtain ⟨f1, f2, _⟩ := scaleUp_fields dwp count
  refine ⟨f1.trans hmin, f2.trans hmax, ?_, ?_⟩
  · rw [scaleUp_count dwp count (by omega) (by omega) (Or.inl (by omega))]
    omega
  · rw [scaleUp_count dwp count (by omega) (by omega) (Or.inl (by omega))]
    omega

theorem inBounds_scaleDown (dwp : DynamicWorkerPool) (lo hi count : Int)
    (h0 : 0 ≤ lo) (h2 : hi ≤ 2147483647) (h : dwp.InBounds lo hi) :
    (dwp.scaleDown count).InBounds lo hi := by
  obtain ⟨hmin, hmax, hlo, hhi⟩ := h
  obtain ⟨f1, f2, _⟩ := scaleDown_fields dwp count
  refine ⟨f1.trans hmin, f2.trans hmax, ?_, ?_⟩
  · rw [scaleDown_count dwp count (by omega) (by omega)]
    omega
  · rw [scaleDown_count dwp count (by omega) (by omega)]
    omega

theorem inBounds_step (dwp : DynamicWorkerPool) (lo hi : Int) (e : ScaleEvent)
    (h0 : 0 ≤ lo) (h2 : hi ≤ 2147483647) (h : dwp.InBounds lo hi) :
    (dwp.step e).InBounds lo hi := by
  cases e with
  | tick =>
    simp only [DynamicWorkerPool.step, DynamicWorkerPool.checkAndScale]
    have hup : (if (dwp.jobQueue.len : Int) > wrapInt64 (dwp.currentWorkers * 2) ∧
        dwp.currentWorkers < dwp.maxWorkers then dwp.scaleUp 1 else dwp).InBounds lo hi := by
      split_ifs
      · exact inBounds_scaleUp dwp lo hi 1 h0 h2 h
      · exact h
    by_cases hdn : (dwp.jobQueue.len : Int) = 0 ∧ dwp.currentWorkers > dwp.minWorkers
    · rw [if_pos hdn]
      exact inBounds_scaleDown _ lo hi 1 h0 h2 hup
    · rw [if_neg hdn]
      exact hup
  | adjust k =>
    simp only [DynamicWorkerPool.step, DynamicWorkerPool.adjustWorkers]
    split_ifs
    · exact inBounds_scaleUp dwp lo hi k h0 h2 h
    · exact inBounds_scaleDown dwp lo hi _ h0 h2 h
    · exact h
  | queue jobs => exact h

theorem inBounds_run (es : List ScaleEvent) (dwp : DynamicWorkerPool) (lo hi : Int)
    (h0 : 0 ≤ lo) (h2 : hi ≤ 2147483647) (h : dwp.InBounds lo hi) :
    (dwp.run es).InBounds lo hi := by
  induction es generalizing dwp with
  | nil => exact h
  | cons e es ih => exact ih (dwp.step e) (inBounds_step dwp lo hi e h0 h2 h)

/-- C5 as stated fails: a pool constructed with `minWorkers = maxWorkers = 2^31` satisfies
`0 <= minWorkers <= maxWorkers`, and before any tick or adjustment its counter, stored as
`int32(minWorkers)`, reads `-2^31`, which is below `minWorkers`. -/
theorem C5_counterexample_int32_counter :
    (0 : Int) ≤ 2147483648 ∧ (2147483648 : Int) ≤ 2147483648 ∧
    ((NewDynamicWorkerPool false 2147483648 2147483648).run []).GetCurrentWorkerCount
      = -2147483648 ∧
    ¬ ((2147483648 : Int) ≤
        ((NewDynamicWorkerPool false 2147483648 2147483648).run []).GetCurrentWorkerCount ∧
       ((NewDynamicWorkerPool false 2147483648 2147483648).run []).GetCurrentWorkerCount
        ≤ 2147483648) := by
  decide

/-- C5 (amended): for a dynamic pool constructed with
`0 <= minWorkers <= maxWorkers <= 2^31 - 1`, after every finite sequence of `checkAndScale`
ticks (with arbitrary job queue contents in between) and `adjustWorkers(k)` calls (with
arbitrary integers `k`), `GetCurrentWorkerCount` lies in `[minWorkers, maxWorkers]`. -/
theorem C5_worker_count_in_bounds (parentDone : Bool) (minWorkers maxWorkers : Int)
    (es : List ScaleEvent) (h0 : 0 ≤ minWorkers) (h1 : minWorkers ≤ maxWorkers)
    (h2 : maxWorkers ≤ 2147483647) :
    minWorkers ≤ ((NewDynamicWorkerPool parentDone minWorkers maxWorkers).run es).GetCurrentWorkerCount ∧
    ((NewDynamicWorkerPool parentDone minWorkers maxWorkers).run es).GetCurrentWorkerCount
      ≤ maxWorkers := by
  have hinit : (NewDynamicWorkerPool parentDone minWorkers maxWorkers).InBounds
      minWorkers maxWorkers := by
    refine ⟨rfl, rfl, ?_, ?_⟩
    · show minWorkers ≤ wrapInt32 minWorkers
      rw [wrapInt32_eq _ (by omega) (by omega)]
    · show wrapInt32 minWorkers ≤ maxWorkers
      rw [wrapInt32_eq _ (by omega) (by omega)]; exact h1
  obtain ⟨_, _, hlo, hhi⟩ := inBounds_run es _ minWorkers maxWorkers h0 h2 hinit
  exact ⟨hlo, hhi⟩

/-- Witness of C5: bounds 2 and 5, a run that scales up by 100, ticks on an empty queue and
scales down by 100. -/
theorem C5_worker_count_in_bounds_witness :
    (2 : Int) ≤ ((NewDynamicWorkerPool false 2 5).run
        [.adjust 100, .tick, .adjust (-100)]).GetCurrentWorkerCount ∧
    ((NewDynamicWorkerPool false 2 5).run
        [.adjust 100, .tick, .adjust (-100)]).GetCurrentWorkerCount ≤ 5 :=
  C5_worker_count_in_bounds false 2 5 [.adjust 100, .tick, .adjust (-100)]
    (by decide) (by decide) (by decide)

/-! ### Lifecycle and submission errors -/

/-- C6: evaluation of `Pool.SetWorkerCount`: for every pool and every `count` (so also for
`count = -1`, below any lower bound) it returns `nil` and leaves the pool as it was; and the
manual scaling of the dynamic pool, `adjustWorkers`, has no error result: asked for 100 more
workers with bounds 2 and 5 it stops at 5, asked for 100 fewer it stops at 2. -/
theorem C6_setWorkerCount_returns_nil (p : Pool) (count : Int) :
    (p.SetWorkerCount count).2 = none ∧ (p.SetWorkerCount count).1 = p ∧
    ((NewPool ⟨⟩).SetWorkerCount (-1)).2 = none ∧
    ((NewDynamicWorkerPool false 2 5).adjustWorkers 100).GetCurrentWorkerCount = 5 ∧
    (((NewDynamicWorkerPool false 2 5).adjustWorkers 100).adjustWorkers
      (-100)).GetCurrentWorkerCount = 2 :=
  ⟨rfl, rfl, rfl, by decide, by decide⟩

/-- C7: evaluation of two consecutive `Start` calls.  `Pool.Start` returns `nil` both times
and the worker set stays as it was (empty for a new pool); `AdvancedWorkerPool.Start` called
twice on a pool configured with 4 workers has spawned 8 worker goroutines, ids 0 to 3
twice. -/
theorem C7_second_start_not_rejected (p : Pool) :
    (p.Start.1.Start).2 = none ∧ (p.Start.1.Start).1 = p ∧
    ((NewPool ⟨⟩).Start.1.Start).1.GetWorkerCount = 0 ∧
    (NewAdvancedWorkerPool false 4 20).Start.wg = [0, 1, 2, 3] ∧
    (NewAdvancedWorkerPool false 4 20).Start.Start.wg = [0, 1, 2, 3, 0, 1, 2, 3] :=
  ⟨rfl, rfl, rfl, by decide, by decide⟩

/-- C8: evaluation of a second `Stop`.  `Pool.Stop` on a pool that is not running (never
started, or after a first `Stop`) returns `nil`; on each example pool the first `Stop`
completes and the second one panics on `close` of a channel that is already closed. -/
theorem C8_second_stop (p : Pool) :
    p.Stop.2 = none ∧
    (NewPool ⟨⟩).IsRunning = false ∧ (NewPool ⟨⟩).Stop.2 = none ∧
    ((NewPool ⟨⟩).Stop.1.Stop).2 = none ∧
    ((NewSimpleWorkerPool 3 10).Start.Stop.isSome = true ∧
      (NewSimpleWorkerPool 3 10).Start.Stop.bind SimpleWorkerPool.Stop = none) ∧
    ((NewAdvancedWorkerPool false 4 20).Start.Stop.isSome = true ∧
      (NewAdvancedWorkerPool false 4 20).Start.Stop.bind AdvancedWorkerPool.Stop = none) ∧
    ((NewContextWorkerPool false 4 20).Start.Stop.isSome = true ∧
      (NewContextWorkerPool false 4 20).Start.Stop.bind ContextWorkerPool.Stop = none) ∧
    ((NewPriorityWorkerPool false 3).Start.Stop.isSome = true ∧
      (NewPriorityWorkerPool false 3).Start.Stop.bind PriorityWorkerPool.Stop = none) ∧
    ((NewDynamicWorkerPool false 2 5).Start.Stop.isSome = true ∧
      (NewDynamicWorkerPool false 2 5).Start.Stop.bind DynamicWorkerPool.Stop = none) :=
  ⟨rfl, rfl, rfl, rfl, ⟨by decide, by decide⟩, ⟨by decide, by decide⟩,
    ⟨by decide, by decide⟩, ⟨by decide, by decide⟩, ⟨by decide, by decide⟩⟩

/-- C9: evaluation of submission on a job that validation would reject.  `Pool.Submit` and
`Pool.SubmitWithContext` return `nil` for every job; `AdvancedWorkerPool.Submit` of a job
with an empty `ID` and `Timeout = -1` to a fresh pool has one outcome: the job is in the job
queue and `nil` is returned. -/
theorem C9_submit_does_not_validate (p : Pool) (ctxDone : Bool) (job : types.Job) :
    (p.Submit job).2 = none ∧ (p.SubmitWithContext ctxDone job).2 = none ∧
    invalidJob.ID = "" ∧ invalidJob.Timeout < 0 ∧
    (∃ awp : AdvancedWorkerPool,
      (NewAdvancedWorkerPool false 4 20).Start.Submit invalidJob = [.accepted awp] ∧
      awp.jobQueue.buf = [invalidJob]) :=
  ⟨rfl, rfl, rfl, by decide, ⟨_, rfl, rfl⟩⟩

/-- C10: evaluation of `AdvancedWorkerPool.Submit` after cancellation.  After `Stop` the
`select` has two ready cases, the send on the closed job queue, which panics, and
`ctx.Done()`; with the context cancelled and the job queue still open and not full (as
while `Stop` waits for the workers) the ready cases are the send, which queues the job and
returns `nil`, and `ctx.Done()`. -/
theorem C10_submit_after_cancel_can_succeed_or_panic :
    (∃ awp : AdvancedWorkerPool,
      (NewAdvancedWorkerPool false 4 20).Start.Stop = some awp ∧
      awp.done = true ∧ awp.jobQueue.buf.length < awp.jobQueue.cap ∧
      awp.Submit scenarioJob = [.panicked, .failed .ctxErr]) ∧
    (∃ awp : AdvancedWorkerPool,
      (NewAdvancedWorkerPool false 4 20).Start.cancel.done = true ∧
      (NewAdvancedWorkerPool false 4 20).Start.cancel.Submit scenarioJob
        = [.accepted awp, .failed .ctxErr] ∧
      awp.jobQueue.buf = [scenarioJob]) :=
  ⟨⟨_, rfl, rfl, by decide, rfl⟩, ⟨_, rfl, rfl, rfl⟩⟩

/-! ### Worker loops and job processing -/

/-- C11: evaluation of one `worker` iteration taken while the pool context is done and a job
is still queued (the pool is started, a job is accepted, then the context is cancelled).
The `select` of `AdvancedWorkerPool.worker` (and of
`ContextWorkerPool.worker`) has two ready cases, the receive and `ctx.Done()`, and the
receive is among its outcomes: the worker can dequeue the waiting job and go on to process
it after cancellation. -/
theorem C11_worker_can_dequeue_after_cancel :
    (∃ p : AdvancedWorkerPool,
      (NewAdvancedWorkerPool false 1 20).Start.workerEnter.Submit scenarioJob
        = [.accepted p] ∧ p.cancel = scenarioCancelledAdvanced) ∧
    (∃ p : ContextWorkerPool,
      (NewContextWorkerPool false 1 20).Start.workerEnter.Submit scenarioTask
        = [.accepted p] ∧ p.cancel = scenarioCancelledContext) ∧
    scenarioCancelledAdvanced.done = true ∧
    (∃ p q : AdvancedWorkerPool,
      scenarioCancelledAdvanced.worker 0 = [.took scenarioJob p, .stopped q] ∧
      p.jobQueue.buf = [] ∧ q.jobQueue.buf = [scenarioJob] ∧ q.wg = [] ∧
      q.metrics.activeWorkers = 0) ∧
    scenarioCancelledContext.done = true ∧
    (∃ p q : ContextWorkerPool,
      scenarioCancelledContext.worker 0 = [.took scenarioTask p, .stopped q] ∧
      p.taskQueue.buf = [] ∧ q.taskQueue.buf = [scenarioTask] ∧ q.wg = [] ∧
      q.metrics.activeWorkers = 0) := by
  refine ⟨⟨_, rfl, by decide⟩, ⟨_, rfl, by decide⟩, rfl,
    ⟨_, _, rfl, by decide, by decide, by decide, by decide⟩, rfl,
    ⟨_, _, rfl, by decide, by decide, by decide, by decide⟩⟩

theorem inv_init (awp : AdvancedWorkerPool) (c : ProcCall) :
    (ProcState.init awp c).Inv awp.metrics c := by
  constructor <;> simp [ProcState.init]

theorem inv_bodyStep (m0 : PoolMetrics) (c : ProcCall) (s : ProcState)
    (h : s.Inv m0 c) : (s.bodyStep c).Inv m0 c := by
  obtain ⟨h1, h2, h3, h4, h5, h6, h7, h8, h9⟩ := h
  unfold ProcState.bodyStep
  split
  · rename_i i hb
    have hnc : s.doneClosed = false := by
      cases hd : s.doneClosed
      · rfl
      · rw [h4 hd] at hb; cases hb
    have hset : s.main = .metrics ∨ s.main = .sending → s.result.Error.isSome = true := by
      intro hm
      rcases h6 hm with he | he
      · rw [he] at hb; cases hb
      · exact he
    split
    · split
      · constructor <;> simp_all [ProcState.Settled]
      · constructor <;> simp_all [ProcState.Settled]
    · split
      · constructor <;> simp_all [ProcState.Settled]
      · constructor <;> simp_all [ProcState.Settled]
  · constructor <;> simp_all [ProcState.Settled]
  · exact ⟨h1, h2, h3, h4, h5, h6, h7, h8, h9⟩

theorem inv_ret (m0 : PoolMetrics) (c : ProcCall) (s : ProcState) (r : Result)
    (h : s.Inv m0 c) (hm : s.main = .delivering r) : s.ret.Inv m0 c := by
  obtain ⟨h1, h2, h3, h4, _, _, _, h8, _⟩ := h
  have h8r := h8 r hm
  constructor <;> simp_all [ProcState.ret]

theorem inv_deliver (m0 : PoolMetrics) (c : ProcCall) (s : ProcState) (r : Result)
    (h : s.Inv m0 c) (hm : s.main = .delivering r) : (s.deliver r).Inv m0 c := by
  obtain ⟨h1, h2, h3, h4, _, _, _, h8, _⟩ := h
  have h8r := h8 r hm
  unfold ProcState.deliver
  split
  · constructor <;> simp_all
  · constructor <;> simp_all [ProcState.ret]

theorem bumped_updateMetrics (c : ProcCall) (s : ProcState) (m0 : PoolMetrics)
    (hs : s.awp.metrics.jobsSucceeded = m0.jobsSucceeded)
    (hf : s.awp.metrics.jobsFailed = m0.jobsFailed) :
    m0.Bumped (s.updateMetrics c) s.result.Error.isSome ∧
    (s.updateMetrics c).jobsProcessed = s.awp.metrics.jobsProcessed := by
  unfold ProcState.updateMetrics PoolMetrics.Bumped
  split <;> simp_all

theorem inv_mainStep (m0 : PoolMetrics) (c : ProcCall) (pickCtx : Bool) (s : ProcState)
    (h : s.Inv m0 c) : (s.mainStep c pickCtx).Inv m0 c := by
  unfold ProcState.mainStep
  split
  · rename_i hm
    obtain ⟨h1, h2, h3, h4, h5, h6, h7, h8, h9⟩ := h
    split
    · exact ⟨h1, h2, h3, h4, h5, h6, h7, h8, h9⟩
    · constructor <;> simp_all [ProcState.Settled]
    · constructor <;> simp_all [ProcState.Settled]
    · split
      · constructor <;> simp_all [ProcState.Settled]
      · constructor <;> simp_all [ProcState.Settled]
  · rename_i hm
    obtain ⟨h1, h2, h3, h4, h5, h6, h7, h8, h9⟩ := h
    obtain ⟨hmade, hs, hf⟩ := h5 (Or.inr hm)
    obtain ⟨hb, hp⟩ := bumped_updateMetrics c s m0 hs hf
    have hset : s.body = .exited ∨ s.result.Error.isSome = true := h6 (Or.inl hm)
    constructor <;> simp_all [ProcState.Settled]
  · rename_i hm
    obtain ⟨h1, h2, h3, h4, h5, h6, h7, h8, h9⟩ := h
    obtain ⟨hmade, hb⟩ := h7 hm
    constructor <;> simp_all [ProcCall.Good]
  · rename_i r hm
    split
    · exact h
    · exact inv_deliver m0 c s r h hm
    · exact inv_ret m0 c s r h hm
    · split
      · exact inv_ret m0 c s r h hm
      · exact inv_deliver m0 c s r h hm
  · exact h
  · exact h

theorem inv_step (m0 : PoolMetrics) (c : ProcCall) (s : ProcState) (a : ProcAction)
    (h : s.Inv m0 c) : (s.step c a).Inv m0 c := by
  cases a with
  | body => exact inv_bodyStep m0 c s h
  | main pickCtx => exact inv_mainStep m0 c pickCtx s h
  | deadline =>
    obtain ⟨h1, h2, h3, h4, h5, h6, h7, h8, h9⟩ := h
    simp only [ProcState.step]
    split
    · exact ⟨h1, h2, h3, h4, h5, h6, h7, h8, h9⟩
    · exact ⟨h1, h2, h3, h4, h5, h6, h7, h8, h9⟩
  | cancel =>
    obtain ⟨h1, h2, h3, h4, h5, h6, h7, h8, h9⟩ := h
    exact ⟨h1, h2, h3, h4, h5, h6, h7, h8, h9⟩

theorem inv_foldl (m0 : PoolMetrics) (c : ProcCall) (sched : List ProcAction) (s : ProcState)
    (h : s.Inv m0 c) : (sched.foldl (ProcState.step c) s).Inv m0 c := by
  induction sched generalizing s with
  | nil => exact h
  | cons a sched ih => exact ih (s.step c a) (inv_step m0 c s a h)

theorem inv_run (awp : AdvancedWorkerPool) (c : ProcCall) (sched : List ProcAction) :
    (ProcState.run awp c sched).Inv awp.metrics c :=
  inv_foldl awp.metrics c sched _ (inv_init awp c)

/-- With room in an open result queue, the schedule `fairSchedule` brings a call to its
return, whatever the job, the outcome of the body and the state of the pool context. -/
theorem run_fair_finished (awp : AdvancedWorkerPool) (c : ProcCall)
    (hopen : awp.resultQueue.closed = false)
    (hroom : awp.resultQueue.buf.length < awp.resultQueue.cap) :
    (ProcState.run awp c fairSchedule).main = .finished := by
  cases hd : awp.done <;> cases hf : c.bodyFails <;>
    simp [ProcState.run, fairSchedule, List.replicate, ProcState.step, ProcState.bodyStep,
      ProcState.mainStep, ProcState.init, AdvancedWorkerPool.jobCtx, ProcState.deliver,
      ProcState.ret, ProcState.updateMetrics, hd, hf, hopen, hroom]

/-- The job body does not touch the pool or the job context. -/
theorem bodyStep_ctx (c : ProcCall) (s : ProcState) :
    (s.bodyStep c).jobCtx = s.jobCtx ∧ (s.bodyStep c).awp = s.awp := by
  unfold ProcState.bodyStep
  split
  · split
    · split <;> exact ⟨rfl, rfl⟩
    · split <;> exact ⟨rfl, rfl⟩
  · exact ⟨rfl, rfl⟩
  · exact ⟨rfl, rfl⟩

/-- The caller leaves the pool context as it is, and leaves the job context as it is or runs
its deferred `cancel()`. -/
theorem mainStep_ctx (c : ProcCall) (pickCtx : Bool) (s : ProcState) :
    (s.mainStep c pickCtx).awp.done = s.awp.done ∧
    ((s.mainStep c pickCtx).jobCtx = s.jobCtx ∨
      (s.mainStep c pickCtx).jobCtx = s.jobCtx.cancel) := by
  have hdel : ∀ r, (s.deliver r).awp.done = s.awp.done ∧
      ((s.deliver r).jobCtx = s.jobCtx ∨ (s.deliver r).jobCtx = s.jobCtx.cancel) := by
    intro r
    unfold ProcState.deliver
    split
    · exact ⟨rfl, Or.inl rfl⟩
    · exact ⟨rfl, Or.inr rfl⟩
  have hret : s.ret.awp.done = s.awp.done ∧
      (s.ret.jobCtx = s.jobCtx ∨ s.ret.jobCtx = s.jobCtx.cancel) := ⟨rfl, Or.inr rfl⟩
  unfold ProcState.mainStep
  split
  · split
    · exact ⟨rfl, Or.inl rfl⟩
    · exact ⟨rfl, Or.inl rfl⟩
    · exact ⟨rfl, Or.inl rfl⟩
    · split <;> exact ⟨rfl, Or.inl rfl⟩
  · exact ⟨rfl, Or.inl rfl⟩
  · exact ⟨rfl, Or.inl rfl⟩
  · split
    · exact ⟨rfl, Or.inl rfl⟩
    · exact hdel _
    · exact hret
    · split
      · exact hret
      · exact hdel _
  · exact ⟨rfl, Or.inl rfl⟩
  · exact ⟨rfl, Or.inl rfl⟩

/-- The deferred `cancel()` keeps the timer and a context that is done, and does nothing to
a context without a timer. -/
theorem cancel_ctx (j : JobContext) :
    j.cancel.timeout = j.timeout ∧ (j.err.isSome = true → j.cancel.err = j.err) ∧
    (j.timeout = none → j.cancel = j) := by
  unfold JobContext.cancel
  split
  · rename_i h1 h2
    refine ⟨rfl, ?_, ?_⟩
    · intro h; simp [h2] at h
    · intro h; simp [h1] at h
  · exact ⟨rfl, fun _ => rfl, fun _ => rfl⟩

/-- One action keeps the timer of the job context, keeps the job context done once the pool
context is done, and keeps a job context without a timer done exactly when the pool context
is done. -/
theorem step_ctx (c : ProcCall) (s : ProcState) (a : ProcAction) :
    (s.step c a).jobCtx.timeout = s.jobCtx.timeout ∧
    ((s.awp.done = true → s.jobCtx.err.isSome = true) →
      (s.step c a).awp.done = true → (s.step c a).jobCtx.err.isSome = true) ∧
    (s.jobCtx.timeout = none → s.jobCtx.err.isSome = s.awp.done →
      (s.step c a).jobCtx.err.isSome = (s.step c a).awp.done) := by
  cases a with
  | body =>
    obtain ⟨h1, h2⟩ := bodyStep_ctx c s
    simp only [ProcState.step, h1, h2]
    exact ⟨trivial, fun h => h, fun _ h => h⟩
  | main pickCtx =>
    obtain ⟨h1, h2⟩ := mainStep_ctx c pickCtx s
    obtain ⟨k1, k2, k3⟩ := cancel_ctx s.jobCtx
    simp only [ProcState.step, h1]
    rcases h2 with h2 | h2
    · rw [h2]
      exact ⟨rfl, fun h => h, fun _ h => h⟩
    · rw [h2]
      refine ⟨k1, ?_, ?_⟩
      · intro h hd
        rw [k2 (h hd)]
        exact h hd
      · intro ht h
        rw [k3 ht]
        exact h
  | deadline =>
    simp only [ProcState.step]
    split
    · rename_i h1 h2
      refine ⟨rfl, fun _ _ => rfl, ?_⟩
      intro ht
      simp [h1] at ht
    · exact ⟨rfl, fun h => h, fun _ h => h⟩
  | cancel =>
    simp only [ProcState.step, AdvancedWorkerPool.cancel]
    exact ⟨trivial, fun _ _ => rfl, fun _ _ => rfl⟩

/-- The three facts of `step_ctx` along a whole schedule. -/
theorem foldl_ctx (c : ProcCall) (sched : List ProcAction) (s : ProcState) :
    (sched.foldl (ProcState.step c) s).jobCtx.timeout = s.jobCtx.timeout ∧
    ((s.awp.done = true → s.jobCtx.err.isSome = true) →
      (sched.foldl (ProcState.step c) s).awp.done = true →
      (sched.foldl (ProcState.step c) s).jobCtx.err.isSome = true) ∧
    (s.jobCtx.timeout = none → s.jobCtx.err.isSome = s.awp.done →
      (sched.foldl (ProcState.step c) s).jobCtx.err.isSome
        = (sched.foldl (ProcState.step c) s).awp.done) := by
  induction sched generalizing s with
  | nil => exact ⟨rfl, fun h => h, fun _ h => h⟩
  | cons a sched ih =>
    obtain ⟨h1, h2, h3⟩ := step_ctx c s a
    obtain ⟨i1, i2, i3⟩ := ih (s.step c a)
    simp only [List.foldl_cons]
    refine ⟨i1.trans h1, fun h => i2 (h2 h), fun ht h => i3 (h1.trans ht) (h3 ht h)⟩

/-- The job context at the start of a call: its timer is the one of `jobCtx`, and it is done
exactly when the pool context is. -/
theorem init_ctx (awp : AdvancedWorkerPool) (c : ProcCall) :
    (ProcState.init awp c).jobCtx = awp.jobCtx c.job ∧
    (ProcState.init awp c).jobCtx.err.isSome = (ProcState.init awp c).awp.done := by
  refine ⟨rfl, ?_⟩
  simp only [ProcState.init, AdvancedWorkerPool.jobCtx]
  cases awp.done <;> rfl

/-- Along every schedule the job context keeps its timer; it is done once the pool context
is done; and without a timer it is done exactly when the pool context is done. -/
theorem run_ctx (awp : AdvancedWorkerPool) (c : ProcCall) (sched : List ProcAction) :
    (ProcState.run awp c sched).jobCtx.timeout = (awp.jobCtx c.job).timeout ∧
    ((ProcState.run awp c sched).awp.done = true →
      (ProcState.run awp c sched).jobCtx.err.isSome = true) ∧
    ((awp.jobCtx c.job).timeout = none →
      (ProcState.run awp c sched).jobCtx.err.isSome = (ProcState.run awp c sched).awp.done) := by
  obtain ⟨h0, h1⟩ := init_ctx awp c
  obtain ⟨i1, i2, i3⟩ := foldl_ctx c sched (ProcState.init awp c)
  unfold ProcState.run
  refine ⟨?_, ?_, ?_⟩
  · rw [i1, h0]
  · exact i2 (fun hd => by rw [h1]; exact hd)
  · intro ht
    exact i3 (by rw [h0]; exact ht) h1

/-- On a job context without a timer the deadline action does nothing, so a schedule and the
same schedule without its deadline actions end in the same state. -/
theorem foldl_filter_deadline (c : ProcCall) (sched : List ProcAction) (s : ProcState)
    (ht : s.jobCtx.timeout = none) :
    sched.foldl (ProcState.step c) s
      = (sched.filter (fun a => decide (a ≠ .deadline))).foldl (ProcState.step c) s := by
  induction sched generalizing s with
  | nil => rfl
  | cons a sched ih =>
    by_cases ha : a = .deadline
    · subst ha
      have hs : s.step c .deadline = s := by simp [ProcState.step, ht]
      simp only [List.foldl_cons, hs]
      rw [List.filter_cons_of_neg (by simp)]
      exact ih s ht
    · rw [List.filter_cons_of_pos (by simpa using ha)]
      simp only [List.foldl_cons]
      exact ih _ ((step_ctx c s a).1.trans ht)

/-- While the pool context is not cancelled a job context without a timer is never done. -/
theorem run_err_none (awp : AdvancedWorkerPool) (c : ProcCall) (sched : List ProcAction)
    (ht : (awp.jobCtx c.job).timeout = none) (hd : awp.done = false)
    (hc : ProcAction.cancel ∉ sched) :
    (ProcState.run awp c sched).jobCtx.err = none := by
  have hdone : ∀ (l : List ProcAction) (s : ProcState), s.awp.done = false →
      ProcAction.cancel ∉ l → (l.foldl (ProcState.step c) s).awp.done = false := by
    intro l
    induction l with
    | nil => intro s h _; exact h
    | cons a l ih =>
      intro s h hn
      simp only [List.mem_cons, not_or] at hn
      simp only [List.foldl_cons]
      apply ih _ _ hn.2
      cases a with
      | body => simp only [ProcState.step, (bodyStep_ctx c s).2, h]
      | main p => simp only [ProcState.step, (mainStep_ctx c p s).1, h]
      | deadline =>
        simp only [ProcState.step]
        split <;> exact h
      | cancel => exact absurd rfl hn.1
  have h1 := (run_ctx awp c sched).2.2 ht
  have h2 : (ProcState.run awp c sched).awp.done = false :=
    hdone sched (ProcState.init awp c) hd hc
  rw [h2] at h1
  cases he : (ProcState.run awp c sched).jobCtx.err with
  | none => rfl
  | some e => rw [he] at h1; simp at h1

/-- With room in an open result queue and the pool context not cancelled, a call on a job
with a positive `Timeout` whose timer fires first returns, and the one result it makes is
the deadline error; on a job with a `Timeout` of zero or less the same schedule runs the
body to its end. -/
theorem run_deadline_first (awp : AdvancedWorkerPool) (c : ProcCall)
    (hd : awp.done = false) (hopen : awp.resultQueue.closed = false)
    (hroom : awp.resultQueue.buf.length < awp.resultQueue.cap) :
    (ProcState.run awp c (.deadline :: fairSchedule)).main = .finished ∧
    (0 < c.job.Timeout →
      (ProcState.run awp c (.deadline :: fairSchedule)).made
        = [{ JobID := c.job.ID, Data := none, Error := some "context deadline exceeded"
             Worker := c.workerID }]) ∧
    (c.job.Timeout ≤ 0 → c.bodyFails = false →
      (ProcState.run awp c (.deadline :: fairSchedule)).made
        = [{ JobID := c.job.ID, Data := some c.output, Error := none
             Worker := c.workerID }]) := by
  by_cases ht : c.job.Timeout > 0
  · have ht2 : ¬ c.job.Timeout ≤ 0 := by omega
    cases hf : c.bodyFails <;>
      simp [ProcState.run, fairSchedule, List.replicate, ProcState.step, ProcState.bodyStep,
        ProcState.mainStep, ProcState.init, AdvancedWorkerPool.jobCtx, ProcState.deliver,
        ProcState.ret, ProcState.updateMetrics, hd, hf, hopen, hroom, ht, ht2]
  · have ht2 : c.job.Timeout ≤ 0 := by omega
    cases hf : c.bodyFails <;>
      simp [ProcState.run, fairSchedule, List.replicate, ProcState.step, ProcState.bodyStep,
        ProcState.mainStep, ProcState.init, AdvancedWorkerPool.jobCtx, ProcState.deliver,
        ProcState.ret, ProcState.updateMetrics, hd, hf, hopen, hroom, ht, ht2]

/-- C12 as stated fails: a job with `Timeout = 0` processed by a pool whose context has no
deadline runs under a job context without any timer (`jobCtx` is the pool context itself),
so the deadline action cannot fire for it and the job body runs to its end; the same holds
for a task of the context pool. -/
theorem C12_counterexample_no_default_timeout :
    scenarioJob.Timeout = 0 ∧
    ((NewAdvancedWorkerPool false 1 20).jobCtx scenarioJob).timeout = none ∧
    ((NewAdvancedWorkerPool false 1 20).jobCtx scenarioJob).err = none ∧
    ((NewAdvancedWorkerPool false 1 20).processJobWithContext scenarioJob 0 false 500
        [.deadline, .body, .deadline]).jobCtx.err = none ∧
    ((NewAdvancedWorkerPool false 1 20).processJobWithContext scenarioJob 0 false 500
        (.deadline :: fairSchedule)).made
      = [{ JobID := "job-1", Data := some "Advanced processing: data-1", Error := none,
           Worker := 0 }] ∧
    scenarioTask.Timeout = 0 ∧
    ((NewContextWorkerPool false 1 20).taskCtx scenarioTask).timeout = none := by
  refine ⟨rfl, rfl, rfl, by decide, by decide, rfl, rfl⟩

/-- C12 (amended): a job whose `Timeout` is positive is executed under a job-scoped deadline
equal to its own `Timeout`, layered on the pool context; a job whose `Timeout` is zero or
negative is executed under the pool context itself, with no job-scoped deadline.  For a call
of `processJobWithContext` under any schedule `sched`, and likewise for a call of
`processTaskWithContext`:
* the job context is made with a timer of `job.Timeout` when `job.Timeout > 0` and without a
  timer otherwise, and keeps it;
* layering: whatever the `Timeout`, the job context is done once the pool context is done,
  and a cancellation of the pool context ends it;
* a positive `Timeout` acts: while the job context is not done the firing of its timer ends
  it with the deadline error, and when the timer fires first the call returns one result,
  which carries that error and no data;
* with a `Timeout` of zero or less the job context is done exactly when the pool context is,
  the firing of a timer changes nothing in the run, the job context is never done while the
  pool context is not cancelled, and the schedule on which a timed job ends with the
  deadline error runs the job body to its end. -/
theorem C12_job_deadline_only_when_positive (awp : AdvancedWorkerPool)
    (cwp : ContextWorkerPool) (job : Job) (task : Task) (workerID : Int) (bodyFails : Bool)
    (duration : Int) (sched : List ProcAction) :
    ((awp.processJobWithContext job workerID bodyFails duration []).jobCtx = awp.jobCtx job ∧
      (0 < job.Timeout → (awp.jobCtx job).timeout = some job.Timeout) ∧
      (job.Timeout ≤ 0 → (awp.jobCtx job).timeout = none) ∧
      (awp.processJobWithContext job workerID bodyFails duration sched).jobCtx.timeout
        = (awp.jobCtx job).timeout) ∧
    (((awp.processJobWithContext job workerID bodyFails duration sched).awp.done = true →
        (awp.processJobWithContext job workerID bodyFails duration sched).jobCtx.err.isSome
          = true) ∧
      (awp.processJobWithContext job workerID bodyFails duration
        (sched ++ [.cancel])).jobCtx.err.isSome = true) ∧
    (0 < job.Timeout →
      ((awp.processJobWithContext job workerID bodyFails duration sched).jobCtx.err = none →
        (awp.processJobWithContext job workerID bodyFails duration
          (sched ++ [.deadline])).jobCtx.err = some "context deadline exceeded") ∧
      (awp.done = false → awp.resultQueue.closed = false →
        awp.resultQueue.buf.length < awp.resultQueue.cap →
        (awp.processJobWithContext job workerID bodyFails duration
          (.deadline :: fairSchedule)).main = .finished ∧
        (awp.processJobWithContext job workerID bodyFails duration
          (.deadline :: fairSchedule)).made
          = [{ JobID := job.ID, Data := none, Error := some "context deadline exceeded"
               Worker := workerID }])) ∧
    (job.Timeout ≤ 0 →
      (awp.processJobWithContext job workerID bodyFails duration sched).jobCtx.err.isSome
        = (awp.processJobWithContext job workerID bodyFails duration sched).awp.done ∧
      awp.processJobWithContext job workerID bodyFails duration sched
        = awp.processJobWithContext job workerID bodyFails duration
            (sched.filter (fun a => decide (a ≠ .deadline))) ∧
      (awp.done = false → ProcAction.cancel ∉ sched →
        (awp.processJobWithContext job workerID bodyFails duration sched).jobCtx.err = none) ∧
      (awp.done = false → awp.resultQueue.closed = false →
        awp.resultQueue.buf.length < awp.resultQueue.cap → bodyFails = false →
        (awp.processJobWithContext job workerID bodyFails duration
          (.deadline :: fairSchedule)).main = .finished ∧
        (awp.processJobWithContext job workerID bodyFails duration
          (.deadline :: fairSchedule)).made
          = [{ JobID := job.ID, Data := some ("Advanced processing: " ++ job.Data)
               Error := none, Worker := workerID }])) ∧
    ((cwp.processTaskWithContext task workerID bodyFails duration []).jobCtx
        = cwp.taskCtx task ∧
      (0 < task.Timeout → (cwp.taskCtx task).timeout = some task.Timeout) ∧
      (task.Timeout ≤ 0 → (cwp.taskCtx task).timeout = none) ∧
      (cwp.processTaskWithContext task workerID bodyFails duration sched).jobCtx.timeout
        = (cwp.taskCtx task).timeout) ∧
    (((cwp.processTaskWithContext task workerID bodyFails duration sched).awp.done = true →
        (cwp.processTaskWithContext task workerID bodyFails duration sched).jobCtx.err.isSome
          = true) ∧
      (cwp.processTaskWithContext task workerID bodyFails duration
        (sched ++ [.cancel])).jobCtx.err.isSome = true) ∧
    (0 < task.Timeout →
      ((cwp.processTaskWithContext task workerID bodyFails duration sched).jobCtx.err = none →
        (cwp.processTaskWithContext task workerID bodyFails duration
          (sched ++ [.deadline])).jobCtx.err = some "context deadline exceeded") ∧
      (cwp.done = false → cwp.resultQueue.closed = false →
        cwp.resultQueue.buf.length < cwp.resultQueue.cap →
        (cwp.processTaskWithContext task workerID bodyFails duration
          (.deadline :: fairSchedule)).main = .finished ∧
        (cwp.processTaskWithContext task workerID bodyFails duration
          (.deadline :: fairSchedule)).madeTasks
          = [{ TaskID := task.ID, Data := none, Error := some "context deadline exceeded"
               Worker := workerID }])) ∧
    (task.Timeout ≤ 0 →
      (cwp.processTaskWithContext task workerID bodyFails duration sched).jobCtx.err.isSome
        = (cwp.processTaskWithContext task workerID bodyFails duration sched).awp.done ∧
      cwp.processTaskWithContext task workerID bodyFails duration sched
        = cwp.processTaskWithContext task workerID bodyFails duration
            (sched.filter (fun a => decide (a ≠ .deadline))) ∧
      (cwp.done = false → ProcAction.cancel ∉ sched →
        (cwp.processTaskWithContext task workerID bodyFails duration sched).jobCtx.err = none) ∧
      (cwp.done = false → cwp.resultQueue.closed = false →
        cwp.resultQueue.buf.length < cwp.resultQueue.cap → bodyFails = false →
        (cwp.processTaskWithContext task workerID bodyFails duration
          (.deadline :: fairSchedule)).main = .finished ∧
        (cwp.processTaskWithContext task workerID bodyFails duration
          (.deadline :: fairSchedule)).madeTasks
          = [{ TaskID := task.ID, Data := some ("Context processing: " ++ task.Data)
               Error := none, Worker := workerID }])) := by
  have key : ∀ (p : AdvancedWorkerPool) (c : ProcCall),
      ((ProcState.run p c []).jobCtx = p.jobCtx c.job ∧
        (0 < c.job.Timeout → (p.jobCtx c.job).timeout = some c.job.Timeout) ∧
        (c.job.Timeout ≤ 0 → (p.jobCtx c.job).timeout = none) ∧
        (ProcState.run p c sched).jobCtx.timeout = (p.jobCtx c.job).timeout) ∧
      (((ProcState.run p c sched).awp.done = true →
          (ProcState.run p c sched).jobCtx.err.isSome = true) ∧
        (ProcState.run p c (sched ++ [.cancel])).jobCtx.err.isSome = true) ∧
      (0 < c.job.Timeout →
        ((ProcState.run p c sched).jobCtx.err = none →
          (ProcState.run p c (sched ++ [.deadline])).jobCtx.err
            = some "context deadline exceeded") ∧
        (p.done = false → p.resultQueue.closed = false →
          p.resultQueue.buf.length < p.resultQueue.cap →
          (ProcState.run p c (.deadline :: fairSchedule)).main = .finished ∧
          (ProcState.run p c (.deadline :: fairSchedule)).made
            = [{ JobID := c.job.ID, Data := none, Error := some "context deadline exceeded"
                 Worker := c.workerID }])) ∧
      (c.job.Timeout ≤ 0 →
        (ProcState.run p c sched).jobCtx.err.isSome = (ProcState.run p c sched).awp.done ∧
        ProcState.run p c sched
          = ProcState.run p c (sched.filter (fun a => decide (a ≠ .deadline))) ∧
        (p.done = false → ProcAction.cancel ∉ sched →
          (ProcState.run p c sched).jobCtx.err = none) ∧
        (p.done = false → p.resultQueue.closed = false →
          p.resultQueue.buf.length < p.resultQueue.cap → c.bodyFails = false →
          (ProcState.run p c (.deadline :: fairSchedule)).main = .finished ∧
          (ProcState.run p c (.deadline :: fairSchedule)).made
            = [{ JobID := c.job.ID, Data := some c.output, Error := none
                 Worker := c.workerID }])) := by
    intro p c
    have hpos : 0 < c.job.Timeout → (p.jobCtx c.job).timeout = some c.job.Timeout := by
      intro h
      simp [AdvancedWorkerPool.jobCtx, h]
    have hneg : c.job.Timeout ≤ 0 → (p.jobCtx c.job).timeout = none := by
      intro h
      have : ¬ c.job.Timeout > 0 := by omega
      simp [AdvancedWorkerPool.jobCtx, this]
    obtain ⟨r1, r2, r3⟩ := run_ctx p c sched
    refine ⟨⟨rfl, hpos, hneg, r1⟩, ⟨r2, ?_⟩, ?_, ?_⟩
    · simp [ProcState.run, List.foldl_append, ProcState.step]
    · intro h
      refine ⟨?_, ?_⟩
      · intro he
        have ht : (ProcState.run p c sched).jobCtx.timeout = some c.job.Timeout :=
          r1.trans (hpos h)
        have hs : ProcState.run p c (sched ++ [.deadline])
            = (ProcState.run p c sched).step c .deadline := by
          simp [ProcState.run, List.foldl_append]
        rw [hs]
        simp [ProcState.step, ht, he]
      · intro hd hopen hroom
        obtain ⟨k1, k2, _⟩ := run_deadline_first p c hd hopen hroom
        exact ⟨k1, k2 h⟩
    · intro h
      refine ⟨r3 (hneg h), ?_, ?_, ?_⟩
      · exact foldl_filter_deadline c sched _ ((init_ctx p c).1 ▸ hneg h)
      · intro hd hc
        exact run_err_none p c sched (hneg h) hd hc
      · intro hd hopen hroom hf
        obtain ⟨k1, _, k3⟩ := run_deadline_first p c hd hopen hroom
        exact ⟨k1, k3 h hf⟩
  obtain ⟨a1, a2, a3, a4⟩ := key awp (AdvancedWorkerPool.call job workerID bodyFails duration)
  obtain ⟨b1, b2, b3, b4⟩ :=
    key cwp.toAdvanced (ContextWorkerPool.call task workerID bodyFails duration)
  refine ⟨a1, a2, a3, a4, b1, b2, ?_, ?_⟩
  · intro h
    obtain ⟨c1, c2⟩ := b3 h
    refine ⟨c1, ?_⟩
    intro hd hopen hroom
    obtain ⟨d1, d2⟩ := c2 hd hopen (by simpa [ContextWorkerPool.toAdvanced, Chan.map] using hroom)
    refine ⟨d1, ?_⟩
    unfold ProcState.madeTasks ContextWorkerPool.processTaskWithContext
    rw [d2]
    rfl
  · intro h
    obtain ⟨c1, c2, c3, c4⟩ := b4 h
    refine ⟨c1, c2, c3, ?_⟩
    intro hd hopen hroom hf
    obtain ⟨d1, d2⟩ :=
      c4 hd hopen (by simpa [ContextWorkerPool.toAdvanced, Chan.map] using hroom) hf
    refine ⟨d1, ?_⟩
    unfold ProcState.madeTasks ContextWorkerPool.processTaskWithContext
    rw [d2]
    rfl

/-- Witness of C12: in a pool whose context is not cancelled, a job with a timeout of 500 ms
whose timer fires first ends with the deadline error, and a job with `Timeout = 0` under the
same schedule ends with its data. -/
theorem C12_job_deadline_only_when_positive_witness :
    ((NewAdvancedWorkerPool false 1 20).processJobWithContext scenarioTimedJob 0 false 500
        (.deadline :: fairSchedule)).made
      = [{ JobID := "job-7", Data := none, Error := some "context deadline exceeded"
           Worker := 0 }] ∧
    ((NewAdvancedWorkerPool false 1 20).processJobWithContext scenarioJob 0 false 500
        (.deadline :: fairSchedule)).made
      = [{ JobID := "job-1", Data := some "Advanced processing: data-1", Error := none
           Worker := 0 }] ∧
    ((NewContextWorkerPool false 1 20).processTaskWithContext scenarioTask 0 false 500
        [.body, .cancel]).jobCtx.err.isSome = true :=
  ⟨((C12_job_deadline_only_when_positive (NewAdvancedWorkerPool false 1 20)
      (NewContextWorkerPool false 1 20) scenarioTimedJob scenarioTask 0 false 500
      []).2.2.1 (by decide)).2 rfl rfl (by decide) |>.2,
    ((C12_job_deadline_only_when_positive (NewAdvancedWorkerPool false 1 20)
      (NewContextWorkerPool false 1 20) scenarioJob scenarioTask 0 false 500
      []).2.2.2.1 (by decide)).2.2.2 rfl rfl (by decide) rfl |>.2,
    (C12_job_deadline_only_when_positive (NewAdvancedWorkerPool false 1 20)
      (NewContextWorkerPool false 1 20) scenarioJob scenarioTask 0 false 500
      [.body]).2.2.2.2.2.1.2⟩

/-- C13: evaluation of `processJobWithContext` (and of `processTaskWithContext`) on a job
whose deadline fires after the body's last `Done()` check.  Under the schedule
`scenarioRace` the caller takes the `jobCtx.Done()` case and sets `result.Error`, the body
sets `result.Data`, and the one result that is made and delivered carries both a payload
and an error.  (`SimpleWorkerPool.processJob` never sets both.) -/
theorem C13_result_can_carry_data_and_error :
    (∃ r : Result,
      ((NewAdvancedWorkerPool false 1 20).processJobWithContext scenarioTimedJob 3 false 500
        scenarioRace).made = [r] ∧
      r.Data = some "Advanced processing: data-7" ∧
      r.Error = some "context deadline exceeded" ∧
      ((NewAdvancedWorkerPool false 1 20).processJobWithContext scenarioTimedJob 3 false 500
        scenarioRace).awp.resultQueue.buf = [r]) ∧
    (∃ r : TaskResult,
      ((NewContextWorkerPool false 1 20).processTaskWithContext
        ⟨"task-7", "data-7", 500000000⟩ 3 false 500 scenarioRace).madeTasks = [r] ∧
      r.Data = some "Context processing: data-7" ∧
      r.Error = some "context deadline exceeded") ∧
    (∀ (job : WorkerJob) (fails : Bool),
      ((SimpleWorkerPool.processJob job fails).Data.isSome &&
        (SimpleWorkerPool.processJob job fails).Error.isSome) = false) := by
  refine ⟨⟨{ JobID := "job-7", Data := some "Advanced processing: data-7",
             Error := some "context deadline exceeded", Worker := 3 },
            by decide, rfl, rfl, by decide⟩,
          ⟨{ TaskID := "task-7", Data := some "Context processing: data-7",
             Error := some "context deadline exceeded", Worker := 3 },
            by decide, rfl, rfl⟩, ?_⟩
  intro job fails
  cases fails <;> rfl

theorem inv_made (m0 : PoolMetrics) (c : ProcCall) (s : ProcState) (h : s.Inv m0 c) :
    (s.made = [] ∧ s.main ≠ .finished) ∨
    ∃ r, s.made = [r] ∧ r.JobID = c.job.ID ∧ r.Worker = c.workerID ∧
      (s.main = .finished → m0.Bumped s.awp.metrics r.Error.isSome) := by
  obtain ⟨_, _, _, _, h5, _, h7, h8, h9⟩ := h
  cases hm : s.main with
  | waiting => exact Or.inl ⟨(h5 (Or.inl hm)).1, by simp⟩
  | metrics => exact Or.inl ⟨(h5 (Or.inr hm)).1, by simp⟩
  | sending => exact Or.inl ⟨(h7 hm).1, by simp⟩
  | delivering r =>
    obtain ⟨hr, hg1, hg2, _⟩ := h8 r hm
    exact Or.inr ⟨r, hr, hg1, hg2, by simp⟩
  | finished =>
    obtain ⟨r, hr, hg1, hg2, hg3⟩ := h9 (Or.inl hm)
    exact Or.inr ⟨r, hr, hg1, hg2, fun _ => hg3⟩
  | panicked =>
    obtain ⟨r, hr, hg1, hg2, _⟩ := h9 (Or.inr hm)
    exact Or.inr ⟨r, hr, hg1, hg2, by simp⟩

theorem simple_handle_cases (wp : SimpleWorkerPool) (id : Int) (fails : Bool)
    (job : WorkerJob) :
    ∃ r : WorkerResult, r.JobID = job.ID ∧ r.Worker = id ∧
      (wp.handle id fails job = .processed job r
          { wp with resultQueue := wp.resultQueue.push r } ∨
        wp.handle id fails job = .sendBlocked job r wp ∨
        wp.handle id fails job = .sendPanicked job r) := by
  refine ⟨{ SimpleWorkerPool.processJob job fails with Worker := id }, ?_, rfl, ?_⟩
  · cases fails <;> rfl
  · unfold SimpleWorkerPool.handle
    simp only
    split_ifs
    · exact Or.inr (Or.inr rfl)
    · exact Or.inl rfl
    · exact Or.inr (Or.inl rfl)

/-- C14: a worker makes exactly one result per dequeued job, carrying the job's ID and the
worker's id, whether the job succeeds or fails.
* `SimpleWorkerPool.worker`: with `job` at the head of the job queue, the receive case is the
  first case of the `select` and makes one result `r` with `r.JobID = job.ID` and
  `r.Worker = id` (and then sends it, or blocks or panics in the send).
* `PriorityWorkerPool.processJob`: the result has the job's ID and the worker's id, and a
  delivery appends exactly that result to the result queue.
* `ContextWorkerPool.processTaskWithContext`: under every schedule at most one result is
  made, every result made has the task's ID and the worker's id, and a call that has
  returned has made exactly one; with room in an open result queue the call does return
  under the schedule `fairSchedule`. -/
theorem C14_one_result_with_job_and_worker_id :
    (∀ (wp : SimpleWorkerPool) (id : Int) (fails : Bool) (job : WorkerJob)
        (rest : List WorkerJob), wp.jobQueue.buf = job :: rest →
      ∃ (r : WorkerResult) (o : SimpleWorkerOutcome),
        (wp.worker id fails).head? = some o ∧ r.JobID = job.ID ∧ r.Worker = id ∧
        ((∃ p, o = .processed job r p ∧ p.resultQueue.buf = wp.resultQueue.buf ++ [r]) ∨
          (∃ p, o = .sendBlocked job r p) ∨ o = .sendPanicked job r)) ∧
    (∀ (pwp : PriorityWorkerPool) (job : PriorityJob) (id : Int) (priority : String),
      (pwp.processJob job id priority).1.JobID = job.ID ∧
      (pwp.processJob job id priority).1.Worker = id ∧
      ∀ p, DeliverOutcome.delivered p ∈ (pwp.processJob job id priority).2 →
        p.resultQueue.buf = pwp.resultQueue.buf ++ [(pwp.processJob job id priority).1]) ∧
    (∀ (cwp : ContextWorkerPool) (task : Task) (id : Int) (fails : Bool) (duration : Int)
        (sched : List ProcAction),
      (cwp.processTaskWithContext task id fails duration sched).madeTasks.length ≤ 1 ∧
      (∀ r ∈ (cwp.processTaskWithContext task id fails duration sched).madeTasks,
        r.TaskID = task.ID ∧ r.Worker = id) ∧
      ((cwp.processTaskWithContext task id fails duration sched).main = .finished →
        ∃ r, (cwp.processTaskWithContext task id fails duration sched).madeTasks = [r] ∧
          r.TaskID = task.ID ∧ r.Worker = id)) ∧
    (∀ (cwp : ContextWorkerPool) (task : Task) (id : Int) (fails : Bool) (duration : Int),
      cwp.resultQueue.closed = false →
      cwp.resultQueue.buf.length < cwp.resultQueue.cap →
      (cwp.processTaskWithContext task id fails duration fairSchedule).main = .finished) := by
  refine ⟨?_, ?_, ?_, ?_⟩
  · intro wp id fails job rest hbuf
    obtain ⟨r, hj, hw, hcases⟩ := simple_handle_cases
      { wp with jobQueue := { wp.jobQueue with buf := rest } } id fails job
    refine ⟨r, SimpleWorkerPool.handle
      { wp with jobQueue := { wp.jobQueue with buf := rest } } id fails job, ?_, hj, hw, ?_⟩
    · simp [SimpleWorkerPool.worker, hbuf, goSelect]
    · rcases hcases with h | h | h
      · exact Or.inl ⟨_, h, rfl⟩
      · exact Or.inr (Or.inl ⟨_, h⟩)
      · exact Or.inr (Or.inr h)
  · intro pwp job id priority
    refine ⟨rfl, rfl, ?_⟩
    intro p hp
    simp only [PriorityWorkerPool.processJob, goSelect] at hp
    split at hp
    · simp at hp
    · rename_i r rs heq
      rw [← heq] at hp
      simp only [List.mem_append] at hp
      rcases hp with hp | hp
      · split_ifs at hp <;> simp at hp
        subst hp
        rfl
      · split_ifs at hp <;> simp at hp
  · intro cwp task id fails duration sched
    have hinv := inv_run cwp.toAdvanced (ContextWorkerPool.call task id fails duration) sched
    have hm := inv_made _ _ _ hinv
    simp only [ContextWorkerPool.processTaskWithContext, ProcState.madeTasks]
    rcases hm with ⟨he, hnf⟩ | ⟨r, hr, hj, hw, _⟩
    · simp [he, hnf]
    · simp only [hr, List.map, List.length_singleton, le_refl, List.mem_singleton,
        forall_eq, true_and]
      exact ⟨⟨hj, hw⟩, fun _ => ⟨_, rfl, hj, hw⟩⟩
  · intro cwp task id fails duration hopen hroom
    exact run_fair_finished cwp.toAdvanced _ hopen
      (by simpa [ContextWorkerPool.toAdvanced, Chan.map] using hroom)

/-- Witness of C14: a task processed by worker 2 of a fresh context pool under the schedule
`fairSchedule`; the call returns and has made one result, for this task and this worker. -/
theorem C14_one_result_with_job_and_worker_id_witness :
    ∃ r : TaskResult,
      ((NewContextWorkerPool false 4 20).processTaskWithContext scenarioTask 2 false 500
        fairSchedule).madeTasks = [r] ∧ r.TaskID = "task-1" ∧ r.Worker = 2 :=
  (C14_one_result_with_job_and_worker_id.2.2.1 (NewContextWorkerPool false 4 20)
    scenarioTask 2 false 500 fairSchedule).2.2
    (C14_one_result_with_job_and_worker_id.2.2.2 (NewContextWorkerPool false 4 20)
      scenarioTask 2 false 500 rfl (by decide))

theorem wrapInt64_add_left (x y : Int) : wrapInt64 (wrapInt64 x + y) = wrapInt64 (x + y) := by
  unfold wrapInt64; omega

/-- The counters after a call that has returned. -/
theorem run_finished_counters (awp : AdvancedWorkerPool) (c : ProcCall)
    (sched : List ProcAction) (hfin : (ProcState.run awp c sched).main = .finished) :
    (ProcState.run awp c sched).awp.metrics.jobsProcessed
      = wrapInt64 (awp.metrics.jobsProcessed + 1) ∧
    ∃ r, (ProcState.run awp c sched).made = [r] ∧
      (r.Error ≠ none →
        (ProcState.run awp c sched).awp.metrics.jobsFailed
          = wrapInt64 (awp.metrics.jobsFailed + 1) ∧
        (ProcState.run awp c sched).awp.metrics.jobsSucceeded = awp.metrics.jobsSucceeded) ∧
      (r.Error = none →
        (ProcState.run awp c sched).awp.metrics.jobsSucceeded
          = wrapInt64 (awp.metrics.jobsSucceeded + 1) ∧
        (ProcState.run awp c sched).awp.metrics.jobsFailed = awp.metrics.jobsFailed) := by
  have hinv := inv_run awp c sched
  refine ⟨hinv.processed, ?_⟩
  rcases inv_made _ _ _ hinv with ⟨_, hnf⟩ | ⟨r, hr, _, _, hb⟩
  · exact absurd hfin hnf
  · obtain ⟨hb1, hb2⟩ := hb hfin
    refine ⟨r, hr, ?_, ?_⟩
    · intro he
      apply hb1
      cases hre : r.Error with
      | none => exact absurd hre he
      | some e => rfl
    · intro he
      apply hb2
      simp [he]

theorem counts_run (awp : AdvancedWorkerPool) (c : ProcCall) (sched : List ProcAction)
    (n : Nat) (h : awp.metrics.Counts n)
    (hfin : (ProcState.run awp c sched).main = .finished) :
    (ProcState.run awp c sched).awp.metrics.Counts (n + 1) := by
  obtain ⟨a, b, hab, hp, hs, hf⟩ := h
  obtain ⟨hp1, r, _, hfail, hsucc⟩ := run_finished_counters awp c sched hfin
  cases hre : r.Error with
  | none =>
    obtain ⟨h1, h2⟩ := hsucc hre
    refine ⟨a + 1, b, by omega, ?_, ?_, ?_⟩
    · rw [hp1, hp, wrapInt64_add_left, Nat.cast_add, Nat.cast_one]
    · rw [h1, hs, wrapInt64_add_left, Nat.cast_add, Nat.cast_one]
    · rw [h2, hf]
  | some e =>
    obtain ⟨h1, h2⟩ := hfail (by simp [hre])
    refine ⟨a, b + 1, by omega, ?_, ?_, ?_⟩
    · rw [hp1, hp, wrapInt64_add_left, Nat.cast_add, Nat.cast_one]
    · rw [h2, hs]
    · rw [h1, hf, wrapInt64_add_left, Nat.cast_add, Nat.cast_one]

theorem counts_runCalls (calls : List (ProcCall × List ProcAction))
    (awp awp1 : AdvancedWorkerPool) (n : Nat) (h : awp.metrics.Counts n)
    (hrun : awp.runCalls calls = some awp1) : awp1.metrics.Counts (n + calls.length) := by
  induction calls generalizing awp n with
  | nil =>
    simp only [AdvancedWorkerPool.runCalls, Option.some.injEq] at hrun
    subst hrun
    simpa using h
  | cons cs rest ih =>
    obtain ⟨c, sched⟩ := cs
    simp only [AdvancedWorkerPool.runCalls] at hrun
    split_ifs at hrun with hfin
    have := ih _ (n + 1) (counts_run awp c sched n h hfin) hrun
    simpa [Nat.add_assoc, Nat.add_comm 1] using this

theorem wrapInt64_add_right (x y : Int) : wrapInt64 (x + wrapInt64 y) = wrapInt64 (x + y) := by
  rw [Int.add_comm, wrapInt64_add_left, Int.add_comm]

theorem counts_sum (m : PoolMetrics) (n : Nat) (h : m.Counts n) :
    wrapInt64 (m.jobsSucceeded + m.jobsFailed) = m.jobsProcessed ∧
    ((n : Int) < 9223372036854775808 →
      m.jobsProcessed = n ∧ m.jobsSucceeded + m.jobsFailed = m.jobsProcessed) := by
  obtain ⟨a, b, hab, hp, hs, hf⟩ := h
  rw [hp, hs, hf]
  subst hab
  constructor
  · rw [wrapInt64_add_left, wrapInt64_add_right, Nat.cast_add]
  · intro hn
    push_cast at hn
    rw [wrapInt64_eq _ (by omega) (by omega), wrapInt64_eq _ (by omega) (by omega),
      wrapInt64_eq _ (by omega) (by omega)]
    push_cast
    exact ⟨rfl, rfl⟩

theorem counts_new (m : PoolMetrics) (hp : m.jobsProcessed = 0) (hs : m.jobsSucceeded = 0)
    (hf : m.jobsFailed = 0) : m.Counts 0 :=
  ⟨0, 0, rfl, by rw [hp]; rfl, by rw [hs]; rfl, by rw [hf]; rfl⟩

/-- C15: the counters keep `succeeded + failed = processed`.
* Every call of `processJobWithContext` that has returned, under any schedule, has raised
  `jobsProcessed` by one (an `int64` addition) and has made one result `r`; when `r.Error`
  is non-nil it has raised `jobsFailed` by one and left `jobsSucceeded`, when `r.Error` is
  nil it has raised `jobsSucceeded` by one and left `jobsFailed`.
* The same holds for `processTaskWithContext` and the `tasks*` counters.
* After any sequence of completed calls on a new pool, `jobsSucceeded + jobsFailed`
  evaluated in `int64` equals `jobsProcessed`, and for fewer than `2^63` calls
  `jobsProcessed` is the number of calls and the equality holds over the integers. -/
theorem C15_succeeded_plus_failed_eq_processed :
    (∀ (awp : AdvancedWorkerPool) (job : Job) (id : Int) (fails : Bool) (duration : Int)
        (sched : List ProcAction),
      (awp.processJobWithContext job id fails duration sched).main = .finished →
      (awp.processJobWithContext job id fails duration sched).awp.metrics.jobsProcessed
        = wrapInt64 (awp.metrics.jobsProcessed + 1) ∧
      ∃ r, (awp.processJobWithContext job id fails duration sched).made = [r] ∧
        (r.Error ≠ none →
          (awp.processJobWithContext job id fails duration sched).awp.metrics.jobsFailed
            = wrapInt64 (awp.metrics.jobsFailed + 1) ∧
          (awp.processJobWithContext job id fails duration sched).awp.metrics.jobsSucceeded
            = awp.metrics.jobsSucceeded) ∧
        (r.Error = none →
          (awp.processJobWithContext job id fails duration sched).awp.metrics.jobsSucceeded
            = wrapInt64 (awp.metrics.jobsSucceeded + 1) ∧
          (awp.processJobWithContext job id fails duration sched).awp.metrics.jobsFailed
            = awp.metrics.jobsFailed)) ∧
    (∀ (cwp : ContextWorkerPool) (task : Task) (id : Int) (fails : Bool) (duration : Int)
        (sched : List ProcAction),
      (cwp.processTaskWithContext task id fails duration sched).main = .finished →
      (cwp.processTaskWithContext task id fails duration sched).taskMetrics.tasksProcessed
        = wrapInt64 (cwp.metrics.tasksProcessed + 1) ∧
      ∃ r, (cwp.processTaskWithContext task id fails duration sched).madeTasks = [r] ∧
        (r.Error ≠ none →
          (cwp.processTaskWithContext task id fails duration sched).taskMetrics.tasksFailed
            = wrapInt64 (cwp.metrics.tasksFailed + 1) ∧
          (cwp.processTaskWithContext task id fails duration sched).taskMetrics.tasksSucceeded
            = cwp.metrics.tasksSucceeded) ∧
        (r.Error = none →
          (cwp.processTaskWithContext task id fails duration sched).taskMetrics.tasksSucceeded
            = wrapInt64 (cwp.metrics.tasksSucceeded + 1) ∧
          (cwp.processTaskWithContext task id fails duration sched).taskMetrics.tasksFailed
            = cwp.metrics.tasksFailed)) ∧
    (∀ (parentDone : Bool) (workers : Int) (queueSize : Nat)
        (calls : List (ProcCall × List ProcAction)) (awp : AdvancedWorkerPool),
      (NewAdvancedWorkerPool parentDone workers queueSize).runCalls calls = some awp →
      wrapInt64 (awp.metrics.jobsSucceeded + awp.metrics.jobsFailed)
        = awp.metrics.jobsProcessed ∧
      ((calls.length : Int) < 9223372036854775808 →
        awp.metrics.jobsProcessed = calls.length ∧
        awp.metrics.jobsSucceeded + awp.metrics.jobsFailed = awp.metrics.jobsProcessed)) ∧
    (∀ (parentDone : Bool) (workers : Int) (queueSize : Nat)
        (calls : List (ProcCall × List ProcAction)) (awp : AdvancedWorkerPool),
      (NewContextWorkerPool parentDone workers queueSize).toAdvanced.runCalls calls
        = some awp →
      wrapInt64 ((TaskPoolMetrics.ofPoolMetrics awp.metrics).tasksSucceeded
          + (TaskPoolMetrics.ofPoolMetrics awp.metrics).tasksFailed)
        = (TaskPoolMetrics.ofPoolMetrics awp.metrics).tasksProcessed ∧
      ((calls.length : Int) < 9223372036854775808 →
        (TaskPoolMetrics.ofPoolMetrics awp.metrics).tasksProcessed = calls.length ∧
        (TaskPoolMetrics.ofPoolMetrics awp.metrics).tasksSucceeded
            + (TaskPoolMetrics.ofPoolMetrics awp.metrics).tasksFailed
          = (TaskPoolMetrics.ofPoolMetrics awp.metrics).tasksProcessed)) := by
  refine ⟨?_, ?_, ?_, ?_⟩
  · intro awp job id fails duration sched hfin
    exact run_finished_counters awp _ sched hfin
  · intro cwp task id fails duration sched hfin
    obtain ⟨hp, r, hr, h1, h2⟩ := run_finished_counters cwp.toAdvanced _ sched hfin
    refine ⟨hp, TaskResult.ofResult r, ?_, h1, h2⟩
    simp only [ContextWorkerPool.processTaskWithContext, ProcState.madeTasks] at hr ⊢
    rw [hr]
    rfl
  · intro parentDone workers queueSize calls awp hrun
    have h := counts_runCalls calls _ awp 0 (counts_new _ rfl rfl rfl) hrun
    rw [Nat.zero_add] at h
    exact counts_sum _ _ h
  · intro parentDone workers queueSize calls awp hrun
    have h := counts_runCalls calls _ awp 0 (counts_new _ rfl rfl rfl) hrun
    rw [Nat.zero_add] at h
    exact counts_sum _ _ h

/-- Witness of C15: two calls on a fresh pool, one job that succeeds and one that fails;
the counters read processed 2, succeeded 1, failed 1. -/
theorem C15_succeeded_plus_failed_eq_processed_witness :
    ∃ awp : AdvancedWorkerPool,
      (NewAdvancedWorkerPool false 2 20).runCalls scenarioCalls = some awp ∧
      awp.metrics.jobsProcessed = 2 ∧ awp.metrics.jobsSucceeded = 1 ∧
      awp.metrics.jobsFailed = 1 ∧
      awp.metrics.jobsSucceeded + awp.metrics.jobsFailed = awp.metrics.jobsProcessed := by
  have hrun : ((NewAdvancedWorkerPool false 2 20).runCalls scenarioCalls).isSome = true := by
    decide
  obtain ⟨awp, hawp⟩ := Option.isSome_iff_exists.mp hrun
  have h := (C15_succeeded_plus_failed_eq_processed.2.2.1 false 2 20 scenarioCalls awp
    hawp).2 (by decide)
  have hs : (((NewAdvancedWorkerPool false 2 20).runCalls scenarioCalls).map
      (fun p => p.metrics.jobsSucceeded)) = some 1 := by decide
  have hf : (((NewAdvancedWorkerPool false 2 20).runCalls scenarioCalls).map
      (fun p => p.metrics.jobsFailed)) = some 1 := by decide
  rw [hawp] at hs hf
  simp only [Option.map_some', Option.some.injEq] at hs hf
  refine ⟨awp, hawp, ?_, hs, hf, h.2⟩
  rw [h.1]; rfl

/-! ### Metrics -/

/-- The truncated quotient of an `int64` by a non-zero integer fits `int64`, except for
`-2^63 / -1`. -/
theorem tdiv_fits_int64 (a b : Int) (h1 : -9223372036854775808 ≤ a)
    (h2 : a ≤ 9223372036854775807) (hb : b ≠ 0)
    (hex : ¬ (a = -9223372036854775808 ∧ b = -1)) :
    -9223372036854775808 ≤ Int.tdiv a b ∧ Int.tdiv a b ≤ 9223372036854775807 := by
  have hq : (Int.tdiv a b).natAbs = a.natAbs / b.natAbs := Int.natAbs_tdiv a b
  by_cases hb1 : b = 1
  · subst hb1
    rw [Int.tdiv_one]
    exact ⟨h1, h2⟩
  by_cases hb2 : b = -1
  · subst hb2
    have : Int.tdiv a (-1) = -a := by rw [Int.tdiv_neg, Int.tdiv_one]
    rw [this]
    omega
  · have hb3 : 2 ≤ b.natAbs := by omega
    have hle : a.natAbs / b.natAbs ≤ a.natAbs / 2 := Nat.div_le_div_left hb3 (by decide)
    have ha : a.natAbs ≤ 9223372036854775808 := by omega
    have : (Int.tdiv a b).natAbs ≤ 4611686018427387904 := by
      rw [hq]
      omega
    omega

/-- C16 as stated fails at one pair of counter values: with `totalLatency = -2^63` and a
processed count of `-1` the truncated quotient is `2^63`, which is not an `int64`; the
`int64` division wraps and both functions return `-2^63`. -/
theorem C16_counterexample_min_int64_by_minus_one :
    scenarioOverflowMetrics.jobsProcessed = -1 ∧
    scenarioOverflowMetrics.totalLatency = -9223372036854775808 ∧
    Int.tdiv scenarioOverflowMetrics.totalLatency scenarioOverflowMetrics.jobsProcessed
      = 9223372036854775808 ∧
    scenarioOverflowMetrics.calculateAverageLatency = -9223372036854775808 ∧
    scenarioOverflowPool.metrics.jobsProcessed = -1 ∧
    scenarioOverflowPool.metrics.totalLatency = -9223372036854775808 ∧
    Int.tdiv scenarioOverflowPool.metrics.totalLatency scenarioOverflowPool.metrics.jobsProcessed
      = 9223372036854775808 ∧
    scenarioOverflowPool.GetAverageLatency = -9223372036854775808 := by
  refine ⟨rfl, rfl, by decide, by decide, rfl, rfl, by decide, by decide⟩

/-- C16 (amended): average latency never divides by zero.  `Metrics.calculateAverageLatency`
and `AdvancedWorkerPool.GetAverageLatency` return 0 when the processed count is 0; for
every other pair of `int64` counter values they return the quotient
`totalLatency / processed` truncated towards zero, except for `totalLatency = -2^63` with
`processed = -1`, where they return `-2^63`. -/
theorem C16_average_latency :
    (∀ m : Metrics, m.jobsProcessed = 0 → m.calculateAverageLatency = 0) ∧
    (∀ m : Metrics, -9223372036854775808 ≤ m.totalLatency →
      m.totalLatency ≤ 9223372036854775807 → m.jobsProcessed ≠ 0 →
      ¬ (m.totalLatency = -9223372036854775808 ∧ m.jobsProcessed = -1) →
      m.calculateAverageLatency = Int.tdiv m.totalLatency m.jobsProcessed) ∧
    (∀ m : Metrics, m.totalLatency = -9223372036854775808 → m.jobsProcessed = -1 →
      m.calculateAverageLatency = -9223372036854775808) ∧
    (∀ awp : AdvancedWorkerPool, awp.metrics.jobsProcessed = 0 →
      awp.GetAverageLatency = 0) ∧
    (∀ awp : AdvancedWorkerPool, -9223372036854775808 ≤ awp.metrics.totalLatency →
      awp.metrics.totalLatency ≤ 9223372036854775807 → awp.metrics.jobsProcessed ≠ 0 →
      ¬ (awp.metrics.totalLatency = -9223372036854775808 ∧
          awp.metrics.jobsProcessed = -1) →
      awp.GetAverageLatency = Int.tdiv awp.metrics.totalLatency awp.metrics.jobsProcessed) ∧
    (∀ awp : AdvancedWorkerPool, awp.metrics.totalLatency = -9223372036854775808 →
      awp.metrics.jobsProcessed = -1 → awp.GetAverageLatency = -9223372036854775808) := by
  refine ⟨?_, ?_, ?_, ?_, ?_, ?_⟩
  · intro m h
    simp [Metrics.calculateAverageLatency, h]
  · intro m h1 h2 hp hex
    obtain ⟨hlo, hhi⟩ := tdiv_fits_int64 _ _ h1 h2 hp hex
    simp only [Metrics.calculateAverageLatency, if_neg hp]
    exact wrapInt64_eq _ hlo hhi
  · intro m ht hp
    simp only [Metrics.calculateAverageLatency, ht, hp]
    decide
  · intro awp h
    simp [AdvancedWorkerPool.GetAverageLatency, AdvancedWorkerPool.GetMetrics, h]
  · intro awp h1 h2 hp hex
    obtain ⟨hlo, hhi⟩ := tdiv_fits_int64 _ _ h1 h2 hp hex
    simp only [AdvancedWorkerPool.GetAverageLatency, AdvancedWorkerPool.GetMetrics, if_neg hp]
    exact wrapInt64_eq _ hlo hhi
  · intro awp ht hp
    simp only [AdvancedWorkerPool.GetAverageLatency, AdvancedWorkerPool.GetMetrics, ht, hp]
    decide

/-- Witness of C16: a total latency of 4100 over 8 processed jobs averages to 512, a new
recorder averages to 0, and the pair `-2^63`, `-1` gives `-2^63`. -/
theorem C16_average_latency_witness :
    scenarioMetrics.calculateAverageLatency = 512 ∧
    (NewMetrics true 1000).calculateAverageLatency = 0 ∧
    scenarioOverflowMetrics.calculateAverageLatency = -9223372036854775808 :=
  ⟨(C16_average_latency.2.1 scenarioMetrics (by decide) (by decide) (by decide)
      (by decide)).trans (by decide),
    C16_average_latency.1 (NewMetrics true 1000) rfl,
    C16_average_latency.2.2.1 scenarioOverflowMetrics rfl rfl⟩

/-- C17: with processed count `N`, succeeded count `S` and failed count `F`,
`Metrics.GetFailureRate` returns `F/N*100` and `Metrics.GetSuccessRate` returns `S/N*100`
when `N > 0`, and both return 0 when `N = 0`, whatever `S` and `F` are.  This holds with the
division and the multiplication taken in any `float64` arithmetic `ops`, and in particular
in exact arithmetic. -/
theorem C17_success_and_failure_rate {φ : Type} (ops : Float64Ops φ) (m : Metrics) :
    (0 < m.jobsProcessed →
      m.GetFailureRate ops
        = ops.mul (ops.div (ops.ofInt64 m.jobsFailed) (ops.ofInt64 m.jobsProcessed))
            ops.hundred ∧
      m.GetSuccessRate ops
        = ops.mul (ops.div (ops.ofInt64 m.jobsSucceeded) (ops.ofInt64 m.jobsProcessed))
            ops.hundred) ∧
    (m.jobsProcessed = 0 → m.GetFailureRate ops = ops.zero ∧ m.GetSuccessRate ops = ops.zero) ∧
    (0 < m.jobsProcessed →
      m.GetFailureRate Float64Ops.exact = (m.jobsFailed : ℚ) / (m.jobsProcessed : ℚ) * 100 ∧
      m.GetSuccessRate Float64Ops.exact
        = (m.jobsSucceeded : ℚ) / (m.jobsProcessed : ℚ) * 100) ∧
    (m.jobsProcessed = 0 →
      m.GetFailureRate Float64Ops.exact = 0 ∧ m.GetSuccessRate Float64Ops.exact = 0) := by
  refine ⟨?_, ?_, ?_, ?_⟩
  · intro h
    have h0 : m.jobsProcessed ≠ 0 := by omega
    simp [Metrics.GetFailureRate, Metrics.GetSuccessRate, h0]
  · intro h
    simp [Metrics.GetFailureRate, Metrics.GetSuccessRate, h]
  · intro h
    have h0 : m.jobsProcessed ≠ 0 := by omega
    simp [Metrics.GetFailureRate, Metrics.GetSuccessRate, h0, Float64Ops.exact]
  · intro h
    simp [Metrics.GetFailureRate, Metrics.GetSuccessRate, h, Float64Ops.exact]

/-- Witness of C17: 8 processed jobs, 6 succeeded and 2 failed, give the rates 75 and 25. -/
theorem C17_success_and_failure_rate_witness :
    scenarioMetrics.GetFailureRate Float64Ops.exact = 25 ∧
    scenarioMetrics.GetSuccessRate Float64Ops.exact = 75 := by
  obtain ⟨hf, hs⟩ :=
    (C17_success_and_failure_rate Float64Ops.exact scenarioMetrics).2.2.1 (by decide)
  rw [hf, hs]
  norm_num [scenarioMetrics]

/-! ### Rounding to `float64` -/

/-- The rounded value is within one half of the argument. -/
theorem roundHalfEven_err (q : ℚ) : |(roundHalfEven q : ℚ) - q| ≤ 1 / 2 := by
  have h1 : (⌊q⌋ : ℚ) ≤ q := Int.floor_le q
  have h2 : q < (⌊q⌋ : ℚ) + 1 := Int.lt_floor_add_one q
  unfold roundHalfEven
  rw [abs_le]
  split_ifs with a b c
  · constructor <;> linarith
  · push_cast; constructor <;> linarith
  · constructor <;> linarith
  · push_cast; constructor <;> linarith

/-- The rounding of an integer is the integer. -/
theorem roundHalfEven_intCast (n : Int) : roundHalfEven (n : ℚ) = n := by
  unfold roundHalfEven
  simp

/-- A rational within less than one half of an integer rounds to it. -/
theorem roundHalfEven_eq (q : ℚ) (m : Int) (h : |q - m| < 1 / 2) : roundHalfEven q = m := by
  have h1 := roundHalfEven_err q
  rw [abs_lt] at h
  rw [abs_le] at h1
  have h3 : ((roundHalfEven q : Int) : ℚ) - m < 1 := by linarith
  have h4 : (-1 : ℚ) < ((roundHalfEven q : Int) : ℚ) - m := by linarith
  have h5 : (roundHalfEven q - m : Int) < 1 := by exact_mod_cast h3
  have h6 : (-1 : Int) < roundHalfEven q - m := by exact_mod_cast h4
  omega

/-- Rounding to the nearest integer is monotone. -/
theorem roundHalfEven_mono (p q : ℚ) (h : p ≤ q) : roundHalfEven p ≤ roundHalfEven q := by
  have hp1 : (⌊p⌋ : ℚ) ≤ p := Int.floor_le p
  have hp2 : p < (⌊p⌋ : ℚ) + 1 := Int.lt_floor_add_one p
  have hq1 : (⌊q⌋ : ℚ) ≤ q := Int.floor_le q
  have hq2 : q < (⌊q⌋ : ℚ) + 1 := Int.lt_floor_add_one q
  have hfl : ⌊p⌋ ≤ ⌊q⌋ := Int.floor_mono h
  have hlo : ∀ x : ℚ, ⌊x⌋ ≤ roundHalfEven x := by
    intro x
    unfold roundHalfEven
    split_ifs <;> omega
  have hhi : ∀ x : ℚ, roundHalfEven x ≤ ⌊x⌋ + 1 := by
    intro x
    unfold roundHalfEven
    split_ifs <;> omega
  rcases lt_or_eq_of_le hfl with hlt | heq
  · have := hhi p
    have := hlo q
    omega
  · have hpq : p - ⌊p⌋ ≤ q - ⌊q⌋ := by rw [heq]; linarith
    unfold roundHalfEven
    rw [heq] at hpq ⊢
    split_ifs <;> first | omega | (exfalso; linarith)

/-- The exponent of the unit in the last place of a positive rational between `2^e` and
`2^(e+1)` with `e >= -1022`. -/
theorem ulpExp_eq (x : ℚ) (e : Int) (h1 : (2 : ℚ) ^ e ≤ x) (h2 : x < (2 : ℚ) ^ (e + 1))
    (he : -1022 ≤ e) : binary64.ulpExp x = e - 52 := by
  have hx : 0 < x := lt_of_lt_of_le (by positivity) h1
  have hlog : Int.log 2 x = e := by
    apply le_antisymm
    · have := (Int.lt_zpow_iff_log_lt (b := 2) (by norm_num) hx (x := e + 1)).1
        (by exact_mod_cast h2)
      omega
    · exact (Int.zpow_le_iff_le_log (b := 2) (by norm_num) hx).1 (by exact_mod_cast h1)
  unfold binary64.ulpExp
  rw [abs_of_pos hx, hlog, max_eq_left he]

/-- Evaluation of `binary64.round`: a rational between `2^e` and `2^(e+1)` with `e >= -1022`
that lies within less than half a unit in the last place of `m * 2^(e-52)` rounds to it. -/
theorem round_eq (x : ℚ) (e m : Int) (h1 : (2 : ℚ) ^ e ≤ x) (h2 : x < (2 : ℚ) ^ (e + 1))
    (he : -1022 ≤ e) (hm : |x / 2 ^ (e - 52) - m| < 1 / 2) :
    binary64.round x = m * 2 ^ (e - 52) := by
  unfold binary64.round
  rw [ulpExp_eq x e h1 h2 he, roundHalfEven_eq _ m hm]

/-- Zero is a `float64`. -/
theorem round_zero : binary64.round 0 = 0 := by
  unfold binary64.round
  simp [roundHalfEven]

/-- The rounding of a non-negative rational is non-negative. -/
theorem round_nonneg (x : ℚ) (hx : 0 ≤ x) : 0 ≤ binary64.round x := by
  unfold binary64.round
  have h0 : (0 : ℚ) ≤ x / 2 ^ binary64.ulpExp x := by positivity
  have h1 := roundHalfEven_mono 0 _ h0
  have h2 : roundHalfEven 0 = 0 := by
    have := roundHalfEven_intCast 0
    simpa using this
  rw [h2] at h1
  have h3 : (0 : ℚ) ≤ (roundHalfEven (x / 2 ^ binary64.ulpExp x) : ℚ) := by exact_mod_cast h1
  positivity

/-- The relative error of a rounding in the normal range is at most `2^-53`. -/
theorem round_err (x : ℚ) (hx : (2 : ℚ) ^ (-1022 : Int) ≤ x) :
    |binary64.round x - x| ≤ x / 2 ^ 53 := by
  have hpos : 0 < x := lt_of_lt_of_le (by positivity) hx
  have hlog : -1022 ≤ Int.log 2 x :=
    (Int.zpow_le_iff_le_log (b := 2) (by norm_num) hpos).1 (by exact_mod_cast hx)
  have h1 : ((2 : ℕ) : ℚ) ^ Int.log 2 x ≤ x := Int.zpow_log_le_self (by norm_num) hpos
  have hu : binary64.ulpExp x = Int.log 2 x - 52 := by
    unfold binary64.ulpExp
    rw [abs_of_pos hpos, max_eq_left hlog]
  unfold binary64.round
  rw [hu]
  set e := Int.log 2 x with he
  have hp : (0 : ℚ) < 2 ^ (e - 52) := by positivity
  have herr := roundHalfEven_err (x / 2 ^ (e - 52))
  have hsplit : (roundHalfEven (x / 2 ^ (e - 52)) : ℚ) * 2 ^ (e - 52) - x
      = ((roundHalfEven (x / 2 ^ (e - 52)) : ℚ) - x / 2 ^ (e - 52)) * 2 ^ (e - 52) := by
    field_simp
  rw [hsplit, abs_mul, abs_of_pos hp]
  have h2 : (2 : ℚ) ^ (e - 52) = 2 ^ e / 2 ^ 52 := by
    rw [zpow_sub₀ (by norm_num : (2 : ℚ) ≠ 0)]
    norm_num
  have h3 : (2 : ℚ) ^ e ≤ x := by exact_mod_cast h1
  calc |(roundHalfEven (x / 2 ^ (e - 52)) : ℚ) - x / 2 ^ (e - 52)| * 2 ^ (e - 52)
      ≤ 1 / 2 * 2 ^ (e - 52) := by
        apply mul_le_mul_of_nonneg_right herr hp.le
    _ = 2 ^ e / 2 ^ 53 := by rw [h2]; ring
    _ ≤ x / 2 ^ 53 := by
        apply div_le_div_of_nonneg_right h3 (by positivity)

/-- Rounding to `float64` is monotone on the non-negative rationals. -/
theorem round_mono (x y : ℚ) (hx : 0 ≤ x) (h : x ≤ y) :
    binary64.round x ≤ binary64.round y := by
  rcases eq_or_lt_of_le hx with h0 | hpos
  · rw [← h0, round_zero]
    exact round_nonneg y (le_trans hx h)
  have hy : 0 < y := lt_of_lt_of_le hpos h
  have hlog : Int.log 2 x ≤ Int.log 2 y := Int.log_mono_right hpos h
  have hxu : binary64.ulpExp x = max (Int.log 2 x) (-1022) - 52 := by
    unfold binary64.ulpExp; rw [abs_of_pos hpos]
  have hyu : binary64.ulpExp y = max (Int.log 2 y) (-1022) - 52 := by
    unfold binary64.ulpExp; rw [abs_of_pos hy]
  have hle : binary64.ulpExp x ≤ binary64.ulpExp y := by
    rw [hxu, hyu]
    have := max_le_max hlog (le_refl (-1022 : Int))
    omega
  unfold binary64.round
  rcases eq_or_lt_of_le hle with heq | hlt
  · rw [heq]
    have hp : (0 : ℚ) < 2 ^ binary64.ulpExp y := by positivity
    have hq : x / 2 ^ binary64.ulpExp y ≤ y / 2 ^ binary64.ulpExp y :=
      div_le_div_of_nonneg_right h hp.le
    have := roundHalfEven_mono _ _ hq
    have hc : (roundHalfEven (x / 2 ^ binary64.ulpExp y) : ℚ)
        ≤ (roundHalfEven (y / 2 ^ binary64.ulpExp y) : ℚ) := by exact_mod_cast this
    exact mul_le_mul_of_nonneg_right hc hp.le
  · set ex := binary64.ulpExp x with hex
    set ey := binary64.ulpExp y with hey
    have hpx : (0 : ℚ) < 2 ^ ex := by positivity
    have hpy : (0 : ℚ) < 2 ^ ey := by positivity
    -- the rounding of `x` is at most `2 ^ (ex + 53)`
    have hx2 : x < ((2 : ℕ) : ℚ) ^ (Int.log 2 x + 1) := Int.lt_zpow_succ_log_self (by norm_num) x
    have hx3 : x ≤ (2 : ℚ) ^ (ex + 53) := by
      have h1 : Int.log 2 x + 1 ≤ ex + 53 := by
        have := le_max_left (Int.log 2 x) (-1022)
        omega
      have h2 : (2 : ℚ) ^ (Int.log 2 x + 1) ≤ 2 ^ (ex + 53) :=
        zpow_le_zpow_right₀ (by norm_num) h1
      have h3 : x < (2 : ℚ) ^ (Int.log 2 x + 1) := by exact_mod_cast hx2
      linarith
    have hx4 : x / 2 ^ ex ≤ ((2 ^ 53 : Int) : ℚ) := by
      rw [div_le_iff₀ hpx]
      have : ((2 ^ 53 : Int) : ℚ) * 2 ^ ex = 2 ^ (ex + 53) := by
        rw [zpow_add₀ (by norm_num : (2 : ℚ) ≠ 0)]
        push_cast
        norm_num
        ring
      rw [this]
      exact hx3
    have hx5 : roundHalfEven (x / 2 ^ ex) ≤ 2 ^ 53 := by
      have := roundHalfEven_mono _ _ hx4
      rwa [roundHalfEven_intCast] at this
    have hx6 : (roundHalfEven (x / 2 ^ ex) : ℚ) * 2 ^ ex ≤ 2 ^ (ex + 53) := by
      have hc : (roundHalfEven (x / 2 ^ ex) : ℚ) ≤ ((2 ^ 53 : Int) : ℚ) := by exact_mod_cast hx5
      have := mul_le_mul_of_nonneg_right hc hpx.le
      have h2 : ((2 ^ 53 : Int) : ℚ) * 2 ^ ex = 2 ^ (ex + 53) := by
        rw [zpow_add₀ (by norm_num : (2 : ℚ) ≠ 0)]
        push_cast
        norm_num
        ring
      rw [h2] at this
      exact this
    -- the rounding of `y` is at least `2 ^ (ey + 52)`
    have hylog : ey + 52 = Int.log 2 y := by
      have h1 : -1074 ≤ ex := by
        have := le_max_right (Int.log 2 x) (-1022)
        omega
      have h2 : max (Int.log 2 y) (-1022) = ey + 52 := by omega
      rcases max_choice (Int.log 2 y) (-1022) with hm | hm
      · rw [hm] at h2; omega
      · rw [hm] at h2; omega
    have hy2 : ((2 : ℕ) : ℚ) ^ Int.log 2 y ≤ y := Int.zpow_log_le_self (by norm_num) hy
    have hy3 : (2 : ℚ) ^ (ey + 52) ≤ y := by
      rw [hylog]
      exact_mod_cast hy2
    have hy4 : ((2 ^ 52 : Int) : ℚ) ≤ y / 2 ^ ey := by
      rw [le_div_iff₀ hpy]
      have : ((2 ^ 52 : Int) : ℚ) * 2 ^ ey = 2 ^ (ey + 52) := by
        rw [zpow_add₀ (by norm_num : (2 : ℚ) ≠ 0)]
        push_cast
        norm_num
        ring
      rw [this]
      exact hy3
    have hy5 : 2 ^ 52 ≤ roundHalfEven (y / 2 ^ ey) := by
      have := roundHalfEven_mono _ _ hy4
      rwa [roundHalfEven_intCast] at this
    have hy6 : (2 : ℚ) ^ (ey + 52) ≤ (roundHalfEven (y / 2 ^ ey) : ℚ) * 2 ^ ey := by
      have hc : ((2 ^ 52 : Int) : ℚ) ≤ (roundHalfEven (y / 2 ^ ey) : ℚ) := by exact_mod_cast hy5
      have := mul_le_mul_of_nonneg_right hc hpy.le
      have h2 : ((2 ^ 52 : Int) : ℚ) * 2 ^ ey = 2 ^ (ey + 52) := by
        rw [zpow_add₀ (by norm_num : (2 : ℚ) ≠ 0)]
        push_cast
        norm_num
        ring
      rw [h2] at this
      exact this
    have hmid : (2 : ℚ) ^ (ex + 53) ≤ 2 ^ (ey + 52) :=
      zpow_le_zpow_right₀ (by norm_num) (by omega)
    linarith

/-- The rounding of zero or of a rational in the normal range lies within the factors
`1 - 2^-53` and `1 + 2^-53` of it. -/
theorem round_rel (x : ℚ) (hx : x = 0 ∨ (2 : ℚ) ^ (-1022 : Int) ≤ x) :
    x * (1 - 1 / 2 ^ 53) ≤ binary64.round x ∧ binary64.round x ≤ x * (1 + 1 / 2 ^ 53) := by
  rcases hx with h0 | h
  · rw [h0, round_zero]
    simp
  · have := round_err x h
    rw [abs_le] at this
    constructor <;> [linarith; linarith]

/-- The numbers 1, 100 and `2^63` are `float64` numbers. -/
theorem round_fixed :
    binary64.round 1 = 1 ∧ binary64.round 100 = 100 ∧
    binary64.round 9223372036854775808 = 9223372036854775808 := by
  refine ⟨?_, ?_, ?_⟩
  · rw [round_eq 1 0 4503599627370496 (by norm_num) (by norm_num) (by norm_num)
      (by norm_num)]
    norm_num
  · rw [round_eq 100 6 7036874417766400 (by norm_num) (by norm_num) (by norm_num)
      (by norm_num)]
    norm_num
  · rw [round_eq 9223372036854775808 63 4503599627370496 (by norm_num) (by norm_num)
      (by norm_num) (by norm_num)]
    norm_num

/-- A tie goes to the even neighbour: `float64(2^53 + 1)` is `2^53` and `float64(2^53 + 3)` is
`2^53 + 4`. -/
theorem round_ties_to_even :
    binary64.round 9007199254740993 = 9007199254740992 ∧
    binary64.round 9007199254740995 = 9007199254740996 := by
  have u1 : binary64.ulpExp 9007199254740993 = 1 := by
    rw [ulpExp_eq 9007199254740993 53 (by norm_num) (by norm_num) (by norm_num)]
    norm_num
  have u2 : binary64.ulpExp 9007199254740995 = 1 := by
    rw [ulpExp_eq 9007199254740995 53 (by norm_num) (by norm_num) (by norm_num)]
    norm_num
  have f1 : ⌊(9007199254740993 : ℚ) / 2⌋ = 4503599627370496 := by
    rw [Int.floor_eq_iff]
    constructor <;> norm_num
  have f2 : ⌊(9007199254740995 : ℚ) / 2⌋ = 4503599627370497 := by
    rw [Int.floor_eq_iff]
    constructor <;> norm_num
  constructor
  · unfold binary64.round roundHalfEven
    rw [u1]
    simp only [zpow_one, f1]
    norm_num
  · unfold binary64.round roundHalfEven
    rw [u2]
    simp only [zpow_one, f2]
    norm_num

/-- Three roundings with relative error factors between `c1` and `c2` on the way from the
counters `X` and `N` to a rate: conversion of both, division, multiplication by 100. -/
theorem rate_chain (c1 c2 X N a n d r : ℚ) (hc1 : 0 < c1) (hc2 : 0 < c2) (hX : 0 ≤ X)
    (hN : 0 < N) (ha1 : X * c1 ≤ a) (ha2 : a ≤ X * c2) (hn1 : N * c1 ≤ n) (hn2 : n ≤ N * c2)
    (hd1 : a / n * c1 ≤ d) (hd2 : d ≤ a / n * c2) (hr1 : d * 100 * c1 ≤ r)
    (hr2 : r ≤ d * 100 * c2) :
    X / N * 100 * (c1 ^ 3 / c2) ≤ r ∧ r ≤ X / N * 100 * (c2 ^ 3 / c1) := by
  have hn : 0 < n := lt_of_lt_of_le (mul_pos hN hc1) hn1
  have hNc1 : 0 < N * c1 := mul_pos hN hc1
  have hNc2 : 0 < N * c2 := mul_pos hN hc2
  have hq2 : a / n ≤ X * c2 / (N * c1) :=
    div_le_div₀ (mul_nonneg hX hc2.le) ha2 hNc1 hn1
  have hq1 : X * c1 / (N * c2) ≤ a / n :=
    div_le_div₀ (le_trans (mul_nonneg hX hc1.le) ha1) ha1 hn hn2
  constructor
  · have e : X / N * 100 * (c1 ^ 3 / c2) = X * c1 / (N * c2) * c1 * 100 * c1 := by
      field_simp
      ring
    rw [e]
    calc X * c1 / (N * c2) * c1 * 100 * c1 ≤ a / n * c1 * 100 * c1 := by
          apply mul_le_mul_of_nonneg_right _ hc1.le
          apply mul_le_mul_of_nonneg_right _ (by norm_num)
          exact mul_le_mul_of_nonneg_right hq1 hc1.le
      _ ≤ d * 100 * c1 := by
          apply mul_le_mul_of_nonneg_right _ hc1.le
          exact mul_le_mul_of_nonneg_right hd1 (by norm_num)
      _ ≤ r := hr1
  · have e : X / N * 100 * (c2 ^ 3 / c1) = X * c2 / (N * c1) * c2 * 100 * c2 := by
      field_simp
      ring
    rw [e]
    calc r ≤ d * 100 * c2 := hr2
      _ ≤ a / n * c2 * 100 * c2 := by
          apply mul_le_mul_of_nonneg_right _ hc2.le
          exact mul_le_mul_of_nonneg_right hd2 (by norm_num)
      _ ≤ X * c2 / (N * c1) * c2 * 100 * c2 := by
          apply mul_le_mul_of_nonneg_right _ hc2.le
          apply mul_le_mul_of_nonneg_right _ (by norm_num)
          exact mul_le_mul_of_nonneg_right hq2 hc2.le

/-- The rate `float64(X) / float64(N) * 100` of Go for `int64` counters `0 <= X <= N`,
`N > 0`: it lies in `[0, 100]`, it is zero or at least `2^-60`, and it is the exact rate
`X / N * 100` within the factors `(1 - 2^-53)^3 / (1 + 2^-53)` and
`(1 + 2^-53)^3 / (1 - 2^-53)`. -/
theorem rate_binary64 (X N : Int) (h0 : 0 ≤ X) (hXN : X ≤ N) (hN : 0 < N)
    (hN2 : N ≤ 9223372036854775807) :
    0 ≤ binary64.round (binary64.round (binary64.round X / binary64.round N) * 100) ∧
    binary64.round (binary64.round (binary64.round X / binary64.round N) * 100) ≤ 100 ∧
    (X : ℚ) / N * 100 * ((1 - 1 / 2 ^ 53) ^ 3 / (1 + 1 / 2 ^ 53))
      ≤ binary64.round (binary64.round (binary64.round X / binary64.round N) * 100) ∧
    binary64.round (binary64.round (binary64.round X / binary64.round N) * 100)
      ≤ (X : ℚ) / N * 100 * ((1 + 1 / 2 ^ 53) ^ 3 / (1 - 1 / 2 ^ 53)) := by
  obtain ⟨f1, f100, f63⟩ := round_fixed
  have hXq : (0 : ℚ) ≤ (X : ℚ) := by exact_mod_cast h0
  have hNq : (0 : ℚ) < (N : ℚ) := by exact_mod_cast hN
  have hN1 : (1 : ℚ) ≤ (N : ℚ) := by exact_mod_cast hN
  have hXNq : (X : ℚ) ≤ (N : ℚ) := by exact_mod_cast hXN
  have hN63 : (N : ℚ) ≤ 9223372036854775808 := by
    have : N ≤ 9223372036854775808 := by omega
    exact_mod_cast this
  have hsmall : (2 : ℚ) ^ (-1022 : Int) ≤ 1 / 2 ^ 64 := by
    have h : (2 : ℚ) ^ (-1022 : Int) ≤ 2 ^ (-64 : Int) :=
      zpow_le_zpow_right₀ (by norm_num) (by norm_num)
    have e : (2 : ℚ) ^ (-64 : Int) = 1 / 2 ^ 64 := by norm_num
    rw [e] at h
    exact h
  have hsmall1 : (2 : ℚ) ^ (-1022 : Int) ≤ 1 := le_trans hsmall (by norm_num)
  -- the conversions
  have hn1 : 1 ≤ binary64.round N := by
    have := round_mono 1 N (by norm_num) hN1
    rwa [f1] at this
  have hn63 : binary64.round N ≤ 9223372036854775808 := by
    have := round_mono N 9223372036854775808 hNq.le hN63
    rwa [f63] at this
  have hnpos : 0 < binary64.round N := by linarith
  obtain ⟨hnr1, hnr2⟩ := round_rel N (Or.inr (le_trans hsmall1 hN1))
  have ha0 : 0 ≤ binary64.round X := round_nonneg X hXq
  have han : binary64.round X ≤ binary64.round N := round_mono X N hXq hXNq
  have hX01 : (X : ℚ) = 0 ∨ (1 : ℚ) ≤ X := by
    rcases eq_or_lt_of_le h0 with h | h
    · left; exact_mod_cast h.symm
    · right; exact_mod_cast h
  obtain ⟨har1, har2⟩ := round_rel X (by
    rcases hX01 with h | h
    · exact Or.inl h
    · exact Or.inr (le_trans hsmall1 h))
  -- the division
  have hq0 : 0 ≤ binary64.round X / binary64.round N := div_nonneg ha0 hnpos.le
  have hq1 : binary64.round X / binary64.round N ≤ 1 := by
    rw [div_le_one hnpos]
    exact han
  have hqz : binary64.round X / binary64.round N = 0 ∨
      1 / 2 ^ 63 ≤ binary64.round X / binary64.round N := by
    rcases hX01 with h | h
    · left
      rw [h, round_zero, zero_div]
    · right
      have ha1 : 1 ≤ binary64.round X := by
        have := round_mono 1 X (by norm_num) h
        rwa [f1] at this
      rw [le_div_iff₀ hnpos]
      linarith
  have hd0 : 0 ≤ binary64.round (binary64.round X / binary64.round N) := round_nonneg _ hq0
  have hd1 : binary64.round (binary64.round X / binary64.round N) ≤ 1 := by
    have := round_mono _ 1 hq0 hq1
    rwa [f1] at this
  obtain ⟨hdr1, hdr2⟩ := round_rel (binary64.round X / binary64.round N) (by
    rcases hqz with h | h
    · exact Or.inl h
    · exact Or.inr (le_trans hsmall (le_trans (by norm_num) h)))
  -- the multiplication
  have hp0 : 0 ≤ binary64.round (binary64.round X / binary64.round N) * 100 := by positivity
  have hp1 : binary64.round (binary64.round X / binary64.round N) * 100 ≤ 100 := by linarith
  have hpz : binary64.round (binary64.round X / binary64.round N) * 100 = 0 ∨
      (2 : ℚ) ^ (-1022 : Int) ≤ binary64.round (binary64.round X / binary64.round N) * 100 := by
    rcases hqz with h | h
    · left
      rw [h, round_zero, zero_mul]
    · right
      have h2 : (1 : ℚ) / 2 ^ 63 * (1 - 1 / 2 ^ 53)
          ≤ binary64.round X / binary64.round N * (1 - 1 / 2 ^ 53) :=
        mul_le_mul_of_nonneg_right h (by norm_num)
      have h3 : (1 : ℚ) / 2 ^ 64 ≤ 1 / 2 ^ 63 * (1 - 1 / 2 ^ 53) * 100 := by norm_num
      have h4 : binary64.round X / binary64.round N * (1 - 1 / 2 ^ 53) * 100
          ≤ binary64.round (binary64.round X / binary64.round N) * 100 :=
        mul_le_mul_of_nonneg_right hdr1 (by norm_num)
      have h5 : (1 : ℚ) / 2 ^ 63 * (1 - 1 / 2 ^ 53) * 100
          ≤ binary64.round X / binary64.round N * (1 - 1 / 2 ^ 53) * 100 :=
        mul_le_mul_of_nonneg_right h2 (by norm_num)
      exact le_trans hsmall (le_trans h3 (le_trans h5 h4))
  obtain ⟨hrr1, hrr2⟩ :=
    round_rel (binary64.round (binary64.round X / binary64.round N) * 100) hpz
  have hr0 := round_nonneg _ hp0
  have hr1 : binary64.round (binary64.round (binary64.round X / binary64.round N) * 100)
      ≤ 100 := by
    have := round_mono _ 100 hp0 hp1
    rwa [f100] at this
  obtain ⟨hlo, hhi⟩ := rate_chain (1 - 1 / 2 ^ 53) (1 + 1 / 2 ^ 53) X N (binary64.round X)
    (binary64.round N) (binary64.round (binary64.round X / binary64.round N))
    (binary64.round (binary64.round (binary64.round X / binary64.round N) * 100))
    (by norm_num) (by norm_num) hXq hNq har1 har2 hnr1 hnr2 hdr1 hdr2 hrr1 hrr2
  exact ⟨hr0, hr1, hlo, hhi⟩

/-- Evaluation of the `float64` rates for 3 processed jobs, 2 succeeded and 1 failed: the
success rate is `66.66666666666666`, the failure rate `33.33333333333333`, both below the
exact rates, and their `float64` sum is `99.99999999999999`, that is `100 - 2^-46`. -/
theorem thirds_binary64 :
    scenarioThirds.GetSuccessRate Float64Ops.binary64 = 2345624805922133 / 35184372088832 ∧
    scenarioThirds.GetFailureRate Float64Ops.binary64 = 2345624805922133 / 70368744177664 ∧
    binary64.add (scenarioThirds.GetSuccessRate Float64Ops.binary64)
      (scenarioThirds.GetFailureRate Float64Ops.binary64) = 100 - 1 / 2 ^ 46 := by
  have r1 : binary64.round 1 = 1 := round_fixed.1
  have r2 : binary64.round 2 = 2 := by
    rw [round_eq 2 1 4503599627370496 (by norm_num) (by norm_num) (by norm_num)
      (by norm_num)]
    norm_num
  have r3 : binary64.round 3 = 3 := by
    rw [round_eq 3 1 6755399441055744 (by norm_num) (by norm_num) (by norm_num)
      (by norm_num)]
    norm_num
  have q2 : binary64.round (2 / 3) = 6004799503160661 / 9007199254740992 := by
    rw [round_eq (2 / 3) (-1) 6004799503160661 (by norm_num) (by norm_num) (by norm_num)
      (by rw [abs_lt]; constructor <;> norm_num)]
    norm_num
  have q1 : binary64.round (1 / 3) = 6004799503160661 / 18014398509481984 := by
    rw [round_eq (1 / 3) (-2) 6004799503160661 (by norm_num) (by norm_num) (by norm_num)
      (by rw [abs_lt]; constructor <;> norm_num)]
    norm_num
  have p2 : binary64.round (6004799503160661 / 9007199254740992 * 100)
      = 2345624805922133 / 35184372088832 := by
    rw [round_eq (6004799503160661 / 9007199254740992 * 100) 6 4691249611844266
      (by norm_num) (by norm_num) (by norm_num) (by rw [abs_lt]; constructor <;> norm_num)]
    norm_num
  have p1 : binary64.round (6004799503160661 / 18014398509481984 * 100)
      = 2345624805922133 / 70368744177664 := by
    rw [round_eq (6004799503160661 / 18014398509481984 * 100) 5 4691249611844266
      (by norm_num) (by norm_num) (by norm_num) (by rw [abs_lt]; constructor <;> norm_num)]
    norm_num
  have hs : scenarioThirds.GetSuccessRate Float64Ops.binary64
      = 2345624805922133 / 35184372088832 := by
    have : scenarioThirds.GetSuccessRate Float64Ops.binary64
        = binary64.round (binary64.round (binary64.round 2 / binary64.round 3) * 100) := by
      simp [Metrics.GetSuccessRate, Float64Ops.binary64, scenarioThirds]
    rw [this, r2, r3, q2, p2]
  have hf : scenarioThirds.GetFailureRate Float64Ops.binary64
      = 2345624805922133 / 70368744177664 := by
    have : scenarioThirds.GetFailureRate Float64Ops.binary64
        = binary64.round (binary64.round (binary64.round 1 / binary64.round 3) * 100) := by
      simp [Metrics.GetFailureRate, Float64Ops.binary64, scenarioThirds]
    rw [this, r1, r3, q1, p1]
  refine ⟨hs, hf, ?_⟩
  rw [hs, hf]
  unfold binary64.add
  rw [round_eq (2345624805922133 / 35184372088832 + 2345624805922133 / 70368744177664) 6
    7036874417766399 (by norm_num) (by norm_num) (by norm_num)
    (by rw [abs_lt]; constructor <;> norm_num)]
  norm_num

/-- C18: after `N > 0` processed jobs of which `F` failed and `N - F` succeeded (`N` an
`int64`), `GetSuccessRate() + GetFailureRate()` equals 100 exactly over rational arithmetic,
and each rate lies in `[0, 100]`.  For the `float64` values the two methods return: each
rate lies in `[0, 100]`, each is the exact rate within a relative error of `2^-50`, and
their sum, taken exactly or in `float64`, is 100 within `2^-43`. -/
theorem C18_rates_sum_to_100 (m : Metrics) (N F : Int) (hN : 0 < N)
    (hN2 : N ≤ 9223372036854775807) (hF0 : 0 ≤ F) (hFN : F ≤ N) (hp : m.jobsProcessed = N)
    (hf : m.jobsFailed = F) (hs : m.jobsSucceeded = N - F) :
    (m.GetSuccessRate Float64Ops.exact + m.GetFailureRate Float64Ops.exact = 100 ∧
      0 ≤ m.GetSuccessRate Float64Ops.exact ∧ m.GetSuccessRate Float64Ops.exact ≤ 100 ∧
      0 ≤ m.GetFailureRate Float64Ops.exact ∧ m.GetFailureRate Float64Ops.exact ≤ 100) ∧
    (0 ≤ m.GetSuccessRate Float64Ops.binary64 ∧ m.GetSuccessRate Float64Ops.binary64 ≤ 100 ∧
      0 ≤ m.GetFailureRate Float64Ops.binary64 ∧
      m.GetFailureRate Float64Ops.binary64 ≤ 100) ∧
    (|m.GetSuccessRate Float64Ops.binary64 - m.GetSuccessRate Float64Ops.exact|
        ≤ m.GetSuccessRate Float64Ops.exact / 2 ^ 50 ∧
      |m.GetFailureRate Float64Ops.binary64 - m.GetFailureRate Float64Ops.exact|
        ≤ m.GetFailureRate Float64Ops.exact / 2 ^ 50) ∧
    |m.GetSuccessRate Float64Ops.binary64 + m.GetFailureRate Float64Ops.binary64 - 100|
      ≤ 1 / 2 ^ 43 ∧
    |binary64.add (m.GetSuccessRate Float64Ops.binary64)
        (m.GetFailureRate Float64Ops.binary64) - 100| ≤ 1 / 2 ^ 43 := by
  have hN0 : N ≠ 0 := by omega
  have hNq : (0 : ℚ) < (N : ℚ) := by exact_mod_cast hN
  have hFq : (0 : ℚ) ≤ (F : ℚ) := by exact_mod_cast hF0
  have hFNq : (F : ℚ) ≤ (N : ℚ) := by exact_mod_cast hFN
  -- the exact rates
  have hsr : m.GetSuccessRate Float64Ops.exact = ((N - F : Int) : ℚ) / N * 100 := by
    simp [Metrics.GetSuccessRate, Float64Ops.exact, hp, hs, hN0]
  have hfr : m.GetFailureRate Float64Ops.exact = (F : ℚ) / N * 100 := by
    simp [Metrics.GetFailureRate, Float64Ops.exact, hp, hf, hN0]
  have h1 : ((N - F : Int) : ℚ) / N ≤ 1 := by
    rw [div_le_one hNq]; push_cast; linarith
  have h2 : (F : ℚ) / N ≤ 1 := by
    rw [div_le_one hNq]; exact hFNq
  have h3 : 0 ≤ ((N - F : Int) : ℚ) / N :=
    div_nonneg (by push_cast; linarith) hNq.le
  have h4 : 0 ≤ (F : ℚ) / N := div_nonneg hFq hNq.le
  have hsum : ((N - F : Int) : ℚ) / N * 100 + (F : ℚ) / N * 100 = 100 := by
    push_cast
    field_simp
    ring
  -- the rates in `float64`
  have hsb : m.GetSuccessRate Float64Ops.binary64
      = binary64.round (binary64.round (binary64.round ((N - F : Int) : ℚ)
          / binary64.round (N : ℚ)) * 100) := by
    simp only [Metrics.GetSuccessRate, Float64Ops.binary64, hp, hs, if_neg hN0]
  have hfb : m.GetFailureRate Float64Ops.binary64
      = binary64.round (binary64.round (binary64.round (F : ℚ)
          / binary64.round (N : ℚ)) * 100) := by
    simp only [Metrics.GetFailureRate, Float64Ops.binary64, hp, hf, if_neg hN0]
  obtain ⟨s0, s100, slo, shi⟩ := rate_binary64 (N - F) N (by omega) (by omega) hN hN2
  obtain ⟨f0, f100, flo, fhi⟩ := rate_binary64 F N hF0 hFN hN hN2
  rw [← hsb] at s0 s100 slo shi
  rw [← hfb] at f0 f100 flo fhi
  rw [← hsr] at slo shi hsum
  rw [← hfr] at flo fhi hsum
  have hL : (1 : ℚ) - 1 / 2 ^ 50 ≤ (1 - 1 / 2 ^ 53) ^ 3 / (1 + 1 / 2 ^ 53) := by norm_num
  have hU : (1 + 1 / 2 ^ 53 : ℚ) ^ 3 / (1 - 1 / 2 ^ 53) ≤ 1 + 1 / 2 ^ 50 := by norm_num
  have hes : 0 ≤ m.GetSuccessRate Float64Ops.exact := by
    rw [hsr]; exact mul_nonneg h3 (by norm_num)
  have hef : 0 ≤ m.GetFailureRate Float64Ops.exact := by
    rw [hfr]; exact mul_nonneg h4 (by norm_num)
  have slo2 : m.GetSuccessRate Float64Ops.exact * (1 - 1 / 2 ^ 50)
      ≤ m.GetSuccessRate Float64Ops.binary64 :=
    le_trans (mul_le_mul_of_nonneg_left hL hes) slo
  have shi2 : m.GetSuccessRate Float64Ops.binary64
      ≤ m.GetSuccessRate Float64Ops.exact * (1 + 1 / 2 ^ 50) :=
    le_trans shi (mul_le_mul_of_nonneg_left hU hes)
  have flo2 : m.GetFailureRate Float64Ops.exact * (1 - 1 / 2 ^ 50)
      ≤ m.GetFailureRate Float64Ops.binary64 :=
    le_trans (mul_le_mul_of_nonneg_left hL hef) flo
  have fhi2 : m.GetFailureRate Float64Ops.binary64
      ≤ m.GetFailureRate Float64Ops.exact * (1 + 1 / 2 ^ 50) :=
    le_trans fhi (mul_le_mul_of_nonneg_left hU hef)
  -- the sum of the two `float64` rates
  have tlo : (100 : ℚ) * (1 - 1 / 2 ^ 50)
      ≤ m.GetSuccessRate Float64Ops.binary64 + m.GetFailureRate Float64Ops.binary64 := by
    linarith
  have thi : m.GetSuccessRate Float64Ops.binary64 + m.GetFailureRate Float64Ops.binary64
      ≤ (100 : ℚ) * (1 + 1 / 2 ^ 50) := by
    linarith
  have tnormal : (2 : ℚ) ^ (-1022 : Int)
      ≤ m.GetSuccessRate Float64Ops.binary64 + m.GetFailureRate Float64Ops.binary64 := by
    have h : (2 : ℚ) ^ (-1022 : Int) ≤ 2 ^ (0 : Int) :=
      zpow_le_zpow_right₀ (by norm_num) (by norm_num)
    have e : (2 : ℚ) ^ (0 : Int) ≤ 100 * (1 - 1 / 2 ^ 50) := by norm_num
    exact le_trans h (le_trans e tlo)
  obtain ⟨alo, ahi⟩ := round_rel _ (Or.inr tnormal)
  refine ⟨⟨hsum, hes, ?_, hef, ?_⟩, ⟨s0, s100, f0, f100⟩, ⟨?_, ?_⟩, ?_, ?_⟩
  · rw [hsr]; linarith
  · rw [hfr]; linarith
  · rw [abs_le]; constructor <;> linarith
  · rw [abs_le]; constructor <;> linarith
  · rw [abs_le]; constructor <;> linarith
  · unfold binary64.add
    rw [abs_le]
    constructor <;> nlinarith

/-- Witness of C18: 3 processed jobs of which 1 failed and 2 succeeded.  Over rational
arithmetic the rates add to 100; the `float64` values returned are `66.66666666666666` and
`33.33333333333333`, and their `float64` sum is `99.99999999999999 = 100 - 2^-46`, within
`2^-43` of 100. -/
theorem C18_rates_sum_to_100_witness :
    scenarioThirds.GetSuccessRate Float64Ops.exact
      + scenarioThirds.GetFailureRate Float64Ops.exact = 100 ∧
    |binary64.add (scenarioThirds.GetSuccessRate Float64Ops.binary64)
        (scenarioThirds.GetFailureRate Float64Ops.binary64) - 100| ≤ 1 / 2 ^ 43 ∧
    binary64.add (scenarioThirds.GetSuccessRate Float64Ops.binary64)
      (scenarioThirds.GetFailureRate Float64Ops.binary64) = 100 - 1 / 2 ^ 46 :=
  ⟨(C18_rates_sum_to_100 scenarioThirds 3 1 (by decide) (by decide) (by decide) (by decide)
      rfl rfl rfl).1.1,
    (C18_rates_sum_to_100 scenarioThirds 3 1 (by decide) (by decide) (by decide) (by decide)
      rfl rfl rfl).2.2.2.2,
    thirds_binary64.2.2⟩

/-- C19: on a disabled recorder every mutating operation (`IncrementJobsSubmitted`,
`IncrementJobsProcessed`, `IncrementJobsSucceeded`, `IncrementJobsFailed`, `AddLatency`,
`SetActiveWorkers`, `SetQueueLength`, `SetTotalWorkers`, `Reset`) leaves the recorder as it
was, and `GetSnapshot` returns the zero-valued `types.PoolMetrics`. -/
theorem C19_disabled_recorder_is_inert (m : Metrics) (op : MetricsOp)
    (h : m.enabled = false) :
    m.apply op = m ∧ m.GetSnapshot = {} ∧
    m.IncrementJobsSubmitted = m ∧ m.IncrementJobsProcessed = m ∧
    m.IncrementJobsSucceeded = m ∧ m.IncrementJobsFailed = m ∧
    (∀ d, m.AddLatency d = m) ∧ (∀ n, m.SetActiveWorkers n = m) ∧
    (∀ n, m.SetQueueLength n = m) ∧ (∀ n, m.SetTotalWorkers n = m) ∧ m.Reset = m := by
  have hop : ∀ x : Metrics, (if !m.enabled then x else x) = x := by
    intro x
    rw [h]
    rfl
  refine ⟨?_, rfl, hop m, hop m, hop m, hop m, fun _ => hop m, fun _ => hop m,
    fun _ => hop m, fun _ => hop m, hop m⟩
  cases op <;> exact hop m

/-- Witness of C19: a disabled recorder holding non-zero counters keeps them under
`AddLatency(250)`. -/
theorem C19_disabled_recorder_is_inert_witness :
    scenarioMetrics.apply (.addLatency 250) = scenarioMetrics ∧
    (scenarioMetrics.apply (.addLatency 250)).totalLatency = 4100 :=
  ⟨(C19_disabled_recorder_is_inert scenarioMetrics (.addLatency 250) rfl).1,
    by rw [(C19_disabled_recorder_is_inert scenarioMetrics (.addLatency 250) rfl).1]; rfl⟩

/-- C20: evaluation of the constructors on an invalid configuration.
`NewDynamicWorkerPool(ctx, 5, 2)` has `minWorkers > maxWorkers`; it returns a pool, whose
counter reads 5, above `maxWorkers`, and `Start` on it spawns 5 workers.  `NewPool` returns
a pool for every configuration, and `Start` on that pool returns `nil`. -/
theorem C20_constructors_do_not_validate (config : types.PoolConfig) :
    (NewDynamicWorkerPool false 5 2).minWorkers > (NewDynamicWorkerPool false 5 2).maxWorkers ∧
    (NewDynamicWorkerPool false 5 2).GetCurrentWorkerCount = 5 ∧
    (NewDynamicWorkerPool false 5 2).Start.wg = [0, 1, 2, 3, 4] ∧
    (NewPool config).jobQueue.cap = 0 ∧
    (NewPool config).Start.2 = none := by
  refine ⟨by decide, by decide, by decide, rfl, rfl⟩

/-! ### Circuit breaker -/

/-- A failing call on a breaker that is not open, whose counter is below the threshold:
the function is invoked, its error is returned with a nil result, the counter goes up by one
and the breaker opens exactly when the counter reaches the threshold. -/
theorem execute_failing (cb : CircuitBreaker) (c : ExecuteCall) (e : String)
    (hs : cb.state ≠ .StateOpen) (he : c.err = some e) (h0 : 0 ≤ cb.failures)
    (hmax : cb.maxFailures ≤ 9223372036854775807) (hlt : cb.failures < cb.maxFailures) :
    (cb.Execute c).invoked = true ∧ (cb.Execute c).result = none ∧
    (cb.Execute c).err = some e ∧
    (cb.Execute c).cb.failures = cb.failures + 1 ∧
    (cb.Execute c).cb.maxFailures = cb.maxFailures ∧
    (cb.Execute c).cb.state
      = (if cb.failures + 1 ≥ cb.maxFailures then .StateOpen else cb.state) := by
  have hw : wrapInt64 (cb.failures + 1) = cb.failures + 1 :=
    wrapInt64_eq _ (by omega) (by omega)
  unfold CircuitBreaker.Execute
  simp only [hs, false_and, if_false, he, hw]
  split_ifs <;> simp_all

/-- A run of failing calls on a breaker that is not open and whose counter stays within the
threshold: every call invokes the function, the counter counts the calls, and the breaker
is open at the end exactly when the counter has reached the threshold. -/
theorem runCalls_failing (calls : List ExecuteCall) (cb : CircuitBreaker)
    (hs : cb.state ≠ .StateOpen) (hfail : ∀ c ∈ calls, c.err.isSome = true)
    (h0 : 0 ≤ cb.failures) (hmax : cb.maxFailures ≤ 9223372036854775807)
    (hlt : cb.failures < cb.maxFailures)
    (hle : cb.failures + calls.length ≤ cb.maxFailures) :
    (cb.runCalls calls).failures = cb.failures + calls.length ∧
    (cb.runCalls calls).state
      = (if cb.failures + calls.length ≥ cb.maxFailures then .StateOpen else cb.state) ∧
    (∀ r ∈ cb.trace calls, r.invoked = true ∧ r.result = none ∧ r.err.isSome = true) := by
  induction calls generalizing cb with
  | nil =>
    have : ¬ cb.failures + ((([] : List ExecuteCall).length : Nat) : Int) ≥ cb.maxFailures := by
      simp only [List.length_nil, Nat.cast_zero]; omega
    refine ⟨by simp [CircuitBreaker.runCalls], ?_, by simp [CircuitBreaker.trace]⟩
    rw [if_neg this]
    rfl
  | cons c rest ih =>
    have hc : c.err.isSome = true := hfail c (List.mem_cons_self _ _)
    obtain ⟨e, he⟩ := Option.isSome_iff_exists.mp hc
    obtain ⟨hinv, hres, herr, hf, hm, hst⟩ := execute_failing cb c e hs he h0 hmax hlt
    have hlen : ((c :: rest).length : Int) = rest.length + 1 := by
      simp only [List.length_cons, Nat.cast_add, Nat.cast_one]
    rw [hlen] at hle ⊢
    have hrun : cb.runCalls (c :: rest) = (cb.Execute c).cb.runCalls rest := rfl
    rw [hrun]
    simp only [CircuitBreaker.trace, List.mem_cons, forall_eq_or_imp]
    by_cases hopen : cb.failures + 1 ≥ cb.maxFailures
    · have hrest : rest = [] := by
        cases rest with
        | nil => rfl
        | cons a as =>
          simp only [List.length_cons, Nat.cast_add, Nat.cast_one] at hle
          omega
      subst hrest
      rw [if_pos hopen] at hst
      refine ⟨?_, ?_, ⟨hinv, hres, by simp [herr]⟩, by simp [CircuitBreaker.trace]⟩
      · simp [CircuitBreaker.runCalls, hf]
      · simp only [CircuitBreaker.runCalls, List.foldl_nil, List.length_nil, Nat.cast_zero,
          zero_add]
        rw [hst, if_pos hopen]
    · rw [if_neg hopen] at hst
      obtain ⟨i1, i2, i3⟩ := ih (cb.Execute c).cb (by rw [hst]; exact hs)
        (fun a ha => hfail a (List.mem_cons_of_mem _ ha)) (by omega) (by omega) (by omega)
        (by omega)
      refine ⟨by rw [i1, hf]; ring, ?_, ⟨hinv, hres, by simp [herr]⟩, i3⟩
      rw [i2, hf, hm, hst]
      have : cb.failures + 1 + (rest.length : Int) = cb.failures + ((rest.length : Int) + 1) := by
        ring
      rw [this]
/-- C23: for a breaker with `maxFailures >= 1` in the Closed state with zero failures,
`maxFailures` consecutive `Execute` calls whose function returns an error all invoke the
function and leave the state Open; and an `Execute` call made while the state is Open and
the reset timeout has not elapsed returns the circuit-open error with a nil result, does
not invoke the function and leaves the breaker as it was. -/
theorem C23_opens_at_threshold_and_rejects_while_open :
    (∀ (cb : CircuitBreaker) (calls : List ExecuteCall),
      cb.state = .StateClosed → cb.failures = 0 → 1 ≤ cb.maxFailures →
      cb.maxFailures ≤ 9223372036854775807 → (calls.length : Int) = cb.maxFailures →
      (∀ c ∈ calls, c.err.isSome = true) →
      (cb.runCalls calls).GetState = .StateOpen ∧
      ∀ r ∈ cb.trace calls, r.invoked = true ∧ r.result = none ∧ r.err.isSome = true) ∧
    (∀ (cb : CircuitBreaker) (c : ExecuteCall),
      cb.state = .StateOpen →
      ¬ timeSince c.now cb.lastFailureTime > cb.resetTimeout →
      cb.Execute c =
        { cb := cb, result := none
          err := some ("circuit breaker " ++ cb.name ++ " is open"), invoked := false }) := by
  constructor
  · intro cb calls hs hf h1 hmax hlen hfail
    obtain ⟨_, hst, htr⟩ := runCalls_failing calls cb (by rw [hs]; decide) hfail
      (by omega) hmax (by omega) (by omega)
    refine ⟨?_, htr⟩
    rw [CircuitBreaker.GetState, hst, if_pos (by omega)]
  · intro cb c hs hnot
    unfold CircuitBreaker.Execute
    simp [hs, hnot]

/-- Witness of C23: the breaker of the demonstration (threshold 3, reset timeout 5 s) is
open after three failing calls, and a fourth call one second later is rejected without
invoking the function. -/
theorem C23_opens_at_threshold_and_rejects_while_open_witness :
    (scenarioBreaker.runCalls [failingCall 1000, failingCall 2000, failingCall 3000]).GetState
      = .StateOpen ∧
    ((scenarioBreaker.runCalls [failingCall 1000, failingCall 2000, failingCall 3000]).Execute
      (succeedingCall 1000003000)).invoked = false :=
  ⟨(C23_opens_at_threshold_and_rejects_while_open.1 scenarioBreaker
      [failingCall 1000, failingCall 2000, failingCall 3000] rfl rfl (by decide) (by decide)
      (by decide) (by decide)).1,
    by
      rw [C23_opens_at_threshold_and_rejects_while_open.2
        (scenarioBreaker.runCalls [failingCall 1000, failingCall 2000, failingCall 3000])
        (succeedingCall 1000003000) (by decide) (by decide)]⟩

/-- The breaker is Closed after a prefix of calls, with a counter that counts the failing
calls at the end of the prefix. -/
theorem runCalls_closed (p : List ExecuteCall) (cb : CircuitBreaker)
    (hs : cb.state = .StateClosed) (hf : cb.failures = 0)
    (hmax : cb.maxFailures ≤ 9223372036854775807)
    (hruns : ∀ l1 run l2 : List ExecuteCall, p = l1 ++ run ++ l2 →
      (∀ c ∈ run, c.err.isSome = true) → (run.length : Int) < cb.maxFailures) :
    (cb.runCalls p).state = .StateClosed ∧ (cb.runCalls p).maxFailures = cb.maxFailures ∧
    ∃ l1 run : List ExecuteCall, p = l1 ++ run ∧ (∀ c ∈ run, c.err.isSome = true) ∧
      (cb.runCalls p).failures = run.length := by
  induction p using List.reverseRecOn with
  | nil => exact ⟨hs, rfl, [], [], rfl, by simp, by simp [CircuitBreaker.runCalls, hf]⟩
  | append_singleton q a ih =>
    obtain ⟨ihs, ihm, l1, run, hq, hrun, hcount⟩ := ih (by
      intro l1 run l2 h hr
      exact hruns l1 run (l2 ++ [a]) (by rw [h]; simp) hr)
    have hstep : cb.runCalls (q ++ [a]) = ((cb.runCalls q).Execute a).cb := by
      simp [CircuitBreaker.runCalls, List.foldl_append]
    rw [hstep]
    cases hae : a.err with
    | none =>
      refine ⟨?_, ?_, q ++ [a], [], by simp, by simp, ?_⟩
      · simp [CircuitBreaker.Execute, ihs, hae]
      · simp [CircuitBreaker.Execute, ihs, hae, ihm]
      · simp [CircuitBreaker.Execute, ihs, hae]
    | some e =>
      have hrun1 : ∀ c ∈ run ++ [a], c.err.isSome = true := by
        intro c hc
        rcases List.mem_append.mp hc with h | h
        · exact hrun c h
        · rw [List.mem_singleton.mp h, hae]; rfl
      have hbound := hruns l1 (run ++ [a]) [] (by rw [hq]; simp) hrun1
      simp only [List.length_append, List.length_singleton, Nat.cast_add, Nat.cast_one]
        at hbound
      obtain ⟨_, _, _, hfl, hml, hstl⟩ := execute_failing (cb.runCalls q) a e
        (by rw [ihs]; decide) hae (by rw [hcount]; omega) (by rw [ihm]; exact hmax)
        (by rw [hcount, ihm]; omega)
      refine ⟨?_, hml.trans ihm, l1, run ++ [a], by rw [hq]; simp, hrun1, ?_⟩
      · rw [hstl, if_neg (by rw [hcount, ihm]; omega), ihs]
      · rw [hfl, hcount]
        simp

/-- C24: the threshold counts consecutive failures only.  Every `Execute` call that invokes
the function and gets a nil error leaves the failure count at 0; and for every sequence of
calls on a breaker in the Closed state with zero failures in which every run of consecutive
failing calls is shorter than `maxFailures`, the state is not Open after any number of the
calls. -/
theorem C24_only_consecutive_failures_open :
    (∀ (cb : CircuitBreaker) (c : ExecuteCall),
      (cb.Execute c).invoked = true → c.err = none → (cb.Execute c).cb.failures = 0) ∧
    (∀ (cb : CircuitBreaker) (calls : List ExecuteCall),
      cb.state = .StateClosed → cb.failures = 0 →
      cb.maxFailures ≤ 9223372036854775807 →
      (∀ l1 run l2 : List ExecuteCall, calls = l1 ++ run ++ l2 →
        (∀ c ∈ run, c.err.isSome = true) → (run.length : Int) < cb.maxFailures) →
      ∀ k : Nat, (cb.runCalls (calls.take k)).GetState ≠ .StateOpen) := by
  constructor
  · intro cb c hinv he
    unfold CircuitBreaker.Execute at hinv ⊢
    simp only [he] at hinv ⊢
    split_ifs at hinv ⊢ <;> simp_all
  · intro cb calls hs hf hmax hruns k
    have h := runCalls_closed (calls.take k) cb hs hf hmax (by
      intro l1 run l2 h hr
      refine hruns l1 run (l2 ++ calls.drop k) ?_ hr
      rw [← List.append_assoc, ← h, List.take_append_drop])
    rw [CircuitBreaker.GetState, h.1]
    decide

/-- Witness of C24: with threshold 3, two failures, a success and two more failures leave
the breaker Closed. -/
theorem C24_only_consecutive_failures_open_witness :
    (scenarioBreaker.runCalls
      ([failingCall 1, failingCall 2, succeedingCall 3, failingCall 4, failingCall 5].take
        5)).GetState ≠ .StateOpen ∧
    (scenarioBreaker.runCalls
      [failingCall 1, failingCall 2, succeedingCall 3, failingCall 4, failingCall 5]).failures
      = 2 :=
  ⟨C24_only_consecutive_failures_open.2 scenarioBreaker
      [failingCall 1, failingCall 2, succeedingCall 3, failingCall 4, failingCall 5] rfl rfl
      (by decide)
      (by
        intro l1 run l2 h hr
        by_contra hlen
        have h3 : 3 ≤ run.length := by
          have : (3 : Int) ≤ (run.length : Int) := by
            have hm : scenarioBreaker.maxFailures = 3 := rfl
            rw [hm] at hlen
            omega
          exact_mod_cast this
        have hlen5 := congrArg List.length h
        simp only [List.length_cons, List.length_nil, List.length_append] at hlen5
        have hmem : succeedingCall 3 ∈ run := by
          have h2 : (l1 ++ (run ++ l2))[2]? = some (succeedingCall 3) := by
            rw [← List.append_assoc, ← h]
            rfl
          rw [List.getElem?_append_right (by omega),
            List.getElem?_append_left (by omega)] at h2
          exact List.getElem?_mem h2
        have := hr _ hmem
        simp [succeedingCall] at this)
      5,
    by decide⟩
/-- C25: an `Execute` call made when the state is Open and more than `resetTimeout` has
passed since the last failure invokes the function, with the failure count reset to 0
before the call (a failing trial leaves it at 1); when the function succeeds the state
becomes Closed, the failure count is 0, and the function's result is returned with a nil
error. -/
theorem C25_half_open_after_reset_timeout (cb : CircuitBreaker) (c : ExecuteCall)
    (hs : cb.state = .StateOpen)
    (helapsed : timeSince c.now cb.lastFailureTime > cb.resetTimeout) :
    (cb.Execute c).invoked = true ∧
    (c.err = none →
      cb.Execute c =
        { cb := { cb with state := .StateClosed, failures := 0 }
          result := c.result, err := none, invoked := true }) ∧
    (∀ e, c.err = some e →
      (cb.Execute c).cb.failures = 1 ∧ (cb.Execute c).err = some e ∧
      (cb.Execute c).result = none) := by
  have h1 : wrapInt64 (0 + 1) = 1 := by decide
  refine ⟨?_, ?_, ?_⟩
  · unfold CircuitBreaker.Execute
    simp only [hs, helapsed, and_self, if_true]
    cases c.err <;> simp
  · intro he
    unfold CircuitBreaker.Execute
    simp [hs, helapsed, he]
  · intro e he
    unfold CircuitBreaker.Execute
    simp only [hs, helapsed, and_self, if_true, he, h1]
    split_ifs <;> simp_all

/-- Witness of C25: the breaker of the demonstration, opened by three failures, is called
again six seconds after the last failure with a function that succeeds. -/
theorem C25_half_open_after_reset_timeout_witness :
    ((scenarioBreaker.runCalls [failingCall 1000, failingCall 2000, failingCall 3000]).Execute
      (succeedingCall 6000003000)).cb.state = .StateClosed ∧
    ((scenarioBreaker.runCalls [failingCall 1000, failingCall 2000, failingCall 3000]).Execute
      (succeedingCall 6000003000)).result = some "success" := by
  have h := (C25_half_open_after_reset_timeout
    (scenarioBreaker.runCalls [failingCall 1000, failingCall 2000, failingCall 3000])
    (succeedingCall 6000003000) (by decide) (by decide)).2.1 rfl
  rw [h]
  exact ⟨rfl, rfl⟩

/-- C28: in the HalfOpen state a failing trial call does not by itself re-open the circuit.
`Execute` with a failing function in state HalfOpen with failure count 0 (also when this
state is entered inside the call, from Open after the reset timeout) invokes the function,
sets the failure count to 1 and moves to Open iff `maxFailures <= 1`; for `maxFailures > 1`
the breaker stays HalfOpen, every further failing call invokes the function, and the state
is Open once `maxFailures` consecutive failures have accumulated, not before. -/
theorem C28_failing_trial_keeps_half_open :
    (∀ (cb : CircuitBreaker) (c : ExecuteCall) (e : String),
      cb.state = .StateHalfOpen → cb.failures = 0 → c.err = some e →
      (cb.Execute c).invoked = true ∧ (cb.Execute c).cb.failures = 1 ∧
      ((cb.Execute c).cb.state = .StateOpen ↔ cb.maxFailures ≤ 1) ∧
      (1 < cb.maxFailures → (cb.Execute c).cb.state = .StateHalfOpen)) ∧
    (∀ (cb : CircuitBreaker) (c : ExecuteCall) (e : String),
      cb.state = .StateOpen → timeSince c.now cb.lastFailureTime > cb.resetTimeout →
      c.err = some e →
      (cb.Execute c).invoked = true ∧ (cb.Execute c).cb.failures = 1 ∧
      ((cb.Execute c).cb.state = .StateOpen ↔ cb.maxFailures ≤ 1) ∧
      (1 < cb.maxFailures → (cb.Execute c).cb.state = .StateHalfOpen)) ∧
    (∀ (cb : CircuitBreaker) (calls : List ExecuteCall),
      cb.state = .StateHalfOpen → cb.failures = 0 → 1 < cb.maxFailures →
      cb.maxFailures ≤ 9223372036854775807 → (∀ c ∈ calls, c.err.isSome = true) →
      (calls.length : Int) ≤ cb.maxFailures →
      (∀ r ∈ cb.trace calls, r.invoked = true) ∧
      (cb.runCalls calls).failures = calls.length ∧
      ((calls.length : Int) < cb.maxFailures →
        (cb.runCalls calls).state = .StateHalfOpen) ∧
      ((calls.length : Int) = cb.maxFailures → (cb.runCalls calls).state = .StateOpen)) := by
  have h1 : wrapInt64 1 = 1 := by decide
  have trial : ∀ (cb : CircuitBreaker) (c : ExecuteCall) (e : String),
      cb.state = .StateHalfOpen → cb.failures = 0 → c.err = some e →
      (cb.Execute c).invoked = true ∧ (cb.Execute c).cb.failures = 1 ∧
      ((cb.Execute c).cb.state = .StateOpen ↔ cb.maxFailures ≤ 1) ∧
      (1 < cb.maxFailures → (cb.Execute c).cb.state = .StateHalfOpen) := by
    intro cb c e hs hf he
    by_cases hm : cb.maxFailures ≤ 1
    · have hex : cb.Execute c =
          { cb := { cb with failures := 1, lastFailureTime := c.failedAt, state := .StateOpen }
            result := none, err := some e, invoked := true } := by
        simp [CircuitBreaker.Execute, hs, he, hf, h1, hm]
      rw [hex]
      exact ⟨rfl, rfl, ⟨fun _ => hm, fun _ => rfl⟩, fun h => by omega⟩
    · have hex : cb.Execute c =
          { cb := { cb with failures := 1, lastFailureTime := c.failedAt }
            result := none, err := some e, invoked := true } := by
        simp [CircuitBreaker.Execute, hs, he, hf, h1, hm]
      rw [hex]
      refine ⟨rfl, rfl, ⟨fun h => ?_, fun h => absurd h hm⟩, fun _ => hs⟩
      rw [show ({ cb with failures := 1, lastFailureTime := c.failedAt } :
        CircuitBreaker).state = cb.state from rfl, hs] at h
      cases h
  refine ⟨trial, ?_, ?_⟩
  · intro cb c e hs helapsed he
    have hex : cb.Execute c
        = ({ cb with state := .StateHalfOpen, failures := 0 } : CircuitBreaker).Execute c := by
      simp [CircuitBreaker.Execute, hs, helapsed]
    rw [hex]
    exact trial _ c e rfl rfl he
  · intro cb calls hs hf hgt hmax hfail hlen
    obtain ⟨hcount, hst, htr⟩ := runCalls_failing calls cb (by rw [hs]; decide) hfail
      (by omega) hmax (by omega) (by omega)
    refine ⟨fun r hr => (htr r hr).1, by rw [hcount, hf]; simp, ?_, ?_⟩
    · intro hlt
      rw [hst, if_neg (by omega), hs]
    · intro heq
      rw [hst, if_pos (by omega)]

/-- Witness of C28: with threshold 3, a breaker that half-opens on a failing trial call
stays HalfOpen with one failure counted. -/
theorem C28_failing_trial_keeps_half_open_witness :
    ((scenarioBreaker.runCalls [failingCall 1000, failingCall 2000, failingCall 3000]).Execute
      (failingCall 6000003000)).cb.state = .StateHalfOpen ∧
    ((scenarioBreaker.runCalls [failingCall 1000, failingCall 2000, failingCall 3000]).Execute
      (failingCall 6000003000)).cb.failures = 1 :=
  ⟨(C28_failing_trial_keeps_half_open.2.1
      (scenarioBreaker.runCalls [failingCall 1000, failingCall 2000, failingCall 3000])
      (failingCall 6000003000) "service unavailable" (by decide) (by decide) rfl).2.2.2
      (by decide),
    (C28_failing_trial_keeps_half_open.2.1
      (scenarioBreaker.runCalls [failingCall 1000, failingCall 2000, failingCall 3000])
      (failingCall 6000003000) "service unavailable" (by decide) (by decide) rfl).2.1⟩

/-! ### Rate limiter -/

theorem newRateLimiter_eq (rate bucketSize : Int) (rl : RateLimiter)
    (h : NewRateLimiter rate bucketSize = some rl) :
    rl.tokens.buf = List.replicate bucketSize.toNat () ∧ rl.tokens.cap = bucketSize.toNat ∧
    rl.tokens.closed = false ∧ rl.bucketSize = bucketSize ∧ 0 ≤ bucketSize := by
  unfold NewRateLimiter at h
  split_ifs at h with h1 h2
  simp only [Option.some.injEq] at h
  subst h
  exact ⟨rfl, rfl, rfl, rfl, by omega⟩

theorem wf_new (rate bucketSize : Int) (rl : RateLimiter)
    (h : NewRateLimiter rate bucketSize = some rl) : rl.Wf := by
  obtain ⟨hb, hc, hcl, hbs, h0⟩ := newRateLimiter_eq rate bucketSize rl h
  refine ⟨hcl, ?_, ?_⟩
  · rw [hb, hc, List.length_replicate]
  · rw [hc, hbs]
    omega

theorem allow_spec (rl : RateLimiter) (hopen : rl.tokens.closed = false) :
    ((rl.Allow).1 = true ↔ 0 < rl.tokens.len) ∧
    ((rl.Allow).1 = true → (rl.Allow).2.tokens.len + 1 = rl.tokens.len) ∧
    ((rl.Allow).1 = false → (rl.Allow).2 = rl) ∧
    (rl.Allow).2.tokens.closed = false ∧ (rl.Allow).2.tokens.cap = rl.tokens.cap ∧
    (rl.Allow).2.bucketSize = rl.bucketSize ∧
    (rl.Allow).2.tokens.len ≤ rl.tokens.len := by
  unfold RateLimiter.Allow Chan.len
  cases hb : rl.tokens.buf with
  | nil => simp [hopen, hb]
  | cons t rest => simp [hopen]

theorem allowN_full (n : Nat) (rl : RateLimiter) (hopen : rl.tokens.closed = false)
    (hbuf : rl.tokens.buf = List.replicate n ()) :
    (rl.allowN n).1 = List.replicate n true ∧ (rl.allowN n).2.tokens.buf = [] ∧
    (rl.allowN n).2.tokens.closed = false := by
  induction n generalizing rl with
  | zero => exact ⟨rfl, hbuf, hopen⟩
  | succ n ih =>
    have hallow : rl.Allow
        = (true, { rl with tokens := { rl.tokens with buf := List.replicate n () } }) := by
      simp [RateLimiter.Allow, hbuf, List.replicate_succ]
    obtain ⟨i1, i2, i3⟩ := ih (rl.Allow).2 (by rw [hallow]; exact hopen) (by rw [hallow])
    simp only [RateLimiter.allowN]
    refine ⟨?_, i2, i3⟩
    rw [i1, hallow, List.replicate_succ]

/-- C26: the limiter is a token bucket that starts full.  For a limiter made by
`NewRateLimiter` with `bucketSize >= 1` the bucket holds `bucketSize` tokens, the first
`bucketSize` calls of `Allow` (with no refill in between) return true and the next call
returns false.  In general `Allow` returns true iff at least one token is available, removes
exactly one token when it returns true, and leaves the limiter as it was when it returns
false. -/
theorem C26_token_bucket_starts_full :
    (∀ (rate bucketSize : Int) (rl : RateLimiter),
      NewRateLimiter rate bucketSize = some rl → 1 ≤ bucketSize →
      (rl.tokens.len : Int) = bucketSize ∧
      (rl.allowN bucketSize.toNat).1 = List.replicate bucketSize.toNat true ∧
      ((rl.allowN bucketSize.toNat).2.Allow).1 = false) ∧
    (∀ rl : RateLimiter, rl.tokens.closed = false →
      ((rl.Allow).1 = true ↔ 0 < rl.tokens.len) ∧
      ((rl.Allow).1 = true → (rl.Allow).2.tokens.len + 1 = rl.tokens.len) ∧
      ((rl.Allow).1 = false → (rl.Allow).2 = rl)) := by
  constructor
  · intro rate bucketSize rl h h1
    obtain ⟨hb, hc, hcl, hbs, h0⟩ := newRateLimiter_eq rate bucketSize rl h
    obtain ⟨a1, a2, a3⟩ := allowN_full bucketSize.toNat rl hcl hb
    refine ⟨?_, a1, ?_⟩
    · rw [Chan.len, hb, List.length_replicate]
      omega
    · simp [RateLimiter.Allow, a2, a3]
  · intro rl hopen
    obtain ⟨h1, h2, h3, _⟩ := allow_spec rl hopen
    exact ⟨h1, h2, h3⟩

/-- Witness of C26: the limiter of the demonstration (one token per second, bucket size 3)
allows three calls and refuses the fourth. -/
theorem C26_token_bucket_starts_full_witness :
    ∃ rl : RateLimiter, NewRateLimiter 1000000000 3 = some rl ∧
      (rl.allowN 3).1 = [true, true, true] ∧ ((rl.allowN 3).2.Allow).1 = false :=
  ⟨_, rfl, (C26_token_bucket_starts_full.1 1000000000 3 _ rfl (by decide)).2.1,
    (C26_token_bucket_starts_full.1 1000000000 3 _ rfl (by decide)).2.2⟩

theorem wait_got (rl r : RateLimiter) (ctxDone : Bool) (choice : Nat)
    (hopen : rl.tokens.closed = false)
    (h : (rl.Wait ctxDone)[choice]? = some (.got r)) :
    ∃ t rest, rl.tokens.buf = t :: rest ∧
      r = { rl with tokens := { rl.tokens with buf := rest } } := by
  have hm : WaitOutcome.got r ∈ rl.Wait ctxDone := List.getElem?_mem h
  unfold RateLimiter.Wait at hm
  simp only [goSelect] at hm
  split at hm
  · simp at hm
  · rename_i x xs heq
    rw [← heq] at hm
    simp only [List.mem_append] at hm
    rcases hm with hm | hm
    · split at hm
      · rename_i t rest hb
        simp only [List.mem_singleton, WaitOutcome.got.injEq] at hm
        exact ⟨t, rest, hb, hm⟩
      · simp [hopen] at hm
    · split_ifs at hm <;> simp at hm

theorem wf_step (rl : RateLimiter) (e : LimiterEvent) (h : rl.Wf) : (rl.step e).Wf := by
  obtain ⟨hopen, hlen, hcap⟩ := h
  cases e with
  | tick =>
    by_cases hroom : rl.tokens.buf.length < rl.tokens.cap
    · have hstep : rl.step .tick = { rl with tokens := rl.tokens.push () } := by
        simp [RateLimiter.step, RateLimiter.refill, hopen, hroom]
      rw [hstep]
      refine ⟨hopen, ?_, hcap⟩
      show (rl.tokens.buf ++ [()]).length ≤ rl.tokens.cap
      simp only [List.length_append, List.length_singleton]
      omega
    · have hstep : rl.step .tick = rl := by
        simp [RateLimiter.step, RateLimiter.refill, hopen, hroom]
      rw [hstep]
      exact ⟨hopen, hlen, hcap⟩
  | allow =>
    obtain ⟨_, _, _, a4, a5, a6, a7⟩ := allow_spec rl hopen
    have hstep : rl.step .allow = (rl.Allow).2 := rfl
    rw [hstep]
    refine ⟨a4, ?_, ?_⟩
    · rw [a5]
      exact le_trans a7 hlen
    · rw [a5, a6]
      exact hcap
  | wait ctxDone choice =>
    simp only [RateLimiter.step]
    split
    · rename_i r hr
      obtain ⟨t, rest, hb, hr1⟩ := wait_got rl r ctxDone choice hopen hr
      subst hr1
      refine ⟨hopen, ?_, hcap⟩
      rw [hb] at hlen
      simp only [List.length_cons] at hlen
      show rest.length ≤ rl.tokens.cap
      omega
    · exact ⟨hopen, hlen, hcap⟩

theorem wf_run (events : List LimiterEvent) (rl : RateLimiter) (h : rl.Wf) :
    (rl.run events).Wf := by
  induction events generalizing rl with
  | nil => exact h
  | cons e es ih => exact ih (rl.step e) (wf_step rl e h)

/-- C30: the bucket never overflows.  For a limiter made by `NewRateLimiter` with
`bucketSize >= 1`, after every sequence of refill ticks, `Allow` calls and `Wait` calls
(successful or not) the number of available tokens lies in `[0, bucketSize]`; at that point
a refill tick adds one token when fewer than `bucketSize` are available and changes nothing
when the bucket is full. -/
theorem C30_bucket_never_overflows (rate bucketSize : Int) (rl : RateLimiter)
    (events : List LimiterEvent) (h : NewRateLimiter rate bucketSize = some rl)
    (_h1 : 1 ≤ bucketSize) :
    (0 : Int) ≤ ((rl.run events).tokens.len : Int) ∧
    ((rl.run events).tokens.len : Int) ≤ bucketSize ∧
    (((rl.run events).tokens.len : Int) < bucketSize →
      ((rl.run events).step .tick).tokens.len = (rl.run events).tokens.len + 1) ∧
    (((rl.run events).tokens.len : Int) = bucketSize →
      (rl.run events).step .tick = rl.run events) := by
  obtain ⟨hopen, hlen, hcap⟩ := wf_run events rl (wf_new rate bucketSize rl h)
  have hbs : (rl.run events).bucketSize = bucketSize := by
    have hgen : ∀ (es : List LimiterEvent) (r : RateLimiter), r.Wf →
        (r.run es).bucketSize = r.bucketSize := by
      intro es
      induction es with
      | nil => intro r _; rfl
      | cons e es ih =>
        intro r hr
        have hstep : (r.step e).bucketSize = r.bucketSize := by
          cases e with
          | tick =>
            by_cases hroom : r.tokens.buf.length < r.tokens.cap
            · simp [RateLimiter.step, RateLimiter.refill, hr.1, hroom]
            · simp [RateLimiter.step, RateLimiter.refill, hr.1, hroom]
          | allow => exact (allow_spec r hr.1).2.2.2.2.2.1
          | wait ctxDone choice =>
            simp only [RateLimiter.step]
            split
            · rename_i r1 hr1
              obtain ⟨t, rest, _, hr2⟩ := wait_got r r1 ctxDone choice hr.1 hr1
              rw [hr2]
            · rfl
        exact (ih (r.step e) (wf_step r e hr)).trans hstep
    rw [hgen events rl (wf_new rate bucketSize rl h)]
    exact (newRateLimiter_eq rate bucketSize rl h).2.2.2.1
  rw [hbs] at hcap
  refine ⟨Int.ofNat_nonneg _, ?_, ?_, ?_⟩
  · simp only [Chan.len]
    omega
  · intro hlt
    have hroom : (rl.run events).tokens.buf.length < (rl.run events).tokens.cap := by
      simp only [Chan.len] at hlt
      omega
    simp [RateLimiter.step, RateLimiter.refill, hopen, hroom, Chan.len, Chan.push]
  · intro heq
    have hfull : ¬ (rl.run events).tokens.buf.length < (rl.run events).tokens.cap := by
      simp only [Chan.len] at heq
      omega
    simp [RateLimiter.step, RateLimiter.refill, hopen, hfull]

/-- Witness of C30: bucket size 3; two calls of `Allow`, four ticks and a successful `Wait`
leave two tokens, and ticks beyond the third token were dropped. -/
theorem C30_bucket_never_overflows_witness :
    ∃ rl : RateLimiter, NewRateLimiter 1000000000 3 = some rl ∧
      ((rl.run [.allow, .allow, .tick, .tick, .tick, .tick, .wait false 0]).tokens.len : Int)
        ≤ 3 ∧
      (rl.run [.allow, .allow, .tick, .tick, .tick, .tick, .wait false 0]).tokens.len = 2 :=
  ⟨_, rfl,
    (C30_bucket_never_overflows 1000000000 3 _
      [.allow, .allow, .tick, .tick, .tick, .tick, .wait false 0] rfl (by decide)).2.1,
    by decide⟩

/-! ### Scaling of the dynamic pool -/

/-- C21: evaluation of `Start`, `scaleUp(1)`, `scaleDown(1)`, `scaleUp(1)` on a pool with
bounds 1 and 3.  `scaleDown` only lowers the counter, so the second `scaleUp` reads the
counter 1 again and spawns a second worker with id 1 while the first one is still running:
the running workers have the ids 0, 1, 1.  The periodic `checkAndScale` does the same when
the queue fills, empties and fills again. -/
theorem C21_worker_id_assigned_twice :
    scenarioScaling.wg = [0] ∧
    (scenarioScaling.scaleUp 1).wg = [0, 1] ∧
    ((scenarioScaling.scaleUp 1).scaleDown 1).wg = [0, 1] ∧
    ((scenarioScaling.scaleUp 1).scaleDown 1).GetCurrentWorkerCount = 1 ∧
    (((scenarioScaling.scaleUp 1).scaleDown 1).scaleUp 1).wg = [0, 1, 1] ∧
    ¬ (((scenarioScaling.scaleUp 1).scaleDown 1).scaleUp 1).wg.Nodup ∧
    (scenarioScaling.run
      [.queue [scenarioJob, scenarioJob, scenarioJob], .tick, .queue [], .tick,
       .queue [scenarioJob, scenarioJob, scenarioJob], .tick]).wg = [0, 1, 1] := by
  refine ⟨by decide, by decide, by decide, by decide, by decide, by decide, by decide⟩

/-- An outcome of a `select` is one of its ready cases or the idle outcome. -/
theorem mem_goSelect {α : Type} (ready : List α) (idle o : α) (h : o ∈ goSelect ready idle) :
    o ∈ ready ∨ o = idle := by
  cases ready with
  | nil => right; simpa [goSelect] using h
  | cons r rs => left; simpa [goSelect] using h

/-- A `handle` taken while the pool context is not done never returns from the goroutine. -/
theorem handle_stays (dwp : DynamicWorkerPool) (id : Int) (job : Job) (hd : dwp.done = false)
    (o : DynamicWorkerOutcome) (ho : o ∈ dwp.handle id job) : o.exits = false := by
  unfold DynamicWorkerPool.handle at ho
  rcases mem_goSelect _ _ _ ho with h | h
  · simp only [hd, Bool.false_eq_true, if_false, List.append_nil] at h
    split_ifs at h
    · simp only [List.mem_singleton] at h
      subst h
      rfl
    · simp only [List.mem_singleton] at h
      subst h
      rfl
    · simp at h
  · subst h
    rfl

/-- An iteration of `dynamicWorker` taken while the pool context is not done never returns
from the goroutine. -/
theorem dynamicWorker_stays (dwp : DynamicWorkerPool) (id : Int) (hd : dwp.done = false)
    (o : DynamicWorkerOutcome) (ho : o ∈ dwp.dynamicWorker id) : o.exits = false := by
  unfold DynamicWorkerPool.dynamicWorker at ho
  rcases mem_goSelect _ _ _ ho with h | h
  · simp only [hd, Bool.false_eq_true, if_false, List.append_nil] at h
    split at h
    · exact handle_stays _ id _ rfl o h
    · split_ifs at h
      · exact handle_stays _ id _ hd o h
      · simp at h
  · subst h
    rfl

/-- C22: evaluation of scaling down to `minWorkers` and back up to `maxWorkers` on a pool
with bounds 1 and 3.  `scaleDown` changes nothing but the counter (the pool context stays
not done, and a `dynamicWorker` iteration taken while the context is not done never
returns), so no worker is told to exit: after `adjustWorkers(2)`, `adjustWorkers(-2)` three
workers run while the count reads 1, and after a further `adjustWorkers(2)` five workers
run while the count reads 3. -/
theorem C22_scale_down_leaks_workers :
    (scenarioScaling.adjustWorkers 2).wg.length = 3 ∧
    (scenarioScaling.adjustWorkers 2).GetCurrentWorkerCount = 3 ∧
    ((scenarioScaling.adjustWorkers 2).adjustWorkers (-2)).wg.length = 3 ∧
    ((scenarioScaling.adjustWorkers 2).adjustWorkers (-2)).GetCurrentWorkerCount = 1 ∧
    (((scenarioScaling.adjustWorkers 2).adjustWorkers (-2)).adjustWorkers 2).wg
      = [0, 1, 2, 1, 2] ∧
    (((scenarioScaling.adjustWorkers 2).adjustWorkers (-2)).adjustWorkers
      2).GetCurrentWorkerCount = 3 ∧
    (∀ (dwp : DynamicWorkerPool) (count : Int),
      (dwp.scaleDown count).wg = dwp.wg ∧ (dwp.scaleDown count).done = dwp.done) ∧
    (∀ (dwp : DynamicWorkerPool) (id : Int), dwp.done = false →
      ∀ o ∈ dwp.dynamicWorker id, o.exits = false) := by
  refine ⟨by decide, by decide, by decide, by decide, by decide, by decide, ?_, ?_⟩
  · intro dwp count
    unfold DynamicWorkerPool.scaleDown
    simp only
    split_ifs <;> exact ⟨rfl, rfl⟩
  · intro dwp id hd o ho
    exact dynamicWorker_stays dwp id hd o ho

/-- Wrapping the subtrahend first does not change a wrapped difference. -/
theorem wrapInt64_sub_right (x y : Int) : wrapInt64 (x - wrapInt64 y) = wrapInt64 (x - y) := by
  unfold wrapInt64; omega

/-- The loop of `scaleUp` run `n` times from index `i` spawns the workers `i`, `i + 1`, ...,
`i + n - 1`, in this order. -/
theorem scaleUpLoop_wg (n : Nat) (dwp : DynamicWorkerPool) (i : Int) :
    (dwp.scaleUpLoop i n).wg = dwp.wg ++ (List.range n).map (fun j : Nat => i + (j : Int)) := by
  induction n generalizing dwp i with
  | zero => simp [DynamicWorkerPool.scaleUpLoop]
  | succ n ih =>
    simp only [DynamicWorkerPool.scaleUpLoop]
    rw [ih, List.range_succ_eq_map]
    simp only [List.map_cons, List.map_map, List.append_assoc, List.singleton_append,
      Nat.cast_zero, add_zero]
    have hm : List.map (fun j : Nat => i + 1 + (j : Int)) (List.range n)
        = List.map ((fun j : Nat => i + (j : Int)) ∘ Nat.succ) (List.range n) := by
      apply List.map_congr_left
      intro j _
      simp only [Function.comp, Nat.cast_succ]
      ring
    rw [hm]

/-- C29 as stated fails at the ends of the machine integers.
* `k = 2^63 - 1` on a pool with bounds 1 and 3 and count 1: `current + k` overflows `int`, the
  loop of `scaleUp` does not run and the count stays 1, not `min(current + k, maxWorkers) = 3`.
* `maxWorkers = 2^31` with count `2^31 - 1` and `k = 1`: the `int32` counter wraps to `-2^31`,
  not `2^31`.
* `minWorkers = -2^32` with count 0 and `k = -(2^31 + 1)`: the new count `-(2^31 + 1)` is
  stored as `int32`, which reads `2^31 - 1`. -/
theorem C29_counterexample_machine_integers :
    ((NewDynamicWorkerPool false 1 3).minWorkers ≤ (NewDynamicWorkerPool false 1 3).currentWorkers ∧
      (NewDynamicWorkerPool false 1 3).currentWorkers ≤ (NewDynamicWorkerPool false 1 3).maxWorkers ∧
      ((NewDynamicWorkerPool false 1 3).adjustWorkers
        9223372036854775807).GetCurrentWorkerCount = 1 ∧
      min ((NewDynamicWorkerPool false 1 3).currentWorkers + 9223372036854775807)
        (NewDynamicWorkerPool false 1 3).maxWorkers = 3) ∧
    ((NewDynamicWorkerPool false 2147483647 2147483648).minWorkers = 2147483647 ∧
      (NewDynamicWorkerPool false 2147483647 2147483648).currentWorkers = 2147483647 ∧
      (NewDynamicWorkerPool false 2147483647 2147483648).maxWorkers = 2147483648 ∧
      ((NewDynamicWorkerPool false 2147483647 2147483648).adjustWorkers
        1).GetCurrentWorkerCount = -2147483648 ∧
      min ((NewDynamicWorkerPool false 2147483647 2147483648).currentWorkers + 1)
        (NewDynamicWorkerPool false 2147483647 2147483648).maxWorkers = 2147483648) ∧
    ((NewDynamicWorkerPool false (-4294967296) 5).minWorkers = -4294967296 ∧
      (NewDynamicWorkerPool false (-4294967296) 5).currentWorkers = 0 ∧
      (NewDynamicWorkerPool false (-4294967296) 5).maxWorkers = 5 ∧
      ((NewDynamicWorkerPool false (-4294967296) 5).adjustWorkers
        (-2147483649)).GetCurrentWorkerCount = 2147483647 ∧
      max ((NewDynamicWorkerPool false (-4294967296) 5).currentWorkers + (-2147483649))
        (NewDynamicWorkerPool false (-4294967296) 5).minWorkers = -2147483649) := by
  refine ⟨⟨by decide, by decide, by decide, by decide⟩,
    ⟨by decide, by decide, by decide, by decide, by decide⟩,
    ⟨by decide, by decide, by decide, by decide, by decide⟩⟩

/-- C29 (amended): manual scaling clamps instead of failing.  For a dynamic pool whose
bounds fit the `int32` counter, `-2^31 <= minWorkers <= current <= maxWorkers <= 2^31 - 1`,
and an adjustment `k` for which `current + k` fits the 64 bit `int`, `adjustWorkers(k)` sets
the worker count to `min(current + k, maxWorkers)` when `k > 0`, spawning exactly
`min(current + k, maxWorkers) - current` new workers with the ids `current`, `current + 1`,
and so on; to `max(current + k, minWorkers)` when `k < 0`; and changes nothing when
`k = 0`. -/
theorem C29_adjustWorkers_clamps (dwp : DynamicWorkerPool) (k : Int)
    (hmin : -2147483648 ≤ dwp.minWorkers) (hlo : dwp.minWorkers ≤ dwp.currentWorkers)
    (hhi : dwp.currentWorkers ≤ dwp.maxWorkers) (hmax : dwp.maxWorkers ≤ 2147483647)
    (hk1 : -9223372036854775808 ≤ dwp.currentWorkers + k)
    (hk2 : dwp.currentWorkers + k ≤ 9223372036854775807) :
    (0 < k →
      (dwp.adjustWorkers k).GetCurrentWorkerCount
        = min (dwp.currentWorkers + k) dwp.maxWorkers ∧
      (dwp.adjustWorkers k).wg
        = dwp.wg ++ (List.range
            (min (dwp.currentWorkers + k) dwp.maxWorkers - dwp.currentWorkers).toNat).map
              (fun j : Nat => dwp.currentWorkers + (j : Int))) ∧
    (k < 0 →
      (dwp.adjustWorkers k).GetCurrentWorkerCount
        = max (dwp.currentWorkers + k) dwp.minWorkers) ∧
    (k = 0 → dwp.adjustWorkers k = dwp) := by
  have hw : wrapInt64 (dwp.currentWorkers + k) = dwp.currentWorkers + k :=
    wrapInt64_eq _ hk1 hk2
  refine ⟨?_, ?_, ?_⟩
  · intro hk
    have hadj : dwp.adjustWorkers k = dwp.scaleUp k := by
      simp [DynamicWorkerPool.adjustWorkers, hk]
    rw [hadj]
    constructor
    · rw [DynamicWorkerPool.GetCurrentWorkerCount,
        scaleUp_count dwp k (by omega) (by omega) (Or.inl hmax), hw]
      omega
    · unfold DynamicWorkerPool.scaleUp
      simp only [hw]
      exact scaleUpLoop_wg _ _ _
  · intro hk
    have hadj : dwp.adjustWorkers k = dwp.scaleDown (wrapInt64 (-k)) := by
      have : ¬ k > 0 := by omega
      simp [DynamicWorkerPool.adjustWorkers, this, hk]
    rw [hadj, DynamicWorkerPool.GetCurrentWorkerCount,
      scaleDown_count dwp _ hmin (by omega), wrapInt64_sub_right]
    have : dwp.currentWorkers - -k = dwp.currentWorkers + k := by ring
    rw [this, hw]
    omega
  · intro hk
    subst hk
    simp [DynamicWorkerPool.adjustWorkers]

/-- Witness of C29: bounds 1 and 3 with one worker started; `adjustWorkers(5)` stops at 3 and
spawns the workers 1 and 2, and `adjustWorkers(-5)` on the pool with three workers stops
at 1. -/
theorem C29_adjustWorkers_clamps_witness :
    (scenarioScaling.adjustWorkers 5).GetCurrentWorkerCount = 3 ∧
    (scenarioScaling.adjustWorkers 5).wg = [0, 1, 2] ∧
    ((scenarioScaling.adjustWorkers 5).adjustWorkers (-5)).GetCurrentWorkerCount = 1 := by
  obtain ⟨hc, hwg⟩ := (C29_adjustWorkers_clamps scenarioScaling 5 (by decide) (by decide)
    (by decide) (by decide) (by decide) (by decide)).1 (by decide)
  have hd := (C29_adjustWorkers_clamps (scenarioScaling.adjustWorkers 5) (-5) (by decide)
    (by decide) (by decide) (by decide) (by decide) (by decide)).2.1 (by decide)
  rw [hc, hwg, hd]
  exact ⟨by decide, by decide, by decide⟩

/-! ### Shutdown -/

/-- C27: evaluation of `Stop` with a worker blocked in its result send.  A basic pool with
one worker and queues of capacity 1 accepts a first job, whose result fills the result
queue, and a second job, whose result the worker then cannot send: the worker is blocked in
`wp.resultQueue <- result`.  `Stop` closes `quit` and waits in `wg.Wait()`; the worker never
reaches its `select`, so `Stop` never returns, and it has no timer and no error result.
`Pool.Stop` returns `nil` on every pool. -/
theorem C27_stop_waits_forever (p : Pool) :
    (∃ p1 p2 p3 : SimpleWorkerPool, ∃ r1 r2 : WorkerResult,
      (NewSimpleWorkerPool 1 1).Start.Submit scenarioFirstJob = .accepted p1 ∧
      p1.worker 0 false = [.processed scenarioFirstJob r1 p2] ∧
      p2 = scenarioFullResults ∧
      p2.Submit scenarioSecondJob = .accepted p3 ∧
      p3.worker 0 false = [.sendBlocked scenarioSecondJob r2 { p3 with jobQueue := Chan.make 1 }] ∧
      p2.StopWith [(0, r2)] = .waitsForever ∧
      (∃ p4, p2.StopWith [] = .returned p4)) ∧
    p.Stop.2 = none := by
  refine ⟨⟨_, _, _, _, _, rfl, rfl, by decide, rfl, rfl, by decide, ⟨_, rfl⟩⟩, rfl⟩

end CsMastery
